import Mathlib

/-!
# ListView (Engine/UI/ListView.cpp): selection, hierarchy and click handling

A shallow embedding of `ListView` and of the part of its collaborators
(`UIElement`, the scroll panel, the event bus) that the widget reads and writes.

Conventions of the embedding
* `unsigned` values are natural numbers; every `++` and `--` on an unsigned
  variable is taken modulo `UNSIGNED_MOD = 2^32`.
* `int` values are integers (pixel sizes, indents and key codes are far from
  the limits of `int`).
* `float` values are exact rationals.
* An element carries its address in the field `ptr`, and pointer comparison
  compares addresses. A pointer that is dereferenced is `Option UIElement`, a
  pointer that is only compared is `Option Nat` (the address); `none` is the
  null pointer.
* Every operation that reads an item or runs a loop returns `Option ListView`:
  `none` means that a null pointer was dereferenced or that a loop did not end
  within its fuel. A loop over the items gets `getNumItems() + 1` units of fuel,
  one for each evaluation of its loop condition.
-/

namespace Urho3D

/-! ## Machine integers -/

/-- Number of values of the 32 bit type `unsigned`. -/
abbrev UNSIGNED_MOD : Nat := 4294967296

/-- The sentinel `M_MAX_UNSIGNED` (0xffffffff), used for "no selection". -/
abbrev M_MAX_UNSIGNED : Nat := 4294967295

/-- The operator `++` on an `unsigned` variable. -/
def incUnsigned (u : Nat) : Nat := (u + 1) % UNSIGNED_MOD

/-- The operator `--` on an `unsigned` variable: 0 wraps to `M_MAX_UNSIGNED`. -/
def decUnsigned (u : Nat) : Nat := (u + UNSIGNED_MOD - 1) % UNSIGNED_MOD

/-- Conversion of an `unsigned` value to `int`, as in `(int)numItems` and in
passing `numItems` to a parameter of type `int`. -/
def unsignedToInt (u : Nat) : Int :=
  if u % UNSIGNED_MOD < 2147483648 then ((u % UNSIGNED_MOD : Nat) : Int)
  else ((u % UNSIGNED_MOD : Nat) : Int) - 4294967296

/-- Conversion `(int)x` of a `float` to `int`: truncation toward zero. -/
def floatToInt (x : Rat) : Int := Int.tdiv x.num (x.den : Int)

/-- Nearest integer to `n / d`, a tie going to the even neighbour (the default
rounding of IEEE 754 arithmetic). -/
def roundHalfEven (n d : Nat) : Nat :=
  let q := n / d
  let r := n % d
  if 2 * r < d then q
  else if d < 2 * r then q + 1
  else if q % 2 = 0 then q else q + 1

/-- Search, from `k` on, for the least `k` with `q < 2 ^ (k + 24)`: the number of
low bits that a 24-bit significand cannot hold. -/
def floatShift (q : Nat) : Nat → Nat → Nat
  | 0, k => k
  | fuel + 1, k => if q < 2 ^ (k + 24) then k else floatShift q fuel (k + 1)

/-- Rounding of a real value to the type `float` (IEEE 754 binary32: significand
of 24 bits, least exponent -149, round to nearest, ties to even), as done by the
conversion of an `int` to `float` and by every `float` operation. Values beyond
the largest `float` are rounded to 24 bits as well and not replaced by an
infinity; the conversion `(int)x` has no defined result for them. -/
def roundToFloat (x : Rat) : Rat :=
  let n := x.num.natAbs * 2 ^ 149
  let d := x.den
  let k := floatShift (n / d) (n / d) 0
  let m := roundHalfEven n (d * 2 ^ k)
  let r : Rat := mkRat ((m * 2 ^ k : Nat) : Int) (2 ^ 149)
  if x < 0 then -r else r

/-! ## Data model -/

/-- The class `IntVector2`. -/
structure IntVector2 where
  mX : Int
  mY : Int
deriving DecidableEq, Repr

/-- The class `IntRect`. -/
structure IntRect where
  mLeft : Int
  mTop : Int
  mRight : Int
  mBottom : Int
deriving DecidableEq, Repr

/-- What the list view reads and writes of a `UIElement` that is one of its items.
`ptr` is the address of the element, `indent` is
`getUserData()[indentHash].getInt()`, the other fields are what `isVisible()`,
`isSelected()`, `isEnabled()`, `getHeight()` and `getScreenPosition()` return. -/
structure UIElement where
  ptr : Nat
  mVisible : Bool
  mSelected : Bool
  mEnabled : Bool
  indent : Int
  mHeight : Int
  mScreenPosition : IntVector2
deriving DecidableEq, Repr

/-- What the list view reads of `mScrollPanel`. -/
structure ScrollPanel where
  mScreenPosition : IntVector2
  mWidth : Int
  mHeight : Int
  mClipBorder : IntRect
deriving DecidableEq, Repr

/-- The events the list view sends. The field `P_ELEMENT` of each event is the
list view itself and is left out. -/
inductive Event where
  /-- Event `EVENT_ITEMSELECTED` with `P_SELECTION`. -/
  | itemSelected (selection : Nat)
  /-- Event `EVENT_ITEMDOUBLECLICKED` with `P_SELECTION`. -/
  | itemDoubleClicked (selection : Nat)
  /-- Event `EVENT_LISTVIEWKEY` with `P_KEY`, `P_BUTTONS` and `P_QUALIFIERS`. -/
  | listViewKey (key buttons qualifiers : Int)
deriving DecidableEq, Repr

/-- State of a `ListView`. `items` are the children of `mContentElement` in
order, `mContentPosition` is `mContentElement->getPosition()`, `mViewPosition`
is what `getViewPosition()` returns, `events` is the sequence of events sent so
far (oldest first). -/
structure ListView where
  items : List UIElement
  mSelection : Nat
  mShowSelectionAlways : Bool
  mHierarchyMode : Bool
  mDoubleClickInterval : Rat
  mDoubleClickTimer : Rat
  mFocus : Bool
  mPageStep : Rat
  mScrollPanel : ScrollPanel
  mContentPosition : IntVector2
  mViewPosition : IntVector2
  events : List Event
deriving DecidableEq, Repr

/-- Constants of `InputEvents.h` used by the list view: key codes, the control
qualifier bit and the left mouse button. The header is not part of the sources
at hand, so the values are parameters. -/
structure InputConstants where
  KEY_LEFT : Int
  KEY_RIGHT : Int
  KEY_RETURN : Int
  KEY_UP : Int
  KEY_DOWN : Int
  KEY_PAGEUP : Int
  KEY_PAGEDOWN : Int
  KEY_HOME : Int
  KEY_END : Int
  QUAL_CTRL : Int
  MOUSEB_LEFT : Int
deriving DecidableEq, Repr

/-! ## Accessors -/

/-- Function `getItemIndent(UIElement* item)`: 0 for a null pointer. -/
def getItemIndent (item : Option UIElement) : Int :=
  match item with
  | none => 0
  | some it => it.indent

/-- Method `ListView::getNumItems()`. -/
def getNumItems (lv : ListView) : Nat := lv.items.length

/-- Method `ListView::getItem(index)`: `mContentElement->getChild(index)`, null when
the index is out of range. -/
def getItem (lv : ListView) (index : Nat) : Option UIElement := lv.items[index]?

/-- Method `ListView::getSelectedItem()`. -/
def getSelectedItem (lv : ListView) : Option UIElement := lv.items[lv.mSelection]?

/-- Write through the pointer `getItem(index)`: replaces the state of the item
at `index`. -/
def setItem (lv : ListView) (index : Nat) (item : UIElement) : ListView :=
  { lv with items := lv.items.set index item }

/-- Call `sendEvent(...)`: appends to the sequence of events sent. -/
def sendEvent (e : Event) (lv : ListView) : ListView :=
  { lv with events := lv.events ++ [e] }

/-- Modelled from the spec: `ScrollView::setViewPosition` is not part of the
sources at hand. The list view "delegates the actual offset clamping/application
to the external scroll container"; the model records the offset handed over. -/
def setViewPosition (newView : IntVector2) (lv : ListView) : ListView :=
  { lv with mViewPosition := newView }

/-! ## Selection -/

/-- Loop of `ListView::updateSelectionEffect`, from index `i`. -/
def updateSelectionEffectLoop (numItems : Nat) : Nat → Nat → ListView → Option ListView
  | 0, _, _ => none
  | fuel + 1, i, lv =>
    if i < numItems then
      match getItem lv i with
      | none => none
      | some item =>
        updateSelectionEffectLoop numItems fuel (incUnsigned i)
          (setItem lv i { item with
            mSelected := (i == lv.mSelection) && (lv.mFocus || lv.mShowSelectionAlways) })
    else some lv

/-- Method `ListView::updateSelectionEffect()`. -/
def updateSelectionEffect (lv : ListView) : Option ListView :=
  let numItems := getNumItems lv
  updateSelectionEffectLoop numItems (numItems + 1) 0 lv

/-- Method `ListView::ensureItemVisibility()`. -/
def ensureItemVisibility (lv : ListView) : ListView :=
  match getSelectedItem lv with
  | none => lv
  | some selected =>
    let currentOffsetY :=
      selected.mScreenPosition.mY - lv.mScrollPanel.mScreenPosition.mY - lv.mContentPosition.mY
    let newView := lv.mViewPosition
    let windowSizeY :=
      lv.mScrollPanel.mHeight - lv.mScrollPanel.mClipBorder.mTop - lv.mScrollPanel.mClipBorder.mBottom
    let newView :=
      if currentOffsetY < 0 then { newView with mY := newView.mY + currentOffsetY } else newView
    let newView :=
      if currentOffsetY + selected.mHeight > windowSizeY then
        { newView with mY := newView.mY + (currentOffsetY + selected.mHeight - windowSizeY) }
      else newView
    setViewPosition newView lv

/-- Method `ListView::setSelection(index)`. -/
def setSelection (index : Nat) (lv : ListView) : Option ListView := do
  let index ←
    if index ≥ getNumItems lv then some M_MAX_UNSIGNED
    else
      match getItem lv index with
      | none => none
      | some item => if !item.mVisible then some M_MAX_UNSIGNED else some index
  let lv := { lv with mSelection := index }
  let lv ← updateSelectionEffect lv
  let lv := ensureItemVisibility lv
  some (sendEvent (Event.itemSelected lv.mSelection) lv)

/-- Method `ListView::clearSelection()`. -/
def clearSelection (lv : ListView) : Option ListView :=
  setSelection M_MAX_UNSIGNED lv

/-- Loop of `ListView::changeSelection`; yields `okSelection`. -/
def changeSelectionLoop (numItems : Nat) (lv : ListView) : Nat → Int → Nat → Nat → Option Nat
  | 0, _, _, _ => none
  | fuel + 1, delta, newSelection, okSelection =>
    if delta ≠ 0 then
      let newSelection := if delta > 0 then incUnsigned newSelection else newSelection
      if delta > 0 ∧ newSelection ≥ numItems then some okSelection
      else
        let newSelection := if delta < 0 then decUnsigned newSelection else newSelection
        if delta < 0 ∧ newSelection ≥ numItems then some okSelection
        else
          match getItem lv newSelection with
          | none => none
          | some item =>
            if item.mVisible then
              let okSelection := newSelection
              let delta := if delta > 0 then delta - 1 else delta
              let delta := if delta < 0 then delta + 1 else delta
              changeSelectionLoop numItems lv fuel delta newSelection okSelection
            else changeSelectionLoop numItems lv fuel delta newSelection okSelection
    else some okSelection

/-- Method `ListView::changeSelection(delta)`. -/
def changeSelection (delta : Int) (lv : ListView) : Option ListView :=
  if lv.mSelection = M_MAX_UNSIGNED then some lv
  else do
    let numItems := getNumItems lv
    let okSelection ←
      changeSelectionLoop numItems lv (numItems + 1) delta lv.mSelection lv.mSelection
    setSelection okSelection lv

/-- Method `ListView::setShowSelectionAlways(enable)`. -/
def setShowSelectionAlways (enable : Bool) (lv : ListView) : ListView :=
  { lv with mShowSelectionAlways := enable }

/-- Method `ListView::setHierarchyMode(enable)`. -/
def setHierarchyMode (enable : Bool) (lv : ListView) : ListView :=
  { lv with mHierarchyMode := enable }

/-- Method `ListView::setDoubleClickInterval(interval)`. -/
def setDoubleClickInterval (interval : Rat) (lv : ListView) : ListView :=
  { lv with mDoubleClickInterval := interval }

/-- Method `ListView::onFocus()`. -/
def onFocus (lv : ListView) : Option ListView := updateSelectionEffect lv

/-- Method `ListView::onDefocus()`. -/
def onDefocus (lv : ListView) : Option ListView := updateSelectionEffect lv

/-! ## Hierarchy -/

/-- Loop of `ListView::setChildItemsVisible`, from index `i`. -/
def setChildItemsVisibleLoop (enable : Bool) (baseIndent : Int) (numItems : Nat) :
    Nat → Nat → ListView → Option ListView
  | 0, _, _ => none
  | fuel + 1, i, lv =>
    if i < numItems then
      let item := getItem lv i
      if getItemIndent item > baseIndent then
        match item with
        | none => none
        | some it =>
          setChildItemsVisibleLoop enable baseIndent numItems fuel (incUnsigned i)
            (setItem lv i { it with mVisible := enable })
      else some lv
    else some lv

/-- Method `ListView::setChildItemsVisible(enable)`. -/
def setChildItemsVisible (enable : Bool) (lv : ListView) : Option ListView :=
  if !lv.mHierarchyMode || lv.mSelection == M_MAX_UNSIGNED then some lv
  else
    let numItems := getNumItems lv
    let baseIndent := getItemIndent (getSelectedItem lv)
    setChildItemsVisibleLoop enable baseIndent numItems (numItems + 1)
      (incUnsigned lv.mSelection) lv

/-- Loop of `ListView::toggleChildItemsVisible`, from index `i`. -/
def toggleChildItemsVisibleLoop (baseIndent : Int) (numItems : Nat) :
    Nat → Nat → ListView → Option ListView
  | 0, _, _ => none
  | fuel + 1, i, lv =>
    if i < numItems then
      let item := getItem lv i
      if getItemIndent item > baseIndent then
        match item with
        | none => none
        | some it =>
          toggleChildItemsVisibleLoop baseIndent numItems fuel (incUnsigned i)
            (setItem lv i { it with mVisible := !it.mVisible })
      else some lv
    else some lv

/-- Method `ListView::toggleChildItemsVisible()`. -/
def toggleChildItemsVisible (lv : ListView) : Option ListView :=
  if !lv.mHierarchyMode || lv.mSelection == M_MAX_UNSIGNED then some lv
  else
    let numItems := getNumItems lv
    let baseIndent := getItemIndent (getSelectedItem lv)
    toggleChildItemsVisibleLoop baseIndent numItems (numItems + 1)
      (incUnsigned lv.mSelection) lv

/-! ## Item collection -/

/-- Modelled from the spec: `UIElement::addChild` and `UIElement::getParent` are
not part of the sources at hand. The spec says of `addItem`: "no-op if the item
is null or already a direct child of the content container; otherwise ensures it
is input-enabled and appends it to the ordered sequence". An element is a child
of the content element when one of the items has its address. -/
def isChild (lv : ListView) (item : UIElement) : Bool :=
  lv.items.any (fun child => child.ptr == item.ptr)

/-- Method `ListView::addItem(item)`. -/
def addItem (item : Option UIElement) (lv : ListView) : ListView :=
  match item with
  | none => lv
  | some it =>
    if isChild lv it then lv
    else { lv with items := lv.items ++ [{ it with mEnabled := true }] }

/-- Modelled from the spec: `UIElement::removeChild` is not part of the sources
at hand; "removal itself is delegated to the container". The container drops the
first child that has the given address (none for a null pointer) and keeps the
order of the others. -/
def removeChild (item : Option Nat) (lv : ListView) : ListView :=
  { lv with items := lv.items.eraseP (fun child => some child.ptr == item) }

/-- Loop of `ListView::removeItem(UIElement* item)` over the copy `items` of the
children, from index `i`. -/
def removeItemLoop (item : Option Nat) (items : List UIElement) :
    Nat → Nat → ListView → Option ListView
  | 0, _, _ => none
  | fuel + 1, i, lv =>
    if i < items.length then
      if (items[i]?).map UIElement.ptr = item then
        if lv.mSelection = i then clearSelection lv
        else if lv.mSelection > i then changeSelection (-1) lv
        else some lv
      else removeItemLoop item items fuel (incUnsigned i) lv
    else some lv

/-- Method `ListView::removeItem(UIElement* item)`; the pointer is given by its
address, `none` for a null pointer. -/
def removeItem (item : Option Nat) (lv : ListView) : Option ListView := do
  let items := lv.items
  let lv ← removeItemLoop item items (items.length + 1) 0 lv
  some (removeChild item lv)

/-- Method `ListView::removeItem(unsigned index)`. -/
def removeItemAt (index : Nat) (lv : ListView) : Option ListView :=
  if index ≥ getNumItems lv then some lv
  else do
    let item := getItem lv index
    let lv ←
      if lv.mSelection = index then clearSelection lv
      else if lv.mSelection > index then changeSelection (-1) lv
      else some lv
    some (removeChild (item.map UIElement.ptr) lv)

/-- Method `ListView::removeAllItems()`. -/
def removeAllItems (lv : ListView) : Option ListView :=
  clearSelection { lv with items := [] }

/-! ## Timer, keys and mouse -/

/-- Method `ListView::update(timeStep)`. -/
def update (timeStep : Rat) (lv : ListView) : ListView :=
  if lv.mDoubleClickTimer > 0 then
    { lv with mDoubleClickTimer := max (lv.mDoubleClickTimer - timeStep) 0 }
  else lv

/-- Loop of the `KEY_PAGEUP` case of `ListView::onKey`; yields `okSelection`. -/
def pageUpLoop (numItems : Nat) (lv : ListView) : Nat → Int → Nat → Nat → Option Nat
  | 0, _, _, _ => none
  | fuel + 1, stepPixels, newSelection, okSelection =>
    if newSelection < numItems then
      match getItem lv newSelection with
      | none => none
      | some item =>
        let height := if item.mVisible then item.mHeight else 0
        let okSelection := if item.mVisible then newSelection else okSelection
        if stepPixels < height then some okSelection
        else pageUpLoop numItems lv fuel (stepPixels - height) (decUnsigned newSelection) okSelection
    else some okSelection

/-- Loop of the `KEY_PAGEDOWN` case of `ListView::onKey`; yields `okSelection`. -/
def pageDownLoop (numItems : Nat) (lv : ListView) : Nat → Int → Nat → Nat → Option Nat
  | 0, _, _, _ => none
  | fuel + 1, stepPixels, newSelection, okSelection =>
    if newSelection < numItems then
      match getItem lv newSelection with
      | none => none
      | some item =>
        let height := if item.mVisible then item.mHeight else 0
        let okSelection := if item.mVisible then newSelection else okSelection
        if stepPixels < height then some okSelection
        else pageDownLoop numItems lv fuel (stepPixels - height) (incUnsigned newSelection) okSelection
    else some okSelection

/-- The expression `(int)(mPageStep * mScrollPanel->getHeight())` of
`ListView::onKey`: the height is converted to `float`, the product is a `float`
product (rounded once), and the cast truncates it. -/
def pageSize (lv : ListView) : Int :=
  floatToInt (roundToFloat (lv.mPageStep * roundToFloat (lv.mScrollPanel.mHeight : Rat)))

/-- The expression `((int)(mPageStep * mScrollPanel->getHeight())) -
getSelectedItem()->getHeight()` of `ListView::onKey`. -/
def pageStepPixels (lv : ListView) : Option Int :=
  match getSelectedItem lv with
  | none => none
  | some selected => some (pageSize lv - selected.mHeight)

/-- Method `ListView::onKey(key, buttons, qualifiers)`. -/
def onKey (c : InputConstants) (key buttons qualifiers : Int) (lv : ListView) :
    Option ListView :=
  let numItems := getNumItems lv
  let unhandled := some (sendEvent (Event.listViewKey key buttons qualifiers) lv)
  if lv.mSelection ≠ M_MAX_UNSIGNED ∧ numItems ≠ 0 then
    if key = c.KEY_LEFT then
      if lv.mHierarchyMode then setChildItemsVisible false lv else unhandled
    else if key = c.KEY_RIGHT then
      if lv.mHierarchyMode then setChildItemsVisible true lv else unhandled
    else if key = c.KEY_RETURN then
      if lv.mHierarchyMode then toggleChildItemsVisible lv else unhandled
    else if key = c.KEY_UP then
      if Int.land qualifiers c.QUAL_CTRL ≠ 0 then changeSelection (-(unsignedToInt numItems)) lv
      else changeSelection (-1) lv
    else if key = c.KEY_DOWN then
      if Int.land qualifiers c.QUAL_CTRL ≠ 0 then changeSelection (unsignedToInt numItems) lv
      else changeSelection 1 lv
    else if key = c.KEY_PAGEUP then do
      let stepPixels ← pageStepPixels lv
      let okSelection ←
        pageUpLoop numItems lv (numItems + 1) stepPixels lv.mSelection lv.mSelection
      setSelection okSelection lv
    else if key = c.KEY_PAGEDOWN then do
      let stepPixels ← pageStepPixels lv
      let okSelection ←
        pageDownLoop numItems lv (numItems + 1) stepPixels lv.mSelection lv.mSelection
      setSelection okSelection lv
    else if key = c.KEY_HOME then changeSelection (-(unsignedToInt (getNumItems lv))) lv
    else if key = c.KEY_END then changeSelection (unsignedToInt (getNumItems lv)) lv
    else unhandled
  else unhandled

/-- Body of the loop of `ListView::handleUIMouseClick` once the clicked element
is found at index `i`. -/
def handleClickOnItem (i : Nat) (lv : ListView) : Option ListView := do
  let isDoubleClick := decide (lv.mDoubleClickTimer > 0) && (lv.mSelection == i)
  let lv :=
    if isDoubleClick then { lv with mDoubleClickTimer := 0 }
    else { lv with mDoubleClickTimer := lv.mDoubleClickInterval }
  let lv ← setSelection i lv
  if isDoubleClick then
    let lv ← if lv.mHierarchyMode then toggleChildItemsVisible lv else some lv
    some (sendEvent (Event.itemDoubleClicked lv.mSelection) lv)
  else some lv

/-- Loop of `ListView::handleUIMouseClick`, from index `i`. -/
def handleUIMouseClickLoop (element : Option Nat) (numItems : Nat) :
    Nat → Nat → ListView → Option ListView
  | 0, _, _ => none
  | fuel + 1, i, lv =>
    if i < numItems then
      if element = (getItem lv i).map UIElement.ptr then handleClickOnItem i lv
      else handleUIMouseClickLoop element numItems fuel (incUnsigned i) lv
    else some lv

/-- Method `ListView::handleUIMouseClick(eventType, eventData)`; `button` is
`eventData[P_BUTTON]`, `element` the address in `eventData[P_ELEMENT]` (`none`
for a null pointer). -/
def handleUIMouseClick (c : InputConstants) (button : Int) (element : Option Nat)
    (lv : ListView) : Option ListView :=
  if button ≠ c.MOUSEB_LEFT then some lv
  else
    let numItems := getNumItems lv
    handleUIMouseClickLoop element numItems (numItems + 1) 0 lv

/-! ## Construction and sequences of calls -/

/-- State after the constructor `ListView::ListView(name)`: no items, no
selection, interval 0.5, timer 0. Focus, page step, geometry and view position
come from the base classes; they start as no focus, page step 1 and zeros. -/
def ListView.create : ListView :=
  { items := []
    mSelection := M_MAX_UNSIGNED
    mShowSelectionAlways := false
    mHierarchyMode := false
    mDoubleClickInterval := mkRat 1 2
    mDoubleClickTimer := 0
    mFocus := false
    mPageStep := 1
    mScrollPanel :=
      { mScreenPosition := { mX := 0, mY := 0 }
        mWidth := 0
        mHeight := 0
        mClipBorder := { mLeft := 0, mTop := 0, mRight := 0, mBottom := 0 } }
    mContentPosition := { mX := 0, mY := 0 }
    mViewPosition := { mX := 0, mY := 0 }
    events := [] }

/-- One call of a public operation of the list view. -/
inductive Op where
  | addItem (item : Option UIElement)
  | removeItem (item : Option Nat)
  | removeItemAt (index : Nat)
  | removeAllItems
  | setSelection (index : Nat)
  | changeSelection (delta : Int)
  | clearSelection
  | setShowSelectionAlways (enable : Bool)
  | setHierarchyMode (enable : Bool)
  | setDoubleClickInterval (interval : Rat)
  | setChildItemsVisible (enable : Bool)
  | toggleChildItemsVisible
  | onKey (key buttons qualifiers : Int)
  | mouseClick (button : Int) (element : Option Nat)
  | update (timeStep : Rat)
deriving DecidableEq, Repr

/-- Effect of one call. -/
def Op.apply (c : InputConstants) (op : Op) (lv : ListView) : Option ListView :=
  match op with
  | Op.addItem item => some (Urho3D.addItem item lv)
  | Op.removeItem item => Urho3D.removeItem item lv
  | Op.removeItemAt index => Urho3D.removeItemAt index lv
  | Op.removeAllItems => Urho3D.removeAllItems lv
  | Op.setSelection index => Urho3D.setSelection index lv
  | Op.changeSelection delta => Urho3D.changeSelection delta lv
  | Op.clearSelection => Urho3D.clearSelection lv
  | Op.setShowSelectionAlways enable => some (Urho3D.setShowSelectionAlways enable lv)
  | Op.setHierarchyMode enable => some (Urho3D.setHierarchyMode enable lv)
  | Op.setDoubleClickInterval interval => some (Urho3D.setDoubleClickInterval interval lv)
  | Op.setChildItemsVisible enable => Urho3D.setChildItemsVisible enable lv
  | Op.toggleChildItemsVisible => Urho3D.toggleChildItemsVisible lv
  | Op.onKey key buttons qualifiers => Urho3D.onKey c key buttons qualifiers lv
  | Op.mouseClick button element => Urho3D.handleUIMouseClick c button element lv
  | Op.update timeStep => some (Urho3D.update timeStep lv)

/-- Effect of a sequence of calls, first call first. -/
def runOps (c : InputConstants) : List Op → ListView → Option ListView
  | [], lv => some lv
  | op :: ops, lv => (op.apply c lv).bind (runOps c ops)

/-! ## Closed forms of the loops -/

/-- The items from index `i` on after `updateSelectionEffect`. -/
def selectionEffect (selection : Nat) (shown : Bool) : Nat → List UIElement → List UIElement
  | _, [] => []
  | i, item :: rest =>
    { item with mSelected := (i == selection) && shown } :: selectionEffect selection shown (i + 1) rest


/-- The index that `setSelection(index)` stores in `mSelection`. -/
def resolveSelection (lv : ListView) (index : Nat) : Nat :=
  match getItem lv index with
  | none => M_MAX_UNSIGNED
  | some item => if item.mVisible then index else M_MAX_UNSIGNED

/-! ## Example states -/

/-- An item with the given address, visibility and indent; not selected, 20
pixels high. -/
def mkItem (ptr : Nat) (visible : Bool) (indent : Int) : UIElement :=
  { ptr := ptr
    mVisible := visible
    mSelected := false
    mEnabled := true
    indent := indent
    mHeight := 20
    mScreenPosition := { mX := 0, mY := 0 } }

/-- A list view without focus holding three items; the middle one is invisible. -/
def exampleView : ListView :=
  { ListView.create with items := [mkItem 1 true 0, mkItem 2 false 0, mkItem 3 true 0] }

/-! ## Reading changeSelection as a move among the visible items -/

/-- Whether index `j` holds an item and that item is visible. -/
def isVisibleAt (lv : ListView) (j : Nat) : Bool :=
  match getItem lv j with
  | none => false
  | some item => item.mVisible

/-- Indices of the visible items with index above `s`, in ascending order (the
nearest one first). -/
def visibleAfter (lv : ListView) (s : Nat) : List Nat :=
  (List.range' (s + 1) (getNumItems lv - (s + 1))).filter (isVisibleAt lv)

/-- Indices of the visible items with index below `s`, in descending order (the
nearest one first). -/
def visibleBefore (lv : ListView) (s : Nat) : List Nat :=
  ((List.range s).filter (isVisibleAt lv)).reverse

/-- The candidate reached after `steps` moves along `candidates` starting from
`start`: each move goes to the next candidate, and moving stops when the
candidates are used up. -/
def moveAlong (start : Nat) : List Nat → Nat → Nat
  | [], _ => start
  | _ :: _, 0 => start
  | x :: rest, steps + 1 => moveAlong x rest steps

/-- The example view with item 0 selected. -/
def exampleSelected : ListView :=
  { exampleView with mSelection := 0 }

/-- The example view with a selection that points at the invisible item 1. -/
def exampleStale : ListView :=
  { exampleView with mSelection := 1 }

/-- Some values for the constants of `InputEvents.h`, for use in examples. -/
def exampleConstants : InputConstants :=
  { KEY_LEFT := 37
    KEY_RIGHT := 39
    KEY_RETURN := 13
    KEY_UP := 38
    KEY_DOWN := 40
    KEY_PAGEUP := 33
    KEY_PAGEDOWN := 34
    KEY_HOME := 36
    KEY_END := 35
    QUAL_CTRL := 2
    MOUSEB_LEFT := 1 }

/-- The example view with the last item (index 2) selected. -/
def exampleLast : ListView :=
  { exampleView with mSelection := 2 }

/-- Calls on a new list view: three visible items are added, the child of item 0
is collapsed, item 2 is selected and item 0 is removed. -/
def collapseThenRemove : List Op :=
  [ Op.addItem (some (mkItem 1 true 0)),
    Op.addItem (some (mkItem 2 true 1)),
    Op.addItem (some (mkItem 3 true 0)),
    Op.setHierarchyMode true,
    Op.setSelection 0,
    Op.setChildItemsVisible false,
    Op.setSelection 2,
    Op.removeItemAt 0 ]

/-- Calls on a new list view: an invisible and a visible item are added, the
visible one is selected and the invisible one is removed. -/
def removeInvisibleBelow : List Op :=
  [ Op.addItem (some (mkItem 1 false 0)),
    Op.addItem (some (mkItem 2 true 0)),
    Op.setSelection 1,
    Op.removeItemAt 0 ]

/-- Calls on a new list view: three visible items are added with their selected
flag clear, the selection is shown always, item 2 is selected and item 0 is
removed. -/
def flagThenRemove : List Op :=
  [ Op.addItem (some (mkItem 1 true 0)),
    Op.addItem (some (mkItem 2 true 0)),
    Op.addItem (some (mkItem 3 true 0)),
    Op.setShowSelectionAlways true,
    Op.setSelection 2,
    Op.removeItemAt 0 ]

/-- The items from some index on after the loop of `setChildItemsVisible`
(`change` sets the visibility) or `toggleChildItemsVisible` (`change` negates
it): `change` is applied up to the first item whose indent is not above
`baseIndent`. -/
def changeWhileDeeper (change : UIElement → UIElement) (baseIndent : Int) :
    List UIElement → List UIElement
  | [] => []
  | item :: rest =>
    if item.indent > baseIndent then change item :: changeWhileDeeper change baseIndent rest
    else item :: rest

/-- A list view in hierarchy mode with item 0 selected: item 0 (indent 0) is
followed by two deeper items, an item of indent 0 and one more deeper item. -/
def exampleTree : ListView :=
  { ListView.create with
    items := [mkItem 1 true 0, mkItem 2 true 1, mkItem 3 true 2, mkItem 4 true 0, mkItem 5 true 1]
    mSelection := 0
    mHierarchyMode := true }

/-! ## Scroll-into-view quantities -/

/-- The value `currentOffset.mY` of `ensureItemVisibility` for the selected item
`selected`: its top edge relative to the viewport. -/
def currentOffsetY (lv : ListView) (selected : UIElement) : Int :=
  selected.mScreenPosition.mY - lv.mScrollPanel.mScreenPosition.mY - lv.mContentPosition.mY

/-- The value `windowSize.mY` of `ensureItemVisibility`: the viewport height
minus the top and bottom border insets. -/
def windowSizeY (lv : ListView) : Int :=
  lv.mScrollPanel.mHeight - lv.mScrollPanel.mClipBorder.mTop - lv.mScrollPanel.mClipBorder.mBottom

/-- An item with the given address, top edge and height; visible, not selected. -/
def mkRow (ptr : Nat) (top : Int) (height : Int) : UIElement :=
  { ptr := ptr
    mVisible := true
    mSelected := false
    mEnabled := true
    indent := 0
    mHeight := height
    mScreenPosition := { mX := 0, mY := top } }

/-- A list view whose viewport is 50 pixels high, with view offset (0, 7), and
whose only item is selected, starts 10 pixels above the viewport and is 100
pixels high. -/
def exampleTall : ListView :=
  { ListView.create with
    items := [mkRow 1 (-10) 100]
    mSelection := 0
    mScrollPanel :=
      { mScreenPosition := { mX := 0, mY := 0 }
        mWidth := 80
        mHeight := 50
        mClipBorder := { mLeft := 0, mTop := 0, mRight := 0, mBottom := 0 } }
    mViewPosition := { mX := 0, mY := 7 } }

/-- A list view whose viewport is 50 pixels high, with view offset (3, 7), and
whose only item is selected, starts 40 pixels below the top of the viewport and
is 20 pixels high. -/
def exampleBelow : ListView :=
  { ListView.create with
    items := [mkRow 1 40 20]
    mSelection := 0
    mScrollPanel :=
      { mScreenPosition := { mX := 0, mY := 0 }
        mWidth := 80
        mHeight := 50
        mClipBorder := { mLeft := 0, mTop := 0, mRight := 0, mBottom := 0 } }
    mViewPosition := { mX := 3, mY := 7 } }

/-! ## Key codes -/

/-- The nine key codes that `onKey` switches on are pairwise different, as the
case labels of a `switch` statement have to be. -/
def InputConstants.keysDistinct (c : InputConstants) : Prop :=
  [c.KEY_LEFT, c.KEY_RIGHT, c.KEY_RETURN, c.KEY_UP, c.KEY_DOWN, c.KEY_PAGEUP, c.KEY_PAGEDOWN,
    c.KEY_HOME, c.KEY_END].Nodup

instance (c : InputConstants) : Decidable c.keysDistinct := by
  unfold InputConstants.keysDistinct
  infer_instance

/-! ## Heights walked by the page keys -/

/-- The height the page loops charge for index `k`: the height of the item when
it is visible, 0 when it is invisible (or when there is no item). -/
def visibleHeight (lv : ListView) (k : Nat) : Int :=
  match getItem lv k with
  | none => 0
  | some item => if item.mVisible then item.mHeight else 0

/-- Sum of the heights of the visible items with index `k`, `a ≤ k < b`. -/
def heightRange (lv : ListView) (a b : Nat) : Int :=
  ((List.range' a (b - a)).map (visibleHeight lv)).sum

/-- A list view with a viewport of 60 pixels and page step 1, holding the given
visible rows (addresses 1, 2, ... and the given heights), with item 0 selected. -/
def pageView (heights : List Int) : ListView :=
  { ListView.create with
    items := heights.enum.map (fun (entry : Nat × Int) => mkRow (entry.1 + 1) 0 entry.2)
    mSelection := 0
    mPageStep := 1
    mScrollPanel :=
      { mScreenPosition := { mX := 0, mY := 0 }
        mWidth := 80
        mHeight := 60
        mClipBorder := { mLeft := 0, mTop := 0, mRight := 0, mBottom := 0 } } }

/-- The `float` nearest to 0.7, the value of the literal `0.7f`. -/
def pointSeven : Rat := mkRat 11744051 16777216

/-- A list view with the given page step and viewport height, holding `n`
visible rows of height 1, with item 0 selected. -/
def unitRows (pageStep : Rat) (viewport : Int) (n : Nat) : ListView :=
  { ListView.create with
    items := (List.range n).map (fun i => mkRow (i + 1) 0 1)
    mSelection := 0
    mPageStep := pageStep
    mScrollPanel :=
      { mScreenPosition := { mX := 0, mY := 0 }
        mWidth := 80
        mHeight := viewport
        mClipBorder := { mLeft := 0, mTop := 0, mRight := 0, mBottom := 0 } } }

/-! ## The page loops with a count of their iterations -/

/-- The loop `pageUpLoop` with a counter: besides `okSelection` it yields how
often the body of the loop ran. -/
def pageUpLoopCounted (numItems : Nat) (lv : ListView) :
    Nat → Int → Nat → Nat → Nat → Option (Nat × Nat)
  | 0, _, _, _, _ => none
  | fuel + 1, stepPixels, newSelection, okSelection, iterations =>
    if newSelection < numItems then
      match getItem lv newSelection with
      | none => none
      | some item =>
        let height := if item.mVisible then item.mHeight else 0
        let okSelection := if item.mVisible then newSelection else okSelection
        if stepPixels < height then some (okSelection, iterations + 1)
        else
          pageUpLoopCounted numItems lv fuel (stepPixels - height) (decUnsigned newSelection)
            okSelection (iterations + 1)
    else some (okSelection, iterations)

/-- The loop `pageDownLoop` with a counter: besides `okSelection` it yields how
often the body of the loop ran. -/
def pageDownLoopCounted (numItems : Nat) (lv : ListView) :
    Nat → Int → Nat → Nat → Nat → Option (Nat × Nat)
  | 0, _, _, _, _ => none
  | fuel + 1, stepPixels, newSelection, okSelection, iterations =>
    if newSelection < numItems then
      match getItem lv newSelection with
      | none => none
      | some item =>
        let height := if item.mVisible then item.mHeight else 0
        let okSelection := if item.mVisible then newSelection else okSelection
        if stepPixels < height then some (okSelection, iterations + 1)
        else
          pageDownLoopCounted numItems lv fuel (stepPixels - height) (incUnsigned newSelection)
            okSelection (iterations + 1)
    else some (okSelection, iterations)

/-- The condition under which the specification says `onKey` consumes the key:
a selection exists, the item count is nonzero, and the key is Up, Down, Page-Up,
Page-Down, Home or End, or hierarchy mode is on and the key is Left, Right or
Return. -/
def keyIsHandled (c : InputConstants) (key : Int) (lv : ListView) : Prop :=
  lv.mSelection ≠ M_MAX_UNSIGNED ∧ getNumItems lv ≠ 0 ∧
    ((key = c.KEY_UP ∨ key = c.KEY_DOWN ∨ key = c.KEY_PAGEUP ∨ key = c.KEY_PAGEDOWN ∨
        key = c.KEY_HOME ∨ key = c.KEY_END) ∨
      (lv.mHierarchyMode = true ∧
        (key = c.KEY_LEFT ∨ key = c.KEY_RIGHT ∨ key = c.KEY_RETURN)))

instance (c : InputConstants) (key : Int) (lv : ListView) : Decidable (keyIsHandled c key lv) := by
  unfold keyIsHandled
  infer_instance

/-! ## The double-click timer along sequences of calls -/

/-- Timer and interval of `after` are those of `before`. -/
def SameTimer (before after : ListView) : Prop :=
  after.mDoubleClickTimer = before.mDoubleClickTimer ∧
    after.mDoubleClickInterval = before.mDoubleClickInterval

/-- The timer is within `[0, doubleClickInterval]`. -/
def timerInRange (lv : ListView) : Prop :=
  0 ≤ lv.mDoubleClickTimer ∧ lv.mDoubleClickTimer ≤ lv.mDoubleClickInterval

/-- The restriction on a call under which the timer stays in range: a time step
is not negative, and a new interval is not below the timer at the time of the
call. Every other call is unrestricted. -/
def Op.keepsTimer (op : Op) (lv : ListView) : Prop :=
  match op with
  | Op.update timeStep => 0 ≤ timeStep
  | Op.setDoubleClickInterval interval => lv.mDoubleClickTimer ≤ interval
  | _ => True

/-- Every call of the sequence, run from `lv` on, satisfies `Op.keepsTimer` in
the state in which it is made. -/
def keepTimer (c : InputConstants) : List Op → ListView → Prop
  | [], _ => True
  | op :: ops, lv =>
    op.keepsTimer lv ∧
      match op.apply c lv with
      | none => True
      | some lv' => keepTimer c ops lv'

instance (op : Op) (lv : ListView) : Decidable (op.keepsTimer lv) :=
  match op with
  | Op.update timeStep => inferInstanceAs (Decidable (0 ≤ timeStep))
  | Op.setDoubleClickInterval interval =>
    inferInstanceAs (Decidable (lv.mDoubleClickTimer ≤ interval))
  | Op.addItem _ => isTrue trivial
  | Op.removeItem _ => isTrue trivial
  | Op.removeItemAt _ => isTrue trivial
  | Op.removeAllItems => isTrue trivial
  | Op.setSelection _ => isTrue trivial
  | Op.changeSelection _ => isTrue trivial
  | Op.clearSelection => isTrue trivial
  | Op.setShowSelectionAlways _ => isTrue trivial
  | Op.setHierarchyMode _ => isTrue trivial
  | Op.setChildItemsVisible _ => isTrue trivial
  | Op.toggleChildItemsVisible => isTrue trivial
  | Op.onKey _ _ _ => isTrue trivial
  | Op.mouseClick _ _ => isTrue trivial

/-- Decision procedure for `keepTimer`, by running the calls. -/
def decKeepTimer (c : InputConstants) :
    (ops : List Op) → (lv : ListView) → Decidable (keepTimer c ops lv)
  | [], _ => isTrue trivial
  | op :: ops, lv =>
    if hk : op.keepsTimer lv then
      match h : op.apply c lv with
      | none => isTrue (by simp only [keepTimer, h]; exact ⟨hk, trivial⟩)
      | some lv' =>
        match decKeepTimer c ops lv' with
        | isTrue hr => isTrue (by simp only [keepTimer, h]; exact ⟨hk, hr⟩)
        | isFalse hr => isFalse (by simp only [keepTimer, h]; exact fun hh => hr hh.2)
    else isFalse (by simp only [keepTimer]; exact fun hh => hk hh.1)

instance (c : InputConstants) (ops : List Op) (lv : ListView) :
    Decidable (keepTimer c ops lv) :=
  decKeepTimer c ops lv

/-- Calls on a new list view: an item is added and clicked, then the interval is
lowered to 1/10 while the timer runs. -/
def clickThenLowerInterval : List Op :=
  [ Op.addItem (some (mkItem 1 true 0)),
    Op.mouseClick 1 (some 1),
    Op.setDoubleClickInterval (mkRat 1 10) ]

/-- Calls on a new list view: an item is added and clicked, then `update` is
called with the negative time step -1. -/
def clickThenNegativeStep : List Op :=
  [ Op.addItem (some (mkItem 1 true 0)),
    Op.mouseClick 1 (some 1),
    Op.update (-1) ]

/-- Calls on a new list view: the interval is set to -1, then an item is added
and clicked. -/
def negativeIntervalThenClick : List Op :=
  [ Op.setDoubleClickInterval (-1),
    Op.addItem (some (mkItem 1 true 0)),
    Op.mouseClick 1 (some 1) ]

/-- Calls on a new list view that keep the timer in range: an item is added and
clicked, half of the interval passes, and the interval is raised. -/
def clickThenWait : List Op :=
  [ Op.addItem (some (mkItem 1 true 0)),
    Op.mouseClick 1 (some 1),
    Op.update (mkRat 1 4),
    Op.setDoubleClickInterval 1 ]

/-! # Theorems -/

/-! ## Lists and machine integers -/

theorem getElem?_append_cons_length {α : Type} (pre : List α) (x : α) (rest : List α) :
    (pre ++ x :: rest)[pre.length]? = some x := by
  induction pre with
  | nil => simp
  | cons a pre ih => simpa using ih

theorem set_append_cons_length {α : Type} (pre : List α) (x y : α) (rest : List α) :
    (pre ++ x :: rest).set pre.length y = pre ++ y :: rest := by
  induction pre with
  | nil => simp
  | cons a pre ih => simp [ih]

theorem incUnsigned_of_lt {i : Nat} (h : i + 1 < UNSIGNED_MOD) : incUnsigned i = i + 1 := by
  unfold incUnsigned
  exact Nat.mod_eq_of_lt h

theorem decUnsigned_succ {i : Nat} (h : i + 1 < UNSIGNED_MOD) : decUnsigned (i + 1) = i := by
  unfold decUnsigned
  have : i + 1 + UNSIGNED_MOD - 1 = i + UNSIGNED_MOD := by omega
  rw [this, Nat.add_mod_right]
  exact Nat.mod_eq_of_lt (by omega)

theorem decUnsigned_zero : decUnsigned 0 = M_MAX_UNSIGNED := by
  decide

theorem updateSelectionEffectLoop_eq (n : Nat) (hn : n < UNSIGNED_MOD) :
    ∀ (suf pre : List UIElement) (fuel : Nat) (lv : ListView),
      lv.items = pre ++ suf → n = lv.items.length → suf.length < fuel →
      updateSelectionEffectLoop n fuel pre.length lv =
        some { lv with items := (pre ++ selectionEffect lv.mSelection
          (lv.mFocus || lv.mShowSelectionAlways) pre.length suf) } := by
  intro suf
  induction suf with
  | nil =>
    intro pre fuel lv hitems hlen hfuel
    obtain ⟨fuel, rfl⟩ : ∃ f, fuel = f + 1 := ⟨fuel - 1, by simp at hfuel; omega⟩
    have hpre : pre.length = n := by rw [hlen, hitems]; simp
    simp only [updateSelectionEffectLoop, hpre, lt_irrefl, if_false, selectionEffect]
    rw [← hitems]
  | cons x rest ih =>
    intro pre fuel lv hitems hlen hfuel
    obtain ⟨fuel, rfl⟩ : ∃ f, fuel = f + 1 := ⟨fuel - 1, by simp at hfuel; omega⟩
    have hlt : pre.length < n := by rw [hlen, hitems]; simp
    have hget : getItem lv pre.length = some x := by
      unfold getItem; rw [hitems]; exact getElem?_append_cons_length pre x rest
    have hinc : incUnsigned pre.length = (pre ++ [{ x with mSelected := (pre.length == lv.mSelection) && (lv.mFocus || lv.mShowSelectionAlways) }]).length := by
      rw [incUnsigned_of_lt (by omega)]; simp
    simp only [updateSelectionEffectLoop, hlt, if_true, hget]
    rw [hinc, ih]
    · simp [setItem, selectionEffect]
    · simp [setItem, hitems, set_append_cons_length]
    · simp [setItem, hlen]
    · simp at hfuel; omega

theorem updateSelectionEffect_eq (lv : ListView) (hn : getNumItems lv < UNSIGNED_MOD) :
    updateSelectionEffect lv =
      some { lv with items := (selectionEffect lv.mSelection
        (lv.mFocus || lv.mShowSelectionAlways) 0 lv.items) } := by
  have h := updateSelectionEffectLoop_eq (getNumItems lv) hn lv.items [] (getNumItems lv + 1) lv
    (by simp) rfl (by simp [getNumItems])
  simpa [updateSelectionEffect] using h

/-! ## setSelection -/

theorem length_selectionEffect (sel : Nat) (sh : Bool) (l : List UIElement) :
    ∀ i, (selectionEffect sel sh i l).length = l.length := by
  induction l with
  | nil => intro i; rfl
  | cons x rest ih => intro i; simp [selectionEffect, ih]

theorem getElem?_selectionEffect (sel : Nat) (sh : Bool) (l : List UIElement) :
    ∀ (i j : Nat), (selectionEffect sel sh i l)[j]? =
      (l[j]?).map (fun (it : UIElement) => { it with mSelected := (i + j == sel) && sh }) := by
  induction l with
  | nil => intro i j; simp [selectionEffect]
  | cons x rest ih =>
    intro i j
    cases j with
    | zero => simp [selectionEffect]
    | succ j =>
      simp only [selectionEffect, List.getElem?_cons_succ, ih]
      have : i + 1 + j = i + (j + 1) := by omega
      rw [this]

theorem map_ptr_selectionEffect (sel : Nat) (sh : Bool) (l : List UIElement) :
    ∀ i, (selectionEffect sel sh i l).map UIElement.ptr = l.map UIElement.ptr := by
  induction l with
  | nil => intro i; rfl
  | cons x rest ih => intro i; simp [selectionEffect, ih]

theorem map_mVisible_selectionEffect (sel : Nat) (sh : Bool) (l : List UIElement) :
    ∀ i, (selectionEffect sel sh i l).map UIElement.mVisible = l.map UIElement.mVisible := by
  induction l with
  | nil => intro i; rfl
  | cons x rest ih => intro i; simp [selectionEffect, ih]

theorem map_indent_selectionEffect (sel : Nat) (sh : Bool) (l : List UIElement) :
    ∀ i, (selectionEffect sel sh i l).map UIElement.indent = l.map UIElement.indent := by
  induction l with
  | nil => intro i; rfl
  | cons x rest ih => intro i; simp [selectionEffect, ih]

theorem map_mHeight_selectionEffect (sel : Nat) (sh : Bool) (l : List UIElement) :
    ∀ i, (selectionEffect sel sh i l).map UIElement.mHeight = l.map UIElement.mHeight := by
  induction l with
  | nil => intro i; rfl
  | cons x rest ih => intro i; simp [selectionEffect, ih]

@[simp] theorem ensureItemVisibility_items (lv : ListView) :
    (ensureItemVisibility lv).items = lv.items := by
  unfold ensureItemVisibility
  split <;> rfl

@[simp] theorem ensureItemVisibility_mSelection (lv : ListView) :
    (ensureItemVisibility lv).mSelection = lv.mSelection := by
  unfold ensureItemVisibility
  split <;> rfl

@[simp] theorem ensureItemVisibility_events (lv : ListView) :
    (ensureItemVisibility lv).events = lv.events := by
  unfold ensureItemVisibility
  split <;> rfl

@[simp] theorem ensureItemVisibility_mDoubleClickTimer (lv : ListView) :
    (ensureItemVisibility lv).mDoubleClickTimer = lv.mDoubleClickTimer := by
  unfold ensureItemVisibility
  split <;> rfl

@[simp] theorem ensureItemVisibility_mDoubleClickInterval (lv : ListView) :
    (ensureItemVisibility lv).mDoubleClickInterval = lv.mDoubleClickInterval := by
  unfold ensureItemVisibility
  split <;> rfl

@[simp] theorem ensureItemVisibility_mHierarchyMode (lv : ListView) :
    (ensureItemVisibility lv).mHierarchyMode = lv.mHierarchyMode := by
  unfold ensureItemVisibility
  split <;> rfl

@[simp] theorem ensureItemVisibility_mFocus (lv : ListView) :
    (ensureItemVisibility lv).mFocus = lv.mFocus := by
  unfold ensureItemVisibility
  split <;> rfl

@[simp] theorem ensureItemVisibility_mShowSelectionAlways (lv : ListView) :
    (ensureItemVisibility lv).mShowSelectionAlways = lv.mShowSelectionAlways := by
  unfold ensureItemVisibility
  split <;> rfl

theorem resolveSelection_eq_self {lv : ListView} {index : Nat} {item : UIElement}
    (hget : getItem lv index = some item) (hvis : item.mVisible = true) :
    resolveSelection lv index = index := by
  simp [resolveSelection, hget, hvis]

theorem resolveSelection_cases (lv : ListView) (index : Nat) :
    (resolveSelection lv index = index ∧ ∃ item, getItem lv index = some item ∧ item.mVisible = true)
    ∨ (resolveSelection lv index = M_MAX_UNSIGNED ∧
        ¬ ∃ item, getItem lv index = some item ∧ item.mVisible = true) := by
  unfold resolveSelection
  cases hget : getItem lv index with
  | none => right; simp
  | some item =>
    cases hvis : item.mVisible with
    | true => left; simp [hvis]
    | false => right; simp [hvis]

/-- Closed form of `setSelection`: it never fails, stores the resolved index,
recomputes every selected flag, scrolls and sends `ItemSelected`. -/
theorem setSelection_eq (index : Nat) (lv : ListView) (hn : getNumItems lv < UNSIGNED_MOD) :
    setSelection index lv =
      some (sendEvent (Event.itemSelected (resolveSelection lv index))
        (ensureItemVisibility { lv with
          mSelection := resolveSelection lv index
          items := (selectionEffect (resolveSelection lv index)
            (lv.mFocus || lv.mShowSelectionAlways) 0 lv.items) })) := by
  have hupd := updateSelectionEffect_eq { lv with mSelection := resolveSelection lv index } hn
  unfold setSelection
  by_cases hge : index ≥ getNumItems lv
  · have hnone : getItem lv index = none := by
      unfold getItem; exact List.getElem?_eq_none (by simpa [getNumItems] using hge)
    have hres : resolveSelection lv index = M_MAX_UNSIGNED := by simp [resolveSelection, hnone]
    rw [hres] at hupd ⊢
    simp [hge, hupd]
  · have hlt : index < lv.items.length := by simpa [getNumItems] using hge
    have hsome : getItem lv index = some lv.items[index] := by
      unfold getItem; exact List.getElem?_eq_getElem hlt
    cases hvis : lv.items[index].mVisible with
    | true =>
      have hres : resolveSelection lv index = index := resolveSelection_eq_self hsome hvis
      rw [hres] at hupd ⊢
      simp [hge, hsome, hvis, hupd]
    | false =>
      have hres : resolveSelection lv index = M_MAX_UNSIGNED := by
        simp [resolveSelection, hsome, hvis]
      rw [hres] at hupd ⊢
      simp [hge, hsome, hvis, hupd]


/-- C1. For every list view and every index `i`, `setSelection(i)` completes;
afterwards the selection is `i` when `i` is below the number of items and item
`i` is visible, and `M_MAX_UNSIGNED` in every other case; the order of the items
(their addresses), their visibility and their indents are unchanged. -/
theorem setSelection_selects_or_clears (lv : ListView) (i : Nat)
    (hn : getNumItems lv < UNSIGNED_MOD) :
    ∃ lv', setSelection i lv = some lv' ∧
      ((i < getNumItems lv ∧ ∃ item, getItem lv i = some item ∧ item.mVisible = true) →
        lv'.mSelection = i) ∧
      (¬ (i < getNumItems lv ∧ ∃ item, getItem lv i = some item ∧ item.mVisible = true) →
        lv'.mSelection = M_MAX_UNSIGNED) ∧
      lv'.items.map UIElement.ptr = lv.items.map UIElement.ptr ∧
      lv'.items.map UIElement.mVisible = lv.items.map UIElement.mVisible ∧
      lv'.items.map UIElement.indent = lv.items.map UIElement.indent := by
  refine ⟨_, setSelection_eq i lv hn, ?_, ?_, ?_, ?_, ?_⟩
  · rintro ⟨_, item, hget, hvis⟩
    simp [sendEvent, resolveSelection_eq_self hget hvis]
  · intro hnot
    rcases resolveSelection_cases lv i with ⟨_, item, hget, hvis⟩ | ⟨hres, _⟩
    · exfalso
      apply hnot
      refine ⟨?_, item, hget, hvis⟩
      unfold getItem at hget
      have := (List.getElem?_eq_some_iff.mp hget).1
      simpa [getNumItems] using this
    · simp [sendEvent, hres]
  · simp [sendEvent, map_ptr_selectionEffect]
  · simp [sendEvent, map_mVisible_selectionEffect]
  · simp [sendEvent, map_indent_selectionEffect]

/-- Witness for C1 on the three-item example, index 1 (an invisible item). -/
theorem setSelection_selects_or_clears_witness :
    getNumItems exampleView < UNSIGNED_MOD ∧
    ∃ lv', setSelection 1 exampleView = some lv' ∧
      ((1 < getNumItems exampleView ∧
          ∃ item, getItem exampleView 1 = some item ∧ item.mVisible = true) →
        lv'.mSelection = 1) ∧
      (¬ (1 < getNumItems exampleView ∧
          ∃ item, getItem exampleView 1 = some item ∧ item.mVisible = true) →
        lv'.mSelection = M_MAX_UNSIGNED) ∧
      lv'.items.map UIElement.ptr = exampleView.items.map UIElement.ptr ∧
      lv'.items.map UIElement.mVisible = exampleView.items.map UIElement.mVisible ∧
      lv'.items.map UIElement.indent = exampleView.items.map UIElement.indent :=
  ⟨by decide, setSelection_selects_or_clears exampleView 1 (by decide)⟩

/-- C2, as stated, fails: the example view has neither focus nor
`showSelectionAlways`; its item 0 exists and is visible, yet after
`setSelection(0)` the selection is 0 and no item reports selected. -/
theorem setSelection_flag_needs_focus :
    exampleView.mFocus = false ∧ exampleView.mShowSelectionAlways = false ∧
    (getItem exampleView 0).map UIElement.mVisible = some true ∧
    (setSelection 0 exampleView).map ListView.mSelection = some 0 ∧
    (setSelection 0 exampleView).map (fun lv' => lv'.items.map UIElement.mSelected) =
      some [false, false, false] := by
  decide

/-- C2, amended. After `setSelection(i)` where item `i` exists and is visible,
an item reports selected exactly when it is item `i` and the list view has focus
or `showSelectionAlways` is set: with one of the two flags set, item `i` is the
one and only item that reports selected; with neither, no item does. -/
theorem setSelection_flags (lv : ListView) (i : Nat) (item : UIElement)
    (hn : getNumItems lv < UNSIGNED_MOD)
    (hget : getItem lv i = some item) (hvis : item.mVisible = true) :
    ∃ lv', setSelection i lv = some lv' ∧
      getNumItems lv' = getNumItems lv ∧
      (∃ selected, getItem lv' i = some selected ∧
        selected.mSelected = (lv.mFocus || lv.mShowSelectionAlways)) ∧
      ∀ j other, getItem lv' j = some other →
        (other.mSelected = true ↔
          (j = i ∧ (lv.mFocus || lv.mShowSelectionAlways) = true)) := by
  refine ⟨_, setSelection_eq i lv hn, ?_, ?_, ?_⟩
  · simp [getNumItems, sendEvent, length_selectionEffect]
  · refine ⟨{ item with mSelected := (lv.mFocus || lv.mShowSelectionAlways) }, ?_, rfl⟩
    unfold getItem at hget
    simp [getItem, sendEvent, getElem?_selectionEffect, resolveSelection_eq_self hget hvis, hget]
  · intro j other hother
    simp only [getItem, sendEvent, ensureItemVisibility_items, getElem?_selectionEffect,
      resolveSelection_eq_self hget hvis, Option.map_eq_some', zero_add] at hother
    obtain ⟨orig, _, rfl⟩ := hother
    simp

/-- Witness for the amended C2 on the example view with `showSelectionAlways`
set, index 2. -/
theorem setSelection_flags_witness :
    getNumItems (setShowSelectionAlways true exampleView) < UNSIGNED_MOD ∧
    getItem (setShowSelectionAlways true exampleView) 2 = some (mkItem 3 true 0) ∧
    (mkItem 3 true 0).mVisible = true ∧
    ∃ lv', setSelection 2 (setShowSelectionAlways true exampleView) = some lv' ∧
      getNumItems lv' = getNumItems (setShowSelectionAlways true exampleView) ∧
      (∃ selected, getItem lv' 2 = some selected ∧
        selected.mSelected = ((setShowSelectionAlways true exampleView).mFocus ||
          (setShowSelectionAlways true exampleView).mShowSelectionAlways)) ∧
      ∀ j other, getItem lv' j = some other →
        (other.mSelected = true ↔
          (j = 2 ∧ ((setShowSelectionAlways true exampleView).mFocus ||
            (setShowSelectionAlways true exampleView).mShowSelectionAlways) = true)) :=
  ⟨by decide, by decide, by decide,
    setSelection_flags (setShowSelectionAlways true exampleView) 2 (mkItem 3 true 0)
      (by decide) (by decide) (by decide)⟩

/-! ## changeSelection -/

theorem moveAlong_zero (start : Nat) (l : List Nat) : moveAlong start l 0 = start := by
  cases l <;> rfl

/-- Moving `steps` times along the candidates ends at candidate number
`min steps (number of candidates)`, counted from 1, and at the start when that
number is 0. -/
theorem moveAlong_eq (l : List Nat) :
    ∀ (start steps : Nat),
      (min steps l.length = 0 → moveAlong start l steps = start) ∧
      (0 < min steps l.length → l[min steps l.length - 1]? = some (moveAlong start l steps)) := by
  induction l with
  | nil => intro start steps; simp [moveAlong]
  | cons x rest ih =>
    intro start steps
    cases steps with
    | zero => simp [moveAlong]
    | succ steps =>
      have hmin : min (steps + 1) (x :: rest).length = min steps rest.length + 1 := by
        simp [Nat.succ_min_succ]
      rw [hmin]
      refine ⟨by omega, fun _ => ?_⟩
      simp only [moveAlong, Nat.add_sub_cancel]
      rcases Nat.eq_zero_or_pos (min steps rest.length) with h0 | hpos
      · rw [h0, (ih x steps).1 h0]; simp
      · have := (ih x steps).2 hpos
        obtain ⟨m, hm⟩ : ∃ m, min steps rest.length = m + 1 := ⟨_, (Nat.succ_pred_eq_of_pos hpos).symm⟩
        rw [hm] at this ⊢
        simpa using this

theorem moveAlong_mem (l : List Nat) :
    ∀ (start steps : Nat), moveAlong start l steps = start ∨ moveAlong start l steps ∈ l := by
  induction l with
  | nil => intro start steps; left; simp [moveAlong]
  | cons x rest ih =>
    intro start steps
    cases steps with
    | zero => left; rfl
    | succ steps =>
      right
      simp only [moveAlong]
      rcases ih x steps with h | h
      · rw [h]; simp
      · exact List.mem_cons_of_mem _ h

theorem isVisibleAt_iff (lv : ListView) (j : Nat) :
    isVisibleAt lv j = true ↔ ∃ item, getItem lv j = some item ∧ item.mVisible = true := by
  unfold isVisibleAt
  cases getItem lv j <;> simp

theorem getItem_of_lt (lv : ListView) {j : Nat} (h : j < getNumItems lv) :
    ∃ item, getItem lv j = some item := by
  unfold getItem
  exact ⟨lv.items[j], List.getElem?_eq_getElem h⟩

theorem lt_of_getItem {lv : ListView} {j : Nat} {item : UIElement}
    (h : getItem lv j = some item) : j < getNumItems lv := by
  unfold getItem at h
  exact (List.getElem?_eq_some_iff.mp h).1

theorem visibleAfter_of_ge (lv : ListView) {p : Nat} (h : getNumItems lv ≤ p + 1) :
    visibleAfter lv p = [] := by
  unfold visibleAfter
  have : getNumItems lv - (p + 1) = 0 := by omega
  rw [this]; rfl

theorem visibleAfter_step (lv : ListView) {p : Nat} (h : p + 1 < getNumItems lv) :
    visibleAfter lv p =
      if isVisibleAt lv (p + 1) then (p + 1) :: visibleAfter lv (p + 1)
      else visibleAfter lv (p + 1) := by
  unfold visibleAfter
  have : getNumItems lv - (p + 1) = (getNumItems lv - (p + 1 + 1)) + 1 := by omega
  rw [this, List.range'_succ, List.filter_cons]

theorem visibleBefore_zero (lv : ListView) : visibleBefore lv 0 = [] := rfl

theorem visibleBefore_succ (lv : ListView) (q : Nat) :
    visibleBefore lv (q + 1) =
      if isVisibleAt lv q then q :: visibleBefore lv q else visibleBefore lv q := by
  unfold visibleBefore
  rw [List.range_succ, List.filter_append]
  by_cases h : isVisibleAt lv q = true <;> simp [h]

theorem mem_visibleAfter (lv : ListView) (s j : Nat) :
    j ∈ visibleAfter lv s ↔ s < j ∧ j < getNumItems lv ∧ isVisibleAt lv j = true := by
  unfold visibleAfter
  simp only [List.mem_filter, List.mem_range'_1]
  constructor
  · rintro ⟨⟨h1, h2⟩, h3⟩; exact ⟨by omega, by omega, h3⟩
  · rintro ⟨h1, h2, h3⟩; exact ⟨⟨by omega, by omega⟩, h3⟩

theorem mem_visibleBefore (lv : ListView) (s j : Nat) :
    j ∈ visibleBefore lv s ↔ j < s ∧ isVisibleAt lv j = true := by
  unfold visibleBefore
  simp [List.mem_filter]

theorem visibleAfter_ascending (lv : ListView) (s : Nat) :
    (visibleAfter lv s).Pairwise (fun a b => a < b) := by
  unfold visibleAfter
  exact (List.pairwise_lt_range' _ _).sublist (List.filter_sublist _)

theorem visibleBefore_descending (lv : ListView) (s : Nat) :
    (visibleBefore lv s).Pairwise (fun a b => b < a) := by
  unfold visibleBefore
  rw [List.pairwise_reverse]
  exact (List.pairwise_lt_range s).sublist (List.filter_sublist _)

theorem changeSelectionLoop_forward (lv : ListView) (hn : getNumItems lv < UNSIGNED_MOD) :
    ∀ (fuel d p ok : Nat), p + 1 < UNSIGNED_MOD → 0 < fuel → getNumItems lv ≤ fuel + p →
      changeSelectionLoop (getNumItems lv) lv fuel (d : Int) p ok =
        some (moveAlong ok (visibleAfter lv p) d) := by
  intro fuel
  induction fuel with
  | zero => intro d p ok _ h; omega
  | succ fuel ih =>
    intro d p ok hp _ hfuel
    cases d with
    | zero => simp [changeSelectionLoop, moveAlong_zero]
    | succ d =>
      have hpos : (0 : Int) < ((d + 1 : Nat) : Int) := by omega
      have hne : ((d + 1 : Nat) : Int) ≠ 0 := by omega
      have hnotneg : ¬ ((d + 1 : Nat) : Int) < 0 := by omega
      have hinc : incUnsigned p = p + 1 := incUnsigned_of_lt hp
      by_cases hend : getNumItems lv ≤ p + 1
      · simp [changeSelectionLoop, hne, hpos, hinc, hend, visibleAfter_of_ge lv hend, moveAlong]
      · have hlt : p + 1 < getNumItems lv := by omega
        obtain ⟨item, hget⟩ := getItem_of_lt lv hlt
        have hvisAt : isVisibleAt lv (p + 1) = item.mVisible := by simp [isVisibleAt, hget]
        have hdec : ((d + 1 : Nat) : Int) - 1 = (d : Int) := by omega
        have hdnn : ¬ (d : Int) < 0 := by omega
        rw [visibleAfter_step lv hlt, hvisAt]
        cases hvis : item.mVisible with
        | true =>
          simp only [changeSelectionLoop, hne, hpos, hinc, hend, hnotneg, hget, hvis, hdec, hdnn,
            ne_eq, not_false_eq_true, if_true, if_false, ge_iff_le, and_false, true_and,
            false_and, moveAlong]
          exact ih d (p + 1) (p + 1) (by omega) (by omega) (by omega)
        | false =>
          simp only [changeSelectionLoop, hne, hpos, hinc, hend, hnotneg, hget, hvis,
            ne_eq, not_false_eq_true, if_true, if_false, ge_iff_le, and_false, true_and,
            false_and, Bool.false_eq_true]
          exact ih (d + 1) (p + 1) ok (by omega) (by omega) (by omega)

theorem changeSelectionLoop_backward (lv : ListView) (hn : getNumItems lv < UNSIGNED_MOD) :
    ∀ (fuel d p ok : Nat), p ≤ getNumItems lv → p < fuel →
      changeSelectionLoop (getNumItems lv) lv fuel (-(d : Int)) p ok =
        some (moveAlong ok (visibleBefore lv p) d) := by
  intro fuel
  induction fuel with
  | zero => intro d p ok _ h; omega
  | succ fuel ih =>
    intro d p ok hp hfuel
    cases d with
    | zero => simp [changeSelectionLoop, moveAlong_zero]
    | succ d =>
      have hneg : -((d + 1 : Nat) : Int) < 0 := by omega
      have hne : -((d + 1 : Nat) : Int) ≠ 0 := by omega
      have hnotpos : ¬ (0 : Int) < -((d + 1 : Nat) : Int) := by omega
      cases p with
      | zero =>
        have hge : getNumItems lv ≤ M_MAX_UNSIGNED := by
          have h : getNumItems lv < 4294967296 := hn
          show getNumItems lv ≤ 4294967295
          omega
        simp only [changeSelectionLoop, hne, hneg, hnotpos, decUnsigned_zero, hge,
          visibleBefore_zero, ne_eq, not_false_eq_true, if_true, if_false, ge_iff_le, and_self,
          true_and, false_and, gt_iff_lt, moveAlong]
      | succ q =>
        have hdec : decUnsigned (q + 1) = q := decUnsigned_succ (by omega)
        have hlt : q < getNumItems lv := by omega
        have hnge : ¬ getNumItems lv ≤ q := by omega
        obtain ⟨item, hget⟩ := getItem_of_lt lv hlt
        have hvisAt : isVisibleAt lv q = item.mVisible := by simp [isVisibleAt, hget]
        have hstep : -((d + 1 : Nat) : Int) + 1 = -(d : Int) := by omega
        rw [visibleBefore_succ, hvisAt]
        cases hvis : item.mVisible with
        | true =>
          simp only [changeSelectionLoop, hne, hneg, hnotpos, hdec, hnge, hget, hvis, hstep,
            ne_eq, not_false_eq_true, if_true, if_false, ge_iff_le, and_false, true_and,
            false_and, gt_iff_lt, moveAlong]
          exact ih d q q (by omega) (by omega)
        | false =>
          simp only [changeSelectionLoop, hne, hneg, hnotpos, hdec, hnge, hget, hvis,
            ne_eq, not_false_eq_true, if_true, if_false, ge_iff_le, and_false, true_and,
            false_and, gt_iff_lt, Bool.false_eq_true]
          exact ih (d + 1) q ok (by omega) (by omega)

theorem changeSelectionLoop_stale (lv : ListView) (d s fuel : Nat)
    (hs : getNumItems lv < s) (hsW : s < UNSIGNED_MOD) :
    changeSelectionLoop (getNumItems lv) lv (fuel + 1) (-(d : Int)) s s = some s := by
  cases d with
  | zero => simp [changeSelectionLoop]
  | succ d =>
    have hneg : -((d + 1 : Nat) : Int) < 0 := by omega
    have hne : -((d + 1 : Nat) : Int) ≠ 0 := by omega
    have hnotpos : ¬ (0 : Int) < -((d + 1 : Nat) : Int) := by omega
    obtain ⟨q, rfl⟩ : ∃ q, s = q + 1 := ⟨s - 1, by omega⟩
    have hdec : decUnsigned (q + 1) = q := decUnsigned_succ hsW
    have hge : getNumItems lv ≤ q := by omega
    simp only [changeSelectionLoop, hne, hneg, hnotpos, hdec, hge, ne_eq, not_false_eq_true,
      if_true, if_false, ge_iff_le, and_self, true_and, false_and, gt_iff_lt]

/-- Closed form of `changeSelection` for a move forward. -/
theorem changeSelection_forward (lv : ListView) (d : Nat) (hn : getNumItems lv < UNSIGNED_MOD)
    (hs : lv.mSelection ≠ M_MAX_UNSIGNED) (hsW : lv.mSelection < UNSIGNED_MOD) :
    changeSelection (d : Int) lv =
      setSelection (moveAlong lv.mSelection (visibleAfter lv lv.mSelection) d) lv := by
  have hp : lv.mSelection + 1 < UNSIGNED_MOD := by
    have h1 : lv.mSelection < 4294967296 := hsW
    have h2 : lv.mSelection ≠ 4294967295 := hs
    show lv.mSelection + 1 < 4294967296
    omega
  have hloop := changeSelectionLoop_forward lv hn (getNumItems lv + 1) d lv.mSelection
    lv.mSelection hp (by omega) (by omega)
  simp [changeSelection, hs, hloop]

/-- Closed form of `changeSelection` for a move backward from an index that is
at most the number of items. -/
theorem changeSelection_backward (lv : ListView) (d : Nat) (hn : getNumItems lv < UNSIGNED_MOD)
    (hs : lv.mSelection ≠ M_MAX_UNSIGNED) (hle : lv.mSelection ≤ getNumItems lv) :
    changeSelection (-(d : Int)) lv =
      setSelection (moveAlong lv.mSelection (visibleBefore lv lv.mSelection) d) lv := by
  have hloop := changeSelectionLoop_backward lv hn (getNumItems lv + 1) d lv.mSelection
    lv.mSelection hle (by omega)
  simp [changeSelection, hs, hloop]

/-- In every case `changeSelection` with a selection hands some index to
`setSelection`. -/
theorem changeSelection_eq_setSelection (lv : ListView) (delta : Int)
    (hn : getNumItems lv < UNSIGNED_MOD)
    (hs : lv.mSelection ≠ M_MAX_UNSIGNED) (hsW : lv.mSelection < UNSIGNED_MOD) :
    ∃ target, changeSelection delta lv = setSelection target lv := by
  rcases le_or_lt 0 delta with hnn | hneg
  · obtain ⟨d, rfl⟩ := Int.eq_ofNat_of_zero_le hnn
    exact ⟨_, changeSelection_forward lv d hn hs hsW⟩
  · obtain ⟨d, hd⟩ := Int.eq_ofNat_of_zero_le (show 0 ≤ -delta by omega)
    have hdelta : delta = -(d : Int) := by omega
    subst hdelta
    rcases le_or_lt lv.mSelection (getNumItems lv) with hle | hgt
    · exact ⟨_, changeSelection_backward lv d hn hs hle⟩
    · refine ⟨lv.mSelection, ?_⟩
      have hloop := changeSelectionLoop_stale lv d lv.mSelection (getNumItems lv) hgt hsW
      simp [changeSelection, hs, hloop]

theorem resolveSelection_of_isVisibleAt {lv : ListView} {t : Nat}
    (h : isVisibleAt lv t = true) : resolveSelection lv t = t := by
  obtain ⟨item, hget, hvis⟩ := (isVisibleAt_iff lv t).mp h
  exact resolveSelection_eq_self hget hvis

theorem resolveSelection_moveAlong (lv : ListView) (s d : Nat) (l : List Nat)
    (hs : isVisibleAt lv s = true) (hl : ∀ j ∈ l, isVisibleAt lv j = true) :
    resolveSelection lv (moveAlong s l d) = moveAlong s l d := by
  apply resolveSelection_of_isVisibleAt
  rcases moveAlong_mem l s d with h | h
  · rw [h]; exact hs
  · exact hl _ h

/-- C3. With a selection `s` that is the index of a visible item,
`changeSelection(delta)` completes; for `delta > 0` the new selection is the
`k`-th visible item after `s`, where `k` is the smaller of `delta` and the number
of visible items after `s`, and it is `s` when `k = 0` (no visible item after
`s`); for `delta < 0` the same holds with the visible items before `s`, counted
downward from `s`. -/
theorem changeSelection_moves_to_kth_visible (lv : ListView) (delta : Int) (s : Nat)
    (item : UIElement) (hn : getNumItems lv < UNSIGNED_MOD) (hs : lv.mSelection = s)
    (hget : getItem lv s = some item) (hvis : item.mVisible = true) :
    ∃ lv', changeSelection delta lv = some lv' ∧
      (0 < delta → ∀ k, k = min delta.toNat (visibleAfter lv s).length →
        (k = 0 → lv'.mSelection = s) ∧
        (0 < k → (visibleAfter lv s)[k - 1]? = some lv'.mSelection)) ∧
      (delta < 0 → ∀ k, k = min (-delta).toNat (visibleBefore lv s).length →
        (k = 0 → lv'.mSelection = s) ∧
        (0 < k → (visibleBefore lv s)[k - 1]? = some lv'.mSelection)) := by
  subst hs
  have hlt : lv.mSelection < getNumItems lv := lt_of_getItem hget
  have hsW : lv.mSelection < UNSIGNED_MOD := by omega
  have hne : lv.mSelection ≠ M_MAX_UNSIGNED := by
    have h1 : getNumItems lv < 4294967296 := hn
    show lv.mSelection ≠ 4294967295
    omega
  have hsvis : isVisibleAt lv lv.mSelection = true := (isVisibleAt_iff _ _).mpr ⟨item, hget, hvis⟩
  rcases lt_trichotomy delta 0 with hneg | hzero | hpos
  · obtain ⟨d, hd⟩ := Int.eq_ofNat_of_zero_le (show 0 ≤ -delta by omega)
    have hdelta : delta = -(d : Int) := by omega
    subst hdelta
    have hres := resolveSelection_moveAlong lv lv.mSelection d (visibleBefore lv lv.mSelection)
      hsvis (fun j hj => ((mem_visibleBefore lv _ j).mp hj).2)
    refine ⟨_, (changeSelection_backward lv d hn hne (by omega)).trans
      (setSelection_eq _ lv hn), fun h => by omega, fun _ k hk => ?_⟩
    have hk' : k = min d (visibleBefore lv lv.mSelection).length := by simpa using hk
    subst hk'
    have hmove := moveAlong_eq (visibleBefore lv lv.mSelection) lv.mSelection d
    simp only [sendEvent, ensureItemVisibility_mSelection, hres]
    exact hmove
  · subst hzero
    refine ⟨_, (changeSelection_forward lv 0 hn hne hsW).trans (setSelection_eq _ lv hn),
      fun h => by omega, fun h => by omega⟩
  · obtain ⟨d, rfl⟩ := Int.eq_ofNat_of_zero_le (le_of_lt hpos)
    have hres := resolveSelection_moveAlong lv lv.mSelection d (visibleAfter lv lv.mSelection)
      hsvis (fun j hj => ((mem_visibleAfter lv _ j).mp hj).2.2)
    refine ⟨_, (changeSelection_forward lv d hn hne hsW).trans
      (setSelection_eq _ lv hn), fun _ k hk => ?_, fun h => by omega⟩
    have hk' : k = min d (visibleAfter lv lv.mSelection).length := by simpa using hk
    subst hk'
    have hmove := moveAlong_eq (visibleAfter lv lv.mSelection) lv.mSelection d
    simp only [sendEvent, ensureItemVisibility_mSelection, hres]
    exact hmove

/-- Witness for C3: from item 0 of the example view, one step forward skips the
invisible item 1. -/
theorem changeSelection_moves_to_kth_visible_witness :
    getNumItems exampleSelected < UNSIGNED_MOD ∧
    exampleSelected.mSelection = 0 ∧
    getItem exampleSelected 0 = some (mkItem 1 true 0) ∧
    (mkItem 1 true 0).mVisible = true ∧
    ∃ lv', changeSelection 1 exampleSelected = some lv' ∧
      ((0 : Int) < 1 → ∀ k, k = min (1 : Int).toNat (visibleAfter exampleSelected 0).length →
        (k = 0 → lv'.mSelection = 0) ∧
        (0 < k → (visibleAfter exampleSelected 0)[k - 1]? = some lv'.mSelection)) ∧
      ((1 : Int) < 0 → ∀ k, k = min (-(1 : Int)).toNat (visibleBefore exampleSelected 0).length →
        (k = 0 → lv'.mSelection = 0) ∧
        (0 < k → (visibleBefore exampleSelected 0)[k - 1]? = some lv'.mSelection)) :=
  ⟨by decide, by decide, by decide, by decide,
    changeSelection_moves_to_kth_visible exampleSelected 1 0 (mkItem 1 true 0)
      (by decide) (by decide) (by decide) (by decide)⟩

theorem getItem_after_setSelection (lv : ListView) (target j : Nat) :
    getItem (sendEvent (Event.itemSelected (resolveSelection lv target))
        (ensureItemVisibility { lv with
          mSelection := resolveSelection lv target
          items := (selectionEffect (resolveSelection lv target)
            (lv.mFocus || lv.mShowSelectionAlways) 0 lv.items) })) j =
      (getItem lv j).map (fun (it : UIElement) =>
        { it with mSelected := (j == resolveSelection lv target) &&
          (lv.mFocus || lv.mShowSelectionAlways) }) := by
  simp [getItem, sendEvent, getElem?_selectionEffect]

theorem runOps_changeSelection_none (c : InputConstants) (lv : ListView)
    (h : lv.mSelection = M_MAX_UNSIGNED) (delta : Int) :
    ∀ k, runOps c (List.replicate k (Op.changeSelection delta)) lv = some lv := by
  intro k
  induction k with
  | zero => rfl
  | succ k ih =>
    simp only [List.replicate_succ, runOps, Op.apply, changeSelection, h, if_true,
      Option.some_bind]
    exact ih

/-- C4. In every state `changeSelection(delta)` completes and leaves a selection
that is `M_MAX_UNSIGNED` or the index of an existing visible item, also when the
selection before the call is stale or points at an invisible item. When the
selection is `M_MAX_UNSIGNED` before the call, the call changes nothing (the
whole state, selected flags and events included, stays as it is), and so does
any number of `changeSelection(1)` calls in a row. -/
theorem changeSelection_never_selects_invisible (c : InputConstants) (lv : ListView)
    (delta : Int) (hn : getNumItems lv < UNSIGNED_MOD) (hsW : lv.mSelection < UNSIGNED_MOD) :
    (∃ lv', changeSelection delta lv = some lv' ∧
      (lv'.mSelection = M_MAX_UNSIGNED ∨
        ∃ item, getItem lv' lv'.mSelection = some item ∧ item.mVisible = true)) ∧
    (lv.mSelection = M_MAX_UNSIGNED →
      changeSelection delta lv = some lv ∧
      ∀ k, runOps c (List.replicate k (Op.changeSelection 1)) lv = some lv) := by
  constructor
  · by_cases hs : lv.mSelection = M_MAX_UNSIGNED
    · exact ⟨lv, by simp [changeSelection, hs], Or.inl hs⟩
    · obtain ⟨target, htarget⟩ := changeSelection_eq_setSelection lv delta hn hs hsW
      refine ⟨_, htarget.trans (setSelection_eq target lv hn), ?_⟩
      rcases resolveSelection_cases lv target with ⟨hres, item, hget, hvis⟩ | ⟨hres, _⟩
      · right
        refine ⟨{ item with mSelected := (lv.mFocus || lv.mShowSelectionAlways) }, ?_, hvis⟩
        have hsel : (sendEvent (Event.itemSelected (resolveSelection lv target))
            (ensureItemVisibility { lv with
              mSelection := resolveSelection lv target
              items := (selectionEffect (resolveSelection lv target)
                (lv.mFocus || lv.mShowSelectionAlways) 0 lv.items) })).mSelection = target := by
          simp [sendEvent, hres]
        rw [hsel, getItem_after_setSelection, hget, hres]
        simp
      · left
        simp [sendEvent, hres]
  · intro hs
    exact ⟨by simp [changeSelection, hs], runOps_changeSelection_none c lv hs 1⟩

/-- Witness for C4: the example view whose selection points at the invisible
item 1, one step forward. -/
theorem changeSelection_never_selects_invisible_witness :
    getNumItems exampleStale < UNSIGNED_MOD ∧
    exampleStale.mSelection < UNSIGNED_MOD ∧
    (∃ lv', changeSelection 1 exampleStale = some lv' ∧
      (lv'.mSelection = M_MAX_UNSIGNED ∨
        ∃ item, getItem lv' lv'.mSelection = some item ∧ item.mVisible = true)) ∧
    (exampleStale.mSelection = M_MAX_UNSIGNED →
      changeSelection 1 exampleStale = some exampleStale ∧
      ∀ k, runOps exampleConstants (List.replicate k (Op.changeSelection 1)) exampleStale =
        some exampleStale) :=
  ⟨by decide, by decide,
    changeSelection_never_selects_invisible exampleConstants exampleStale 1
      (by decide) (by decide)⟩

/-! ## removeItem -/

/-- C5 (defect in the code). In the example view with item 2 (address 3)
selected and item 1 invisible, `removeItem(0)` (by index, and likewise by
pointer) leaves selection 0, not 2 - 1 = 1, and the item at the selection is the
invisible item with address 2, not the item selected before. -/
theorem removeItem_below_selection_skips_invisible :
    exampleLast.mSelection = 2 ∧
    (getSelectedItem exampleLast).map UIElement.ptr = some 3 ∧
    (removeItemAt 0 exampleLast).map ListView.mSelection = some 0 ∧
    (removeItemAt 0 exampleLast).map (fun lv' => (getSelectedItem lv').map UIElement.ptr) =
      some (some 2) ∧
    (removeItem (some 1) exampleLast).map ListView.mSelection = some 0 ∧
    (removeItem (some 1) exampleLast).map (fun lv' => (getSelectedItem lv').map UIElement.ptr) =
      some (some 2) := by
  decide

/-- The removal scenario of the specification: three visible items, selection 1;
`removeItem(0)` leaves selection 0, which is the item selected before (address
2); removing index 0 again, now the selected one, clears the selection. -/
theorem removeItem_scenario :
    (runOps exampleConstants
        [Op.addItem (some (mkItem 1 true 0)), Op.addItem (some (mkItem 2 true 0)),
          Op.addItem (some (mkItem 3 true 0)), Op.setSelection 1, Op.removeItemAt 0]
        ListView.create).map
      (fun lv' => (lv'.mSelection, (getSelectedItem lv').map UIElement.ptr)) =
      some (0, some 2) ∧
    (runOps exampleConstants
        [Op.addItem (some (mkItem 1 true 0)), Op.addItem (some (mkItem 2 true 0)),
          Op.addItem (some (mkItem 3 true 0)), Op.setSelection 1, Op.removeItemAt 0,
          Op.removeItemAt 0]
        ListView.create).map
      (fun lv' => (lv'.mSelection, lv'.items.map UIElement.ptr)) =
      some (M_MAX_UNSIGNED, [3]) := by
  decide

/-- C6 (defect in the code). Two sequences of public calls on a new list view
after which the selection is neither `M_MAX_UNSIGNED` nor the index of a visible
item: after the first the selection is 0 and item 0 is invisible, after the
second the selection is 1 while there is one item. -/
theorem removeItem_breaks_selection_invariant :
    (runOps exampleConstants collapseThenRemove ListView.create).map
      (fun lv' => (lv'.mSelection, (getSelectedItem lv').map UIElement.mVisible)) =
      some (0, some false) ∧
    (runOps exampleConstants removeInvisibleBelow ListView.create).map
      (fun lv' => (lv'.mSelection, getNumItems lv')) = some (1, 1) := by
  decide

/-- C7 (defect in the code). After three visible items are added, the selection
is shown always, item 2 is selected and item 0 is removed, the selection is 1
but the item that reports selected is item 0. -/
theorem removeItem_leaves_flag_on_other_item :
    (runOps exampleConstants flagThenRemove ListView.create).map
      (fun lv' => (lv'.mSelection, lv'.items.map UIElement.mSelected)) =
      some (1, [true, false]) := by
  decide

/-! ## Hierarchy -/

theorem length_changeWhileDeeper (change : UIElement → UIElement) (b : Int)
    (l : List UIElement) : (changeWhileDeeper change b l).length = l.length := by
  induction l with
  | nil => rfl
  | cons x rest ih =>
    unfold changeWhileDeeper
    split <;> simp [ih]

/-- Item `m` of the list after the loop: changed when all items up to `m` have an
indent above the base, untouched otherwise. -/
theorem getElem?_changeWhileDeeper (change : UIElement → UIElement) (b : Int)
    (l : List UIElement) :
    ∀ (m : Nat) (item : UIElement), l[m]? = some item →
      ((∀ k, k ≤ m → getItemIndent l[k]? > b) →
        (changeWhileDeeper change b l)[m]? = some (change item)) ∧
      (¬ (∀ k, k ≤ m → getItemIndent l[k]? > b) →
        (changeWhileDeeper change b l)[m]? = some item) := by
  induction l with
  | nil => intro m item h; simp at h
  | cons x rest ih =>
    intro m item hget
    by_cases hx : x.indent > b
    · cases m with
      | zero =>
        simp only [List.getElem?_cons_zero, Option.some.injEq] at hget
        subst hget
        refine ⟨fun _ => by simp [changeWhileDeeper, hx], fun hnot => ?_⟩
        exfalso
        apply hnot
        intro k hk
        obtain rfl : k = 0 := by omega
        simpa [getItemIndent] using hx
      | succ m =>
        simp only [List.getElem?_cons_succ] at hget
        obtain ⟨h1, h2⟩ := ih m item hget
        simp only [changeWhileDeeper, hx, if_true, List.getElem?_cons_succ]
        constructor
        · intro hall
          apply h1
          intro k hk
          simpa using hall (k + 1) (by omega)
        · intro hnot
          apply h2
          intro hall
          apply hnot
          intro k hk
          cases k with
          | zero => simpa [getItemIndent] using hx
          | succ k => simpa using hall k (by omega)
    · simp only [changeWhileDeeper, hx, if_false]
      refine ⟨fun hall => ?_, fun _ => hget⟩
      exfalso
      apply hx
      simpa [getItemIndent] using hall 0 (by omega)

theorem setChildItemsVisibleLoop_eq (enable : Bool) (b : Int) (n : Nat)
    (hn : n < UNSIGNED_MOD) :
    ∀ (suf pre : List UIElement) (fuel : Nat) (lv : ListView),
      lv.items = pre ++ suf → n = lv.items.length → suf.length < fuel →
      setChildItemsVisibleLoop enable b n fuel pre.length lv =
        some { lv with items := (pre ++ changeWhileDeeper
          (fun it => { it with mVisible := enable }) b suf) } := by
  intro suf
  induction suf with
  | nil =>
    intro pre fuel lv hitems hlen hfuel
    obtain ⟨fuel, rfl⟩ : ∃ f, fuel = f + 1 := ⟨fuel - 1, by simp at hfuel; omega⟩
    have hpre : pre.length = n := by rw [hlen, hitems]; simp
    simp only [setChildItemsVisibleLoop, hpre, lt_irrefl, if_false, changeWhileDeeper]
    rw [← hitems]
  | cons x rest ih =>
    intro pre fuel lv hitems hlen hfuel
    obtain ⟨fuel, rfl⟩ : ∃ f, fuel = f + 1 := ⟨fuel - 1, by simp at hfuel; omega⟩
    have hlt : pre.length < n := by rw [hlen, hitems]; simp
    have hget : getItem lv pre.length = some x := by
      unfold getItem; rw [hitems]; exact getElem?_append_cons_length pre x rest
    have hinc : incUnsigned pre.length =
        (pre ++ [{ x with mVisible := enable }]).length := by
      rw [incUnsigned_of_lt (by omega)]; simp
    by_cases hx : x.indent > b
    · simp only [setChildItemsVisibleLoop, hlt, if_true, hget, getItemIndent, hx]
      rw [hinc, ih]
      · simp [setItem, changeWhileDeeper, hx]
      · simp [setItem, hitems, set_append_cons_length]
      · simp [setItem, hlen]
      · simp at hfuel; omega
    · simp only [setChildItemsVisibleLoop, hlt, if_true, hget, getItemIndent, hx, if_false,
        changeWhileDeeper]
      rw [← hitems]

theorem toggleChildItemsVisibleLoop_eq (b : Int) (n : Nat) (hn : n < UNSIGNED_MOD) :
    ∀ (suf pre : List UIElement) (fuel : Nat) (lv : ListView),
      lv.items = pre ++ suf → n = lv.items.length → suf.length < fuel →
      toggleChildItemsVisibleLoop b n fuel pre.length lv =
        some { lv with items := (pre ++ changeWhileDeeper
          (fun it => { it with mVisible := !it.mVisible }) b suf) } := by
  intro suf
  induction suf with
  | nil =>
    intro pre fuel lv hitems hlen hfuel
    obtain ⟨fuel, rfl⟩ : ∃ f, fuel = f + 1 := ⟨fuel - 1, by simp at hfuel; omega⟩
    have hpre : pre.length = n := by rw [hlen, hitems]; simp
    simp only [toggleChildItemsVisibleLoop, hpre, lt_irrefl, if_false, changeWhileDeeper]
    rw [← hitems]
  | cons x rest ih =>
    intro pre fuel lv hitems hlen hfuel
    obtain ⟨fuel, rfl⟩ : ∃ f, fuel = f + 1 := ⟨fuel - 1, by simp at hfuel; omega⟩
    have hlt : pre.length < n := by rw [hlen, hitems]; simp
    have hget : getItem lv pre.length = some x := by
      unfold getItem; rw [hitems]; exact getElem?_append_cons_length pre x rest
    have hinc : incUnsigned pre.length =
        (pre ++ [{ x with mVisible := !x.mVisible }]).length := by
      rw [incUnsigned_of_lt (by omega)]; simp
    by_cases hx : x.indent > b
    · simp only [toggleChildItemsVisibleLoop, hlt, if_true, hget, getItemIndent, hx]
      rw [hinc, ih]
      · simp [setItem, changeWhileDeeper, hx]
      · simp [setItem, hitems, set_append_cons_length]
      · simp [setItem, hlen]
      · simp at hfuel; omega
    · simp only [toggleChildItemsVisibleLoop, hlt, if_true, hget, getItemIndent, hx, if_false,
        changeWhileDeeper]
      rw [← hitems]

/-- Item `j` of the list in which `change` ran over the deeper items that follow
index `s`: changed when `j` is above `s` and all items from `s + 1` to `j` have an
indent above `b`, untouched otherwise. -/
theorem getElem?_childRun (change : UIElement → UIElement) (b : Int) (l : List UIElement)
    (s : Nat) (hs : s < l.length) (j : Nat) (item : UIElement) (hget : l[j]? = some item) :
    ((s < j ∧ ∀ k, s < k → k ≤ j → getItemIndent l[k]? > b) →
      (l.take (s + 1) ++ changeWhileDeeper change b (l.drop (s + 1)))[j]? =
        some (change item)) ∧
    (¬ (s < j ∧ ∀ k, s < k → k ≤ j → getItemIndent l[k]? > b) →
      (l.take (s + 1) ++ changeWhileDeeper change b (l.drop (s + 1)))[j]? = some item) := by
  have hlen : (l.take (s + 1)).length = s + 1 := by
    rw [List.length_take]; omega
  rcases Nat.lt_or_ge s j with hj | hj
  · obtain ⟨m, rfl⟩ : ∃ m, j = s + 1 + m := ⟨j - (s + 1), by omega⟩
    have hidx : (l.take (s + 1) ++ changeWhileDeeper change b (l.drop (s + 1)))[s + 1 + m]? =
        (changeWhileDeeper change b (l.drop (s + 1)))[m]? := by
      rw [List.getElem?_append_right (by omega), hlen]
      congr 1
      omega
    have hdrop : (l.drop (s + 1))[m]? = some item := by
      rw [List.getElem?_drop]; exact hget
    obtain ⟨h1, h2⟩ := getElem?_changeWhileDeeper change b (l.drop (s + 1)) m item hdrop
    have hiff : (∀ k, k ≤ m → getItemIndent (l.drop (s + 1))[k]? > b) ↔
        (∀ k, s < k → k ≤ s + 1 + m → getItemIndent l[k]? > b) := by
      constructor
      · intro h k hk1 hk2
        obtain ⟨k', rfl⟩ : ∃ k', k = s + 1 + k' := ⟨k - (s + 1), by omega⟩
        have := h k' (by omega)
        rwa [List.getElem?_drop] at this
      · intro h k hk
        rw [List.getElem?_drop]
        exact h (s + 1 + k) (by omega) (by omega)
    rw [hidx]
    constructor
    · rintro ⟨_, hall⟩
      exact h1 (hiff.mpr hall)
    · intro hnot
      apply h2
      intro hall
      exact hnot ⟨hj, hiff.mp hall⟩
  · have hidx : (l.take (s + 1) ++ changeWhileDeeper change b (l.drop (s + 1)))[j]? = l[j]? := by
      rw [List.getElem?_append_left (by omega), List.getElem?_take_of_lt (by omega)]
    rw [hidx]
    exact ⟨fun h => by omega, fun _ => hget⟩

theorem length_childRun (change : UIElement → UIElement) (b : Int) (l : List UIElement)
    (s : Nat) :
    (l.take (s + 1) ++ changeWhileDeeper change b (l.drop (s + 1))).length = l.length := by
  rw [List.length_append, length_changeWhileDeeper, ← List.length_append, List.take_append_drop]

theorem selection_ne_max_of_lt {lv : ListView} (hn : getNumItems lv < UNSIGNED_MOD)
    (hs : lv.mSelection < getNumItems lv) : lv.mSelection ≠ M_MAX_UNSIGNED := by
  have h1 : getNumItems lv < 4294967296 := hn
  show lv.mSelection ≠ 4294967295
  omega

/-- Closed form of `setChildItemsVisible` in hierarchy mode with a valid
selection. -/
theorem setChildItemsVisible_eq (enable : Bool) (lv : ListView)
    (hn : getNumItems lv < UNSIGNED_MOD) (hh : lv.mHierarchyMode = true)
    (hs : lv.mSelection < getNumItems lv) :
    setChildItemsVisible enable lv =
      some { lv with items := (lv.items.take (lv.mSelection + 1) ++ changeWhileDeeper
        (fun it => { it with mVisible := enable }) (getItemIndent (getSelectedItem lv))
        (lv.items.drop (lv.mSelection + 1))) } := by
  have hne := selection_ne_max_of_lt hn hs
  have hlen : (lv.items.take (lv.mSelection + 1)).length = lv.mSelection + 1 := by
    rw [List.length_take]; unfold getNumItems at hs; omega
  have hinc : incUnsigned lv.mSelection = (lv.items.take (lv.mSelection + 1)).length := by
    rw [hlen]; exact incUnsigned_of_lt (by omega)
  have hloop := setChildItemsVisibleLoop_eq enable (getItemIndent (getSelectedItem lv))
    (getNumItems lv) hn (lv.items.drop (lv.mSelection + 1)) (lv.items.take (lv.mSelection + 1))
    (getNumItems lv + 1) lv (List.take_append_drop _ _).symm rfl
    (by simp [getNumItems]; omega)
  have hcond : (!lv.mHierarchyMode || lv.mSelection == M_MAX_UNSIGNED) = false := by
    simp [hh, hne]
  unfold setChildItemsVisible
  rw [if_neg (by rw [hcond]; exact Bool.false_ne_true)]
  show setChildItemsVisibleLoop _ _ _ _ (incUnsigned lv.mSelection) lv = _
  rw [hinc]
  exact hloop

/-- Closed form of `toggleChildItemsVisible` in hierarchy mode with a valid
selection. -/
theorem toggleChildItemsVisible_eq (lv : ListView)
    (hn : getNumItems lv < UNSIGNED_MOD) (hh : lv.mHierarchyMode = true)
    (hs : lv.mSelection < getNumItems lv) :
    toggleChildItemsVisible lv =
      some { lv with items := (lv.items.take (lv.mSelection + 1) ++ changeWhileDeeper
        (fun it => { it with mVisible := !it.mVisible }) (getItemIndent (getSelectedItem lv))
        (lv.items.drop (lv.mSelection + 1))) } := by
  have hne := selection_ne_max_of_lt hn hs
  have hlen : (lv.items.take (lv.mSelection + 1)).length = lv.mSelection + 1 := by
    rw [List.length_take]; unfold getNumItems at hs; omega
  have hinc : incUnsigned lv.mSelection = (lv.items.take (lv.mSelection + 1)).length := by
    rw [hlen]; exact incUnsigned_of_lt (by omega)
  have hloop := toggleChildItemsVisibleLoop_eq (getItemIndent (getSelectedItem lv))
    (getNumItems lv) hn (lv.items.drop (lv.mSelection + 1)) (lv.items.take (lv.mSelection + 1))
    (getNumItems lv + 1) lv (List.take_append_drop _ _).symm rfl
    (by simp [getNumItems]; omega)
  have hcond : (!lv.mHierarchyMode || lv.mSelection == M_MAX_UNSIGNED) = false := by
    simp [hh, hne]
  unfold toggleChildItemsVisible
  rw [if_neg (by rw [hcond]; exact Bool.false_ne_true)]
  show toggleChildItemsVisibleLoop _ _ _ (incUnsigned lv.mSelection) lv = _
  rw [hinc]
  exact hloop

/-- C8. In hierarchy mode with a valid selection `s`, `setChildItemsVisible(enable)`
completes and changes the items only: an item `j` above `s` such that every item
from `s + 1` to `j` has an indent above that of item `s` gets visibility `enable`
and is otherwise as before; every other item is exactly as before; the number and
order of the items, the selection and all other fields are unchanged. When
hierarchy mode is off or the selection is `M_MAX_UNSIGNED`, the call changes
nothing. -/
theorem setChildItemsVisible_frame (enable : Bool) (lv : ListView)
    (hn : getNumItems lv < UNSIGNED_MOD) :
    ((lv.mHierarchyMode = false ∨ lv.mSelection = M_MAX_UNSIGNED) →
      setChildItemsVisible enable lv = some lv) ∧
    (lv.mHierarchyMode = true → lv.mSelection < getNumItems lv →
      ∃ lv', setChildItemsVisible enable lv = some lv' ∧
        lv' = { lv with items := lv'.items } ∧
        getNumItems lv' = getNumItems lv ∧
        ∀ j item, getItem lv j = some item →
          ((lv.mSelection < j ∧ ∀ k, lv.mSelection < k → k ≤ j →
              getItemIndent (getItem lv k) > getItemIndent (getSelectedItem lv)) →
            getItem lv' j = some { item with mVisible := enable }) ∧
          (¬ (lv.mSelection < j ∧ ∀ k, lv.mSelection < k → k ≤ j →
              getItemIndent (getItem lv k) > getItemIndent (getSelectedItem lv)) →
            getItem lv' j = some item)) := by
  constructor
  · rintro (h | h) <;> simp [setChildItemsVisible, h]
  · intro hh hs
    refine ⟨_, setChildItemsVisible_eq enable lv hn hh hs, rfl, ?_, ?_⟩
    · exact length_childRun _ _ lv.items lv.mSelection
    · intro j item hget
      exact getElem?_childRun _ _ lv.items lv.mSelection hs j item hget

/-- Witness for C8 on the example tree: collapsing item 0. -/
theorem setChildItemsVisible_frame_witness :
    getNumItems exampleTree < UNSIGNED_MOD ∧
    ((exampleTree.mHierarchyMode = false ∨ exampleTree.mSelection = M_MAX_UNSIGNED) →
      setChildItemsVisible false exampleTree = some exampleTree) ∧
    (exampleTree.mHierarchyMode = true → exampleTree.mSelection < getNumItems exampleTree →
      ∃ lv', setChildItemsVisible false exampleTree = some lv' ∧
        lv' = { exampleTree with items := lv'.items } ∧
        getNumItems lv' = getNumItems exampleTree ∧
        ∀ j item, getItem exampleTree j = some item →
          ((exampleTree.mSelection < j ∧ ∀ k, exampleTree.mSelection < k → k ≤ j →
              getItemIndent (getItem exampleTree k) >
                getItemIndent (getSelectedItem exampleTree)) →
            getItem lv' j = some { item with mVisible := false }) ∧
          (¬ (exampleTree.mSelection < j ∧ ∀ k, exampleTree.mSelection < k → k ≤ j →
              getItemIndent (getItem exampleTree k) >
                getItemIndent (getSelectedItem exampleTree)) →
            getItem lv' j = some item)) :=
  ⟨by decide, setChildItemsVisible_frame false exampleTree (by decide)⟩

/-- Collapsing item 0 of the example tree hides items 1 and 2 and stops at item
3; item 4, though deeper than item 0, stays visible. -/
theorem setChildItemsVisible_example :
    (setChildItemsVisible false exampleTree).map (fun lv' => lv'.items.map UIElement.mVisible) =
      some [true, false, false, true, true] := by
  decide

theorem changeWhileDeeper_toggle_twice (b : Int) (l : List UIElement) :
    changeWhileDeeper (fun it => { it with mVisible := !it.mVisible }) b
      (changeWhileDeeper (fun it => { it with mVisible := !it.mVisible }) b l) = l := by
  induction l with
  | nil => rfl
  | cons x rest ih =>
    by_cases hx : x.indent > b
    · simp [changeWhileDeeper, hx, ih]
    · simp [changeWhileDeeper, hx]

theorem toggleChildItemsVisible_twice (lv : ListView)
    (hn : getNumItems lv < UNSIGNED_MOD) (hh : lv.mHierarchyMode = true)
    (hs : lv.mSelection < getNumItems lv) :
    toggleChildItemsVisible { lv with items := (lv.items.take (lv.mSelection + 1) ++
      changeWhileDeeper (fun it => { it with mVisible := !it.mVisible })
        (getItemIndent (getSelectedItem lv)) (lv.items.drop (lv.mSelection + 1))) } =
      some lv := by
  have hlen : (lv.items.take (lv.mSelection + 1)).length = lv.mSelection + 1 := by
    rw [List.length_take]; unfold getNumItems at hs; omega
  have hsel : getSelectedItem { lv with items := (lv.items.take (lv.mSelection + 1) ++
      changeWhileDeeper (fun it => { it with mVisible := !it.mVisible })
        (getItemIndent (getSelectedItem lv)) (lv.items.drop (lv.mSelection + 1))) } =
      getSelectedItem lv := by
    show (lv.items.take (lv.mSelection + 1) ++ _)[lv.mSelection]? = lv.items[lv.mSelection]?
    rw [List.getElem?_append_left (by omega), List.getElem?_take_of_lt (by omega)]
  have h2 := toggleChildItemsVisible_eq { lv with items := (lv.items.take (lv.mSelection + 1) ++
      changeWhileDeeper (fun it => { it with mVisible := !it.mVisible })
        (getItemIndent (getSelectedItem lv)) (lv.items.drop (lv.mSelection + 1))) }
    (by show List.length (_ ++ _) < _; rw [length_childRun]; exact hn) hh
    (by show _ < List.length (_ ++ _); rw [length_childRun]; exact hs)
  rw [h2, hsel]
  simp only [List.take_left' hlen, List.drop_left' hlen, changeWhileDeeper_toggle_twice,
    List.take_append_drop]

/-- C9. In hierarchy mode with a valid selection `s`, `toggleChildItemsVisible()`
completes and changes the items only: an item `j` above `s` such that every item
from `s + 1` to `j` has an indent above that of item `s` gets its visibility
negated; every other item is exactly as before. For each item, either the toggle
negates it and `setChildItemsVisible(enable)` writes it, or both leave it as it
is. A second `toggleChildItemsVisible()` gives back the state before the
first. -/
theorem toggleChildItemsVisible_inverts (lv : ListView)
    (hn : getNumItems lv < UNSIGNED_MOD) (hh : lv.mHierarchyMode = true)
    (hs : lv.mSelection < getNumItems lv) :
    ∃ lv', toggleChildItemsVisible lv = some lv' ∧
      lv' = { lv with items := lv'.items } ∧
      getNumItems lv' = getNumItems lv ∧
      (∀ j item, getItem lv j = some item →
        ((lv.mSelection < j ∧ ∀ k, lv.mSelection < k → k ≤ j →
            getItemIndent (getItem lv k) > getItemIndent (getSelectedItem lv)) →
          getItem lv' j = some { item with mVisible := !item.mVisible }) ∧
        (¬ (lv.mSelection < j ∧ ∀ k, lv.mSelection < k → k ≤ j →
            getItemIndent (getItem lv k) > getItemIndent (getSelectedItem lv)) →
          getItem lv' j = some item)) ∧
      (∀ enable, ∃ lvSet, setChildItemsVisible enable lv = some lvSet ∧
        ∀ j item, getItem lv j = some item →
          (getItem lv' j = some { item with mVisible := !item.mVisible } ∧
            getItem lvSet j = some { item with mVisible := enable }) ∨
          (getItem lv' j = some item ∧ getItem lvSet j = some item)) ∧
      toggleChildItemsVisible lv' = some lv := by
  have hpoint := fun (change : UIElement → UIElement) (j : Nat) (item : UIElement)
      (hget : getItem lv j = some item) =>
    getElem?_childRun change (getItemIndent (getSelectedItem lv)) lv.items lv.mSelection hs j
      item hget
  refine ⟨_, toggleChildItemsVisible_eq lv hn hh hs, rfl, ?_, ?_, ?_, ?_⟩
  · exact length_childRun _ _ lv.items lv.mSelection
  · intro j item hget
    exact hpoint _ j item hget
  · intro enable
    refine ⟨_, setChildItemsVisible_eq enable lv hn hh hs, ?_⟩
    intro j item hget
    by_cases hrun : lv.mSelection < j ∧ ∀ k, lv.mSelection < k → k ≤ j →
        getItemIndent (getItem lv k) > getItemIndent (getSelectedItem lv)
    · exact Or.inl ⟨(hpoint _ j item hget).1 hrun, (hpoint _ j item hget).1 hrun⟩
    · exact Or.inr ⟨(hpoint _ j item hget).2 hrun, (hpoint _ j item hget).2 hrun⟩
  · exact toggleChildItemsVisible_twice lv hn hh hs

/-- Witness for C9 on the example tree. -/
theorem toggleChildItemsVisible_inverts_witness :
    getNumItems exampleTree < UNSIGNED_MOD ∧ exampleTree.mHierarchyMode = true ∧
    exampleTree.mSelection < getNumItems exampleTree ∧
    ∃ lv', toggleChildItemsVisible exampleTree = some lv' ∧
      lv' = { exampleTree with items := lv'.items } ∧
      getNumItems lv' = getNumItems exampleTree ∧
      (∀ j item, getItem exampleTree j = some item →
        ((exampleTree.mSelection < j ∧ ∀ k, exampleTree.mSelection < k → k ≤ j →
            getItemIndent (getItem exampleTree k) >
              getItemIndent (getSelectedItem exampleTree)) →
          getItem lv' j = some { item with mVisible := !item.mVisible }) ∧
        (¬ (exampleTree.mSelection < j ∧ ∀ k, exampleTree.mSelection < k → k ≤ j →
            getItemIndent (getItem exampleTree k) >
              getItemIndent (getSelectedItem exampleTree)) →
          getItem lv' j = some item)) ∧
      (∀ enable, ∃ lvSet, setChildItemsVisible enable exampleTree = some lvSet ∧
        ∀ j item, getItem exampleTree j = some item →
          (getItem lv' j = some { item with mVisible := !item.mVisible } ∧
            getItem lvSet j = some { item with mVisible := enable }) ∨
          (getItem lv' j = some item ∧ getItem lvSet j = some item)) ∧
      toggleChildItemsVisible lv' = some exampleTree :=
  ⟨by decide, by decide, by decide,
    toggleChildItemsVisible_inverts exampleTree (by decide) (by decide) (by decide)⟩

/-! ## Mouse clicks -/

theorem handleUIMouseClickLoop_found (element : Option Nat) (lv : ListView) (i : Nat)
    (hn : getNumItems lv < UNSIGNED_MOD) (hi : i < getNumItems lv)
    (hfound : element = (getItem lv i).map UIElement.ptr)
    (hfirst : ∀ j, j < i → element ≠ (getItem lv j).map UIElement.ptr) :
    ∀ (fuel start : Nat), start ≤ i → i < fuel + start →
      handleUIMouseClickLoop element (getNumItems lv) fuel start lv = handleClickOnItem i lv := by
  intro fuel
  induction fuel with
  | zero => intro start h1 h2; omega
  | succ fuel ih =>
    intro start hle hfuel
    have hlt : start < getNumItems lv := by omega
    rcases Nat.eq_or_lt_of_le hle with heq | hlt'
    · subst heq
      simp only [handleUIMouseClickLoop, hlt, if_true, ← hfound]
    · have hne := hfirst start hlt'
      simp only [handleUIMouseClickLoop, hlt, if_true, hne, if_false]
      rw [incUnsigned_of_lt (by omega)]
      exact ih (start + 1) (by omega) (by omega)

theorem toggle_after_double_click (lv : ListView) (hn : getNumItems lv < UNSIGNED_MOD)
    (hs : lv.mSelection < getNumItems lv) :
    ∃ lv', (if lv.mHierarchyMode = true then toggleChildItemsVisible lv else some lv) = some lv' ∧
      lv'.mSelection = lv.mSelection ∧ lv'.mDoubleClickTimer = lv.mDoubleClickTimer ∧
      lv'.events = lv.events := by
  by_cases hh : lv.mHierarchyMode = true
  · rw [if_pos hh]
    exact ⟨_, toggleChildItemsVisible_eq lv hn hh hs, rfl, rfl, rfl⟩
  · rw [if_neg hh]
    exact ⟨lv, rfl, rfl, rfl, rfl⟩

/-- What `setSelection` leaves: the resolved selection, as many items as before,
one more event, and mode, timer and interval as before. -/
theorem setSelection_post (index : Nat) (lv : ListView) (hn : getNumItems lv < UNSIGNED_MOD) :
    ∃ lv', setSelection index lv = some lv' ∧
      lv'.mSelection = resolveSelection lv index ∧
      getNumItems lv' = getNumItems lv ∧
      lv'.mHierarchyMode = lv.mHierarchyMode ∧
      lv'.mDoubleClickTimer = lv.mDoubleClickTimer ∧
      lv'.mDoubleClickInterval = lv.mDoubleClickInterval ∧
      lv'.events = lv.events ++ [Event.itemSelected (resolveSelection lv index)] := by
  refine ⟨_, setSelection_eq index lv hn, ?_, ?_, ?_, ?_, ?_, ?_⟩ <;>
    simp [sendEvent, getNumItems, length_selectionEffect]

theorem handleClickOnItem_double (lv : ListView) (i : Nat) (item : UIElement)
    (hn : getNumItems lv < UNSIGNED_MOD)
    (hget : getItem lv i = some item) (hvis : item.mVisible = true)
    (htimer : lv.mDoubleClickTimer > 0) (hsel : lv.mSelection = i) :
    ∃ lv', handleClickOnItem i lv = some lv' ∧ lv'.mDoubleClickTimer = 0 ∧ lv'.mSelection = i ∧
      lv'.events = lv.events ++ [Event.itemSelected i, Event.itemDoubleClicked i] := by
  have hdc : (decide (lv.mDoubleClickTimer > 0) && (lv.mSelection == i)) = true := by
    simp [htimer, hsel]
  have hres : resolveSelection { lv with mDoubleClickTimer := 0 } i = i :=
    @resolveSelection_eq_self { lv with mDoubleClickTimer := 0 } i item hget hvis
  obtain ⟨lv2, h2, hsel2, hn2, _, htimer2, _, hevents2⟩ :=
    setSelection_post i { lv with mDoubleClickTimer := 0 } hn
  rw [hres] at hsel2 hevents2
  obtain ⟨lv3, h3, hsel3, htimer3, hevents3⟩ := toggle_after_double_click lv2
    (by rw [hn2]; exact hn) (by rw [hn2, hsel2]; exact lt_of_getItem hget)
  refine ⟨sendEvent (Event.itemDoubleClicked lv3.mSelection) lv3, ?_, ?_, ?_, ?_⟩
  · unfold handleClickOnItem
    simp only [hdc, if_true, h2, Option.bind_eq_bind, Option.some_bind]
    by_cases hh : lv2.mHierarchyMode = true
    · rw [if_pos hh] at h3
      simp [hh, h3]
    · rw [if_neg hh] at h3
      cases h3
      simp [hh]
  · simp [sendEvent, htimer3, htimer2]
  · simp [sendEvent, hsel3, hsel2]
  · simp [sendEvent, hsel3, hsel2, hevents3, hevents2]

theorem handleClickOnItem_single (lv : ListView) (i : Nat) (item : UIElement)
    (hn : getNumItems lv < UNSIGNED_MOD)
    (hget : getItem lv i = some item) (hvis : item.mVisible = true)
    (hnot : ¬ (lv.mDoubleClickTimer > 0 ∧ lv.mSelection = i)) :
    ∃ lv', handleClickOnItem i lv = some lv' ∧
      lv'.mDoubleClickTimer = lv.mDoubleClickInterval ∧ lv'.mSelection = i ∧
      lv'.events = lv.events ++ [Event.itemSelected i] := by
  have hdc : (decide (lv.mDoubleClickTimer > 0) && (lv.mSelection == i)) = false := by
    rw [Bool.and_eq_false_iff]
    by_cases ht : lv.mDoubleClickTimer > 0
    · right
      simpa using fun h => hnot ⟨ht, h⟩
    · left
      simpa using ht
  have hres : resolveSelection { lv with mDoubleClickTimer := lv.mDoubleClickInterval } i = i :=
    @resolveSelection_eq_self { lv with mDoubleClickTimer := lv.mDoubleClickInterval } i item
      hget hvis
  obtain ⟨lv2, h2, hsel2, _, _, htimer2, _, hevents2⟩ :=
    setSelection_post i { lv with mDoubleClickTimer := lv.mDoubleClickInterval } hn
  rw [hres] at hsel2 hevents2
  refine ⟨lv2, ?_, htimer2, hsel2, hevents2⟩
  unfold handleClickOnItem
  simp only [hdc, Bool.false_eq_true, if_false, h2, Option.bind_eq_bind, Option.some_bind]

/-- C10. A left-button click on the visible item at index `i` (the first item
with that address) completes. If the timer is above 0 and the selection is `i`
before the click, then afterwards the timer is 0, the selection is `i` and the
events sent are `ItemSelected` with `i` followed by `ItemDoubleClicked` with `i`.
Otherwise the timer becomes the double-click interval, the selection is `i` and
the only event sent is `ItemSelected` with `i`. -/
theorem handleUIMouseClick_detects_double_click (c : InputConstants) (lv : ListView) (i : Nat)
    (item : UIElement) (hn : getNumItems lv < UNSIGNED_MOD)
    (hget : getItem lv i = some item) (hvis : item.mVisible = true)
    (hfirst : ∀ j other, j < i → getItem lv j = some other → other.ptr ≠ item.ptr) :
    ((lv.mDoubleClickTimer > 0 ∧ lv.mSelection = i) →
      ∃ lv', handleUIMouseClick c c.MOUSEB_LEFT (some item.ptr) lv = some lv' ∧
        lv'.mDoubleClickTimer = 0 ∧ lv'.mSelection = i ∧
        lv'.events = lv.events ++ [Event.itemSelected i, Event.itemDoubleClicked i]) ∧
    (¬ (lv.mDoubleClickTimer > 0 ∧ lv.mSelection = i) →
      ∃ lv', handleUIMouseClick c c.MOUSEB_LEFT (some item.ptr) lv = some lv' ∧
        lv'.mDoubleClickTimer = lv.mDoubleClickInterval ∧ lv'.mSelection = i ∧
        lv'.events = lv.events ++ [Event.itemSelected i]) := by
  have hi : i < getNumItems lv := lt_of_getItem hget
  have hloop : handleUIMouseClick c c.MOUSEB_LEFT (some item.ptr) lv = handleClickOnItem i lv := by
    have h := handleUIMouseClickLoop_found (some item.ptr) lv i hn hi (by simp [hget])
      (fun j hj heq => by
        obtain ⟨other, hother⟩ := getItem_of_lt lv (show j < getNumItems lv by omega)
        rw [hother] at heq
        simp only [Option.map_some', Option.some.injEq] at heq
        exact hfirst j other hj hother heq.symm)
      (getNumItems lv + 1) 0 (by omega) (by omega)
    simpa [handleUIMouseClick] using h
  rw [hloop]
  exact ⟨fun h => handleClickOnItem_double lv i item hn hget hvis h.1 h.2,
    fun h => handleClickOnItem_single lv i item hn hget hvis h⟩

/-- Witness for C10: a left click on item 2 of the example view (interval 1/2,
timer 0, no selection). -/
theorem handleUIMouseClick_detects_double_click_witness :
    getNumItems exampleView < UNSIGNED_MOD ∧
    getItem exampleView 2 = some (mkItem 3 true 0) ∧
    (mkItem 3 true 0).mVisible = true ∧
    (∀ j other, j < 2 → getItem exampleView j = some other → other.ptr ≠ (mkItem 3 true 0).ptr) ∧
    ((exampleView.mDoubleClickTimer > 0 ∧ exampleView.mSelection = 2) →
      ∃ lv', handleUIMouseClick exampleConstants exampleConstants.MOUSEB_LEFT
          (some (mkItem 3 true 0).ptr) exampleView = some lv' ∧
        lv'.mDoubleClickTimer = 0 ∧ lv'.mSelection = 2 ∧
        lv'.events = exampleView.events ++ [Event.itemSelected 2, Event.itemDoubleClicked 2]) ∧
    (¬ (exampleView.mDoubleClickTimer > 0 ∧ exampleView.mSelection = 2) →
      ∃ lv', handleUIMouseClick exampleConstants exampleConstants.MOUSEB_LEFT
          (some (mkItem 3 true 0).ptr) exampleView = some lv' ∧
        lv'.mDoubleClickTimer = exampleView.mDoubleClickInterval ∧ lv'.mSelection = 2 ∧
        lv'.events = exampleView.events ++ [Event.itemSelected 2]) :=
  have hfirst : ∀ j other, j < 2 → getItem exampleView j = some other →
      other.ptr ≠ (mkItem 3 true 0).ptr := by
    intro j other hj hget
    interval_cases j
    · have h : other = mkItem 1 true 0 := by
        have h0 : getItem exampleView 0 = some (mkItem 1 true 0) := by decide
        rw [h0] at hget
        exact (Option.some.inj hget).symm
      rw [h]
      decide
    · have h : other = mkItem 2 false 0 := by
        have h1 : getItem exampleView 1 = some (mkItem 2 false 0) := by decide
        rw [h1] at hget
        exact (Option.some.inj hget).symm
      rw [h]
      decide
  ⟨by decide, by decide, by decide, hfirst,
    handleUIMouseClick_detects_double_click exampleConstants exampleView 2 (mkItem 3 true 0)
      (by decide) (by decide) (by decide) hfirst⟩

/-- The double-click scenario of the specification on the example view (interval
1/2): a first left click on item 2 sets the timer to 1/2, selects item 2 and
sends `ItemSelected`; a second click while the timer runs resets the timer and
sends `ItemSelected` and `ItemDoubleClicked`; when the timer has decayed to 0
before the second click, that click is a single click again. -/
theorem double_click_scenario :
    (runOps exampleConstants [Op.mouseClick 1 (some 3)] exampleView).map
        (fun lv => (lv.mSelection, lv.events, lv.mDoubleClickTimer)) =
      some (2, [Event.itemSelected 2], mkRat 1 2) ∧
    (runOps exampleConstants [Op.mouseClick 1 (some 3), Op.mouseClick 1 (some 3)]
        exampleView).map (fun lv => (lv.mSelection, lv.events, lv.mDoubleClickTimer)) =
      some (2, [Event.itemSelected 2, Event.itemSelected 2, Event.itemDoubleClicked 2], 0) ∧
    (runOps exampleConstants [Op.mouseClick 1 (some 3), Op.update 1] exampleView).map
        (fun lv => lv.mDoubleClickTimer) = some 0 ∧
    (runOps exampleConstants [Op.mouseClick 1 (some 3), Op.update 1, Op.mouseClick 1 (some 3)]
        exampleView).map (fun lv => (lv.mSelection, lv.events, lv.mDoubleClickTimer)) =
      some (2, [Event.itemSelected 2, Event.itemSelected 2], mkRat 1 2) := by
  decide!

/-! ## Scroll-into-view -/

/-- C15. When nothing is selected, `ensureItemVisibility` does nothing. When an
item is selected, with top offset `o`, height `h`, window height `w` and vertical
view offset `v`, and `0 ≤ h ≤ w`: the conditions `o < 0` and `o + h > w` do not
both hold; the vertical offset handed to the scroll container is `v + o` when
`o < 0`, `v + (o + h - w)` when `o + h > w` and `v` otherwise; the horizontal
offset handed over is the one before, and nothing but the view position
changes. -/
theorem ensureItemVisibility_single_shift (lv : ListView) :
    (getSelectedItem lv = none → ensureItemVisibility lv = lv) ∧
    (∀ selected, getSelectedItem lv = some selected →
      0 ≤ selected.mHeight → selected.mHeight ≤ windowSizeY lv →
      ¬ (currentOffsetY lv selected < 0 ∧
          currentOffsetY lv selected + selected.mHeight > windowSizeY lv) ∧
      (currentOffsetY lv selected < 0 →
        (ensureItemVisibility lv).mViewPosition.mY =
          lv.mViewPosition.mY + currentOffsetY lv selected) ∧
      (currentOffsetY lv selected + selected.mHeight > windowSizeY lv →
        (ensureItemVisibility lv).mViewPosition.mY =
          lv.mViewPosition.mY +
            (currentOffsetY lv selected + selected.mHeight - windowSizeY lv)) ∧
      (¬ currentOffsetY lv selected < 0 →
        ¬ currentOffsetY lv selected + selected.mHeight > windowSizeY lv →
        (ensureItemVisibility lv).mViewPosition.mY = lv.mViewPosition.mY) ∧
      (ensureItemVisibility lv).mViewPosition.mX = lv.mViewPosition.mX ∧
      ensureItemVisibility lv =
        { lv with mViewPosition := (ensureItemVisibility lv).mViewPosition }) := by
  constructor
  · intro hnone
    simp [ensureItemVisibility, hnone]
  · intro selected hsel h0 hle
    have hnot : ¬ (currentOffsetY lv selected < 0 ∧
        currentOffsetY lv selected + selected.mHeight > windowSizeY lv) := by
      rintro ⟨h1, h2⟩
      omega
    refine ⟨hnot, ?_, ?_, ?_, ?_, ?_⟩
    · intro hneg
      have hfit : ¬ currentOffsetY lv selected + selected.mHeight > windowSizeY lv :=
        fun h => hnot ⟨hneg, h⟩
      simp only [currentOffsetY, windowSizeY] at hneg hfit ⊢
      simp [ensureItemVisibility, hsel, setViewPosition, hneg, hfit]
    · intro hover
      have hpos : ¬ currentOffsetY lv selected < 0 := fun h => hnot ⟨h, hover⟩
      simp only [currentOffsetY, windowSizeY] at hover hpos ⊢
      simp [ensureItemVisibility, hsel, setViewPosition, hpos, hover]
    · intro hpos hfit
      simp only [currentOffsetY, windowSizeY] at hpos hfit
      simp [ensureItemVisibility, hsel, setViewPosition, hpos, hfit]
    · unfold ensureItemVisibility
      simp only [hsel, setViewPosition]
      split <;> split <;> rfl
    · unfold ensureItemVisibility
      simp only [hsel, setViewPosition]

/-- Witness for C15: an item 20 pixels high whose bottom edge is 10 pixels below
a viewport of 50 pixels. -/
theorem ensureItemVisibility_single_shift_witness :
    (getSelectedItem exampleBelow = none → ensureItemVisibility exampleBelow = exampleBelow) ∧
    (∀ selected, getSelectedItem exampleBelow = some selected →
      0 ≤ selected.mHeight → selected.mHeight ≤ windowSizeY exampleBelow →
      ¬ (currentOffsetY exampleBelow selected < 0 ∧
          currentOffsetY exampleBelow selected + selected.mHeight > windowSizeY exampleBelow) ∧
      (currentOffsetY exampleBelow selected < 0 →
        (ensureItemVisibility exampleBelow).mViewPosition.mY =
          exampleBelow.mViewPosition.mY + currentOffsetY exampleBelow selected) ∧
      (currentOffsetY exampleBelow selected + selected.mHeight > windowSizeY exampleBelow →
        (ensureItemVisibility exampleBelow).mViewPosition.mY =
          exampleBelow.mViewPosition.mY +
            (currentOffsetY exampleBelow selected + selected.mHeight -
              windowSizeY exampleBelow)) ∧
      (¬ currentOffsetY exampleBelow selected < 0 →
        ¬ currentOffsetY exampleBelow selected + selected.mHeight > windowSizeY exampleBelow →
        (ensureItemVisibility exampleBelow).mViewPosition.mY = exampleBelow.mViewPosition.mY) ∧
      (ensureItemVisibility exampleBelow).mViewPosition.mX = exampleBelow.mViewPosition.mX ∧
      ensureItemVisibility exampleBelow =
        { exampleBelow with mViewPosition := (ensureItemVisibility exampleBelow).mViewPosition }) :=
  ensureItemVisibility_single_shift exampleBelow

/-- The example of C15 evaluated: top offset 40, height 20, window 50, view
offset (3, 7); the view offset handed over is (3, 17). -/
theorem ensureItemVisibility_example :
    (ensureItemVisibility exampleBelow).mViewPosition = { mX := 3, mY := 17 } := by
  decide

/-- C16, as stated, fails: in the example the selected item has top offset -10
and height 100 in a window of 50, so both checks apply; with view offset 7 the
bottom check alone gives 7 + (-10 + 100 - 50) = 47, but the offset handed over
is 37. -/
theorem ensureItemVisibility_both_checks_example :
    getSelectedItem exampleTall = some (mkRow 1 (-10) 100) ∧
    currentOffsetY exampleTall (mkRow 1 (-10) 100) = -10 ∧
    windowSizeY exampleTall = 50 ∧
    exampleTall.mViewPosition.mY +
      (currentOffsetY exampleTall (mkRow 1 (-10) 100) + (mkRow 1 (-10) 100).mHeight -
        windowSizeY exampleTall) = 47 ∧
    (ensureItemVisibility exampleTall).mViewPosition.mY = 37 := by
  decide

/-- C16, amended. When both checks apply (top offset `o < 0` and `o + h > w`),
both shifts are added: the vertical view offset handed to the scroll container
is `v + o + (o + h - w)`, where `v` is the view offset before the call. -/
theorem ensureItemVisibility_both_shifts_add (lv : ListView) (selected : UIElement)
    (hsel : getSelectedItem lv = some selected)
    (htop : currentOffsetY lv selected < 0)
    (hbottom : currentOffsetY lv selected + selected.mHeight > windowSizeY lv) :
    (ensureItemVisibility lv).mViewPosition.mY =
      lv.mViewPosition.mY + currentOffsetY lv selected +
        (currentOffsetY lv selected + selected.mHeight - windowSizeY lv) := by
  simp only [currentOffsetY, windowSizeY] at htop hbottom ⊢
  simp [ensureItemVisibility, hsel, setViewPosition, htop, hbottom]

/-- Witness for the amended C16 on the example with the tall item. -/
theorem ensureItemVisibility_both_shifts_add_witness :
    getSelectedItem exampleTall = some (mkRow 1 (-10) 100) ∧
    currentOffsetY exampleTall (mkRow 1 (-10) 100) < 0 ∧
    currentOffsetY exampleTall (mkRow 1 (-10) 100) + (mkRow 1 (-10) 100).mHeight >
      windowSizeY exampleTall ∧
    (ensureItemVisibility exampleTall).mViewPosition.mY =
      exampleTall.mViewPosition.mY + currentOffsetY exampleTall (mkRow 1 (-10) 100) +
        (currentOffsetY exampleTall (mkRow 1 (-10) 100) + (mkRow 1 (-10) 100).mHeight -
          windowSizeY exampleTall) :=
  ⟨by decide, by decide, by decide,
    ensureItemVisibility_both_shifts_add exampleTall (mkRow 1 (-10) 100)
      (by decide) (by decide) (by decide)⟩

/-! ## Composition of steps -/

theorem visibleAfter_tail (lv : ListView) :
    ∀ (gap s x : Nat) (rest : List Nat), getNumItems lv ≤ gap + s →
      visibleAfter lv s = x :: rest → visibleAfter lv x = rest := by
  intro gap
  induction gap with
  | zero =>
    intro s x rest hgap h
    rw [visibleAfter_of_ge lv (by omega)] at h
    cases h
  | succ gap ih =>
    intro s x rest hgap h
    by_cases hend : getNumItems lv ≤ s + 1
    · rw [visibleAfter_of_ge lv hend] at h
      cases h
    · rw [visibleAfter_step lv (by omega)] at h
      by_cases hvis : isVisibleAt lv (s + 1) = true
      · rw [if_pos hvis] at h
        injection h with h1 h2
        rw [← h1]
        exact h2
      · rw [if_neg hvis] at h
        exact ih (s + 1) x rest (by omega) h

theorem visibleBefore_tail (lv : ListView) :
    ∀ (s x : Nat) (rest : List Nat),
      visibleBefore lv s = x :: rest → visibleBefore lv x = rest := by
  intro s
  induction s with
  | zero =>
    intro x rest h
    rw [visibleBefore_zero] at h
    cases h
  | succ s ih =>
    intro x rest h
    rw [visibleBefore_succ] at h
    by_cases hvis : isVisibleAt lv s = true
    · rw [if_pos hvis] at h
      injection h with h1 h2
      rw [← h1]
      exact h2
    · rw [if_neg hvis] at h
      exact ih x rest h

/-- Moving `a` steps and then `b` steps along a chain of candidates, where the
candidates of a candidate are those that follow it, is moving `a + b` steps. -/
theorem moveAlong_compose (cands : Nat → List Nat)
    (htail : ∀ s x rest, cands s = x :: rest → cands x = rest) :
    ∀ (a s b : Nat),
      moveAlong (moveAlong s (cands s) a) (cands (moveAlong s (cands s) a)) b =
        moveAlong s (cands s) (a + b) := by
  intro a
  induction a with
  | zero => intro s b; simp [moveAlong_zero]
  | succ a ih =>
    intro s b
    cases hc : cands s with
    | nil => simp [moveAlong, hc]
    | cons x rest =>
      have hx : cands x = rest := htail s x rest hc
      have hab : a + 1 + b = (a + b) + 1 := by omega
      rw [hab]
      simp only [moveAlong]
      rw [← hx]
      exact ih x b

theorem isVisibleAt_congr {lv lv' : ListView}
    (h : lv'.items.map UIElement.mVisible = lv.items.map UIElement.mVisible) (j : Nat) :
    isVisibleAt lv' j = isVisibleAt lv j := by
  have hj : (lv'.items.map UIElement.mVisible)[j]? = (lv.items.map UIElement.mVisible)[j]? := by
    rw [h]
  simp only [List.getElem?_map] at hj
  unfold isVisibleAt getItem
  cases h1 : lv'.items[j]? <;> cases h2 : lv.items[j]? <;> simp_all

theorem visibleAfter_congr {lv lv' : ListView}
    (h : lv'.items.map UIElement.mVisible = lv.items.map UIElement.mVisible) (s : Nat) :
    visibleAfter lv' s = visibleAfter lv s := by
  have hlen : getNumItems lv' = getNumItems lv := by
    have := congrArg List.length h
    simpa [getNumItems] using this
  unfold visibleAfter
  rw [hlen]
  exact List.filter_congr (fun j _ => isVisibleAt_congr h j)

theorem visibleBefore_congr {lv lv' : ListView}
    (h : lv'.items.map UIElement.mVisible = lv.items.map UIElement.mVisible) (s : Nat) :
    visibleBefore lv' s = visibleBefore lv s := by
  unfold visibleBefore
  congr 1
  exact List.filter_congr (fun j _ => isVisibleAt_congr h j)

/-- What `setSelection` leaves when the target is visible: selection on the
target, as many items with the same visibility. -/
theorem setSelection_visible (lv : ListView) (t : Nat) (hn : getNumItems lv < UNSIGNED_MOD)
    (hvis : isVisibleAt lv t = true) :
    ∃ lv', setSelection t lv = some lv' ∧ lv'.mSelection = t ∧
      getNumItems lv' = getNumItems lv ∧
      lv'.items.map UIElement.mVisible = lv.items.map UIElement.mVisible := by
  refine ⟨_, setSelection_eq t lv hn, ?_, ?_, ?_⟩
  · simp [sendEvent, resolveSelection_of_isVisibleAt hvis]
  · simp [sendEvent, getNumItems, length_selectionEffect]
  · simp [sendEvent, map_mVisible_selectionEffect]

theorem isVisibleAt_moveAlong (lv : ListView) (s d : Nat) (l : List Nat)
    (hs : isVisibleAt lv s = true) (hl : ∀ j ∈ l, isVisibleAt lv j = true) :
    isVisibleAt lv (moveAlong s l d) = true := by
  rcases moveAlong_mem l s d with h | h
  · rw [h]; exact hs
  · exact hl _ h

theorem lt_of_isVisibleAt {lv : ListView} {j : Nat} (h : isVisibleAt lv j = true) :
    j < getNumItems lv := by
  obtain ⟨item, hget, _⟩ := (isVisibleAt_iff lv j).mp h
  exact lt_of_getItem hget

/-- Two moves forward from a visible selection. -/
theorem changeSelection_forward_twice (lv : ListView) (a b : Nat)
    (hn : getNumItems lv < UNSIGNED_MOD) (hvis : isVisibleAt lv lv.mSelection = true) :
    ((changeSelection (a : Int) lv).bind (changeSelection (b : Int))).map ListView.mSelection =
      (changeSelection ((a + b : Nat) : Int) lv).map ListView.mSelection := by
  have hlt := lt_of_isVisibleAt hvis
  have hne := selection_ne_max_of_lt hn hlt
  have hsW : lv.mSelection < UNSIGNED_MOD := by omega
  have hmem : ∀ j ∈ visibleAfter lv lv.mSelection, isVisibleAt lv j = true :=
    fun j hj => ((mem_visibleAfter lv _ j).mp hj).2.2
  obtain ⟨lv1, h1, hsel1, hn1, hvis1⟩ := setSelection_visible lv
    (moveAlong lv.mSelection (visibleAfter lv lv.mSelection) a) hn
    (isVisibleAt_moveAlong lv _ a _ hvis hmem)
  obtain ⟨lv3, h3, hsel3, _, _⟩ := setSelection_visible lv
    (moveAlong lv.mSelection (visibleAfter lv lv.mSelection) (a + b)) hn
    (isVisibleAt_moveAlong lv _ (a + b) _ hvis hmem)
  have hvisAt1 : isVisibleAt lv1 lv1.mSelection = true := by
    rw [isVisibleAt_congr hvis1, hsel1]
    exact isVisibleAt_moveAlong lv _ a _ hvis hmem
  have hn1' : getNumItems lv1 < UNSIGNED_MOD := by rw [hn1]; exact hn
  have hmem1 : ∀ j ∈ visibleAfter lv1 lv1.mSelection, isVisibleAt lv1 j = true :=
    fun j hj => ((mem_visibleAfter lv1 _ j).mp hj).2.2
  obtain ⟨lv2, h2, hsel2, _, _⟩ := setSelection_visible lv1
    (moveAlong lv1.mSelection (visibleAfter lv1 lv1.mSelection) b) hn1'
    (isVisibleAt_moveAlong lv1 _ b _ hvisAt1 hmem1)
  have hne1 := selection_ne_max_of_lt hn1' (lt_of_isVisibleAt hvisAt1)
  have hsW1 : lv1.mSelection < UNSIGNED_MOD := lt_trans (lt_of_isVisibleAt hvisAt1) hn1'
  rw [changeSelection_forward lv a hn hne hsW, h1, Option.some_bind,
    changeSelection_forward lv1 b hn1' hne1 hsW1, h2,
    changeSelection_forward lv (a + b) hn hne hsW, h3]
  simp only [Option.map_some', hsel2, hsel3, Option.some.injEq]
  rw [visibleAfter_congr hvis1, hsel1]
  exact moveAlong_compose (visibleAfter lv)
    (fun s x rest h => visibleAfter_tail lv (getNumItems lv) s x rest (by omega) h)
    a lv.mSelection b

/-- Two moves backward from a visible selection. -/
theorem changeSelection_backward_twice (lv : ListView) (a b : Nat)
    (hn : getNumItems lv < UNSIGNED_MOD) (hvis : isVisibleAt lv lv.mSelection = true) :
    ((changeSelection (-(a : Int)) lv).bind (changeSelection (-(b : Int)))).map
        ListView.mSelection =
      (changeSelection (-((a + b : Nat) : Int)) lv).map ListView.mSelection := by
  have hlt := lt_of_isVisibleAt hvis
  have hne := selection_ne_max_of_lt hn hlt
  have hmem : ∀ j ∈ visibleBefore lv lv.mSelection, isVisibleAt lv j = true :=
    fun j hj => ((mem_visibleBefore lv _ j).mp hj).2
  obtain ⟨lv1, h1, hsel1, hn1, hvis1⟩ := setSelection_visible lv
    (moveAlong lv.mSelection (visibleBefore lv lv.mSelection) a) hn
    (isVisibleAt_moveAlong lv _ a _ hvis hmem)
  obtain ⟨lv3, h3, hsel3, _, _⟩ := setSelection_visible lv
    (moveAlong lv.mSelection (visibleBefore lv lv.mSelection) (a + b)) hn
    (isVisibleAt_moveAlong lv _ (a + b) _ hvis hmem)
  have hvisAt1 : isVisibleAt lv1 lv1.mSelection = true := by
    rw [isVisibleAt_congr hvis1, hsel1]
    exact isVisibleAt_moveAlong lv _ a _ hvis hmem
  have hn1' : getNumItems lv1 < UNSIGNED_MOD := by rw [hn1]; exact hn
  have hmem1 : ∀ j ∈ visibleBefore lv1 lv1.mSelection, isVisibleAt lv1 j = true :=
    fun j hj => ((mem_visibleBefore lv1 _ j).mp hj).2
  obtain ⟨lv2, h2, hsel2, _, _⟩ := setSelection_visible lv1
    (moveAlong lv1.mSelection (visibleBefore lv1 lv1.mSelection) b) hn1'
    (isVisibleAt_moveAlong lv1 _ b _ hvisAt1 hmem1)
  have hlt1 := lt_of_isVisibleAt hvisAt1
  have hne1 := selection_ne_max_of_lt hn1' hlt1
  rw [changeSelection_backward lv a hn hne (le_of_lt hlt), h1, Option.some_bind,
    changeSelection_backward lv1 b hn1' hne1 (le_of_lt hlt1), h2,
    changeSelection_backward lv (a + b) hn hne (le_of_lt hlt), h3]
  simp only [Option.map_some', hsel2, hsel3, Option.some.injEq]
  rw [visibleBefore_congr hvis1, hsel1]
  exact moveAlong_compose (visibleBefore lv) (visibleBefore_tail lv) a lv.mSelection b

/-- C19. With a selection that is the index of a visible item, for all integers
`a, b ≥ 0` the selection after `changeSelection(a)` followed by
`changeSelection(b)` is the selection after the single call
`changeSelection(a + b)`, both sequences complete, and likewise for
`a, b ≤ 0`. -/
theorem changeSelection_steps_compose (lv : ListView) (a b : Int) (s : Nat) (item : UIElement)
    (hn : getNumItems lv < UNSIGNED_MOD) (hs : lv.mSelection = s)
    (hget : getItem lv s = some item) (hvis : item.mVisible = true)
    (hsign : (0 ≤ a ∧ 0 ≤ b) ∨ (a ≤ 0 ∧ b ≤ 0)) :
    ∃ t, ((changeSelection a lv).bind (changeSelection b)).map ListView.mSelection = some t ∧
      (changeSelection (a + b) lv).map ListView.mSelection = some t := by
  subst hs
  have hsvis : isVisibleAt lv lv.mSelection = true := (isVisibleAt_iff _ _).mpr ⟨item, hget, hvis⟩
  have hne := selection_ne_max_of_lt hn (lt_of_isVisibleAt hsvis)
  have hsW : lv.mSelection < UNSIGNED_MOD := by have := lt_of_isVisibleAt hsvis; omega
  rcases hsign with ⟨ha, hb⟩ | ⟨ha, hb⟩
  · obtain ⟨a', rfl⟩ := Int.eq_ofNat_of_zero_le ha
    obtain ⟨b', rfl⟩ := Int.eq_ofNat_of_zero_le hb
    have hsum : ((a' : Int) + (b' : Int)) = ((a' + b' : Nat) : Int) := by push_cast; rfl
    obtain ⟨lv3, h3, hsel3, _, _⟩ := setSelection_visible lv
      (moveAlong lv.mSelection (visibleAfter lv lv.mSelection) (a' + b')) hn
      (isVisibleAt_moveAlong lv _ (a' + b') _ hsvis
        (fun j hj => ((mem_visibleAfter lv _ j).mp hj).2.2))
    refine ⟨lv3.mSelection, ?_, ?_⟩
    · rw [changeSelection_forward_twice lv a' b' hn hsvis,
        changeSelection_forward lv (a' + b') hn hne hsW, h3]
      rfl
    · rw [hsum, changeSelection_forward lv (a' + b') hn hne hsW, h3]
      rfl
  · obtain ⟨a', ha'⟩ := Int.eq_ofNat_of_zero_le (show 0 ≤ -a by omega)
    obtain ⟨b', hb'⟩ := Int.eq_ofNat_of_zero_le (show 0 ≤ -b by omega)
    obtain rfl : a = -(a' : Int) := by omega
    obtain rfl : b = -(b' : Int) := by omega
    have hsum : (-(a' : Int) + -(b' : Int)) = -((a' + b' : Nat) : Int) := by push_cast; ring
    obtain ⟨lv3, h3, hsel3, _, _⟩ := setSelection_visible lv
      (moveAlong lv.mSelection (visibleBefore lv lv.mSelection) (a' + b')) hn
      (isVisibleAt_moveAlong lv _ (a' + b') _ hsvis
        (fun j hj => ((mem_visibleBefore lv _ j).mp hj).2))
    have hle : lv.mSelection ≤ getNumItems lv := le_of_lt (lt_of_isVisibleAt hsvis)
    refine ⟨lv3.mSelection, ?_, ?_⟩
    · rw [changeSelection_backward_twice lv a' b' hn hsvis,
        changeSelection_backward lv (a' + b') hn hne hle, h3]
      rfl
    · rw [hsum, changeSelection_backward lv (a' + b') hn hne hle, h3]
      rfl

/-- Witness for C19: two single steps forward from item 0 of the example view. -/
theorem changeSelection_steps_compose_witness :
    getNumItems exampleSelected < UNSIGNED_MOD ∧
    exampleSelected.mSelection = 0 ∧
    getItem exampleSelected 0 = some (mkItem 1 true 0) ∧
    (mkItem 1 true 0).mVisible = true ∧
    (((0 : Int) ≤ 1 ∧ (0 : Int) ≤ 1) ∨ ((1 : Int) ≤ 0 ∧ (1 : Int) ≤ 0)) ∧
    ∃ t, ((changeSelection 1 exampleSelected).bind (changeSelection 1)).map
          ListView.mSelection = some t ∧
      (changeSelection (1 + 1) exampleSelected).map ListView.mSelection = some t :=
  ⟨by decide, by decide, by decide, by decide, by decide,
    changeSelection_steps_compose exampleSelected 1 1 0 (mkItem 1 true 0)
      (by decide) (by decide) (by decide) (by decide) (by decide)⟩

/-! ## Key dispatch -/

theorem unsignedToInt_of_lt {n : Nat} (h : n < 2147483648) : unsignedToInt n = (n : Int) := by
  unfold unsignedToInt
  have hmod : n % UNSIGNED_MOD = n := Nat.mod_eq_of_lt (by show n < 4294967296; omega)
  rw [hmod, if_pos h]

theorem onKey_unhandled_of_no_selection (c : InputConstants) (key buttons qualifiers : Int)
    (lv : ListView) (h : ¬ (lv.mSelection ≠ M_MAX_UNSIGNED ∧ getNumItems lv ≠ 0)) :
    onKey c key buttons qualifiers lv =
      some (sendEvent (Event.listViewKey key buttons qualifiers) lv) := by
  unfold onKey
  simp only [if_neg h]

/-- Each key code differs from the key codes that `onKey` tests before it. -/
theorem keysDistinct_later_ne (c : InputConstants) (hc : c.keysDistinct) :
    (c.KEY_RIGHT ≠ c.KEY_LEFT) ∧
    (c.KEY_RETURN ≠ c.KEY_LEFT ∧ c.KEY_RETURN ≠ c.KEY_RIGHT) ∧
    (c.KEY_UP ≠ c.KEY_LEFT ∧ c.KEY_UP ≠ c.KEY_RIGHT ∧ c.KEY_UP ≠ c.KEY_RETURN) ∧
    (c.KEY_DOWN ≠ c.KEY_LEFT ∧ c.KEY_DOWN ≠ c.KEY_RIGHT ∧ c.KEY_DOWN ≠ c.KEY_RETURN ∧
      c.KEY_DOWN ≠ c.KEY_UP) ∧
    (c.KEY_PAGEUP ≠ c.KEY_LEFT ∧ c.KEY_PAGEUP ≠ c.KEY_RIGHT ∧ c.KEY_PAGEUP ≠ c.KEY_RETURN ∧
      c.KEY_PAGEUP ≠ c.KEY_UP ∧ c.KEY_PAGEUP ≠ c.KEY_DOWN) ∧
    (c.KEY_PAGEDOWN ≠ c.KEY_LEFT ∧ c.KEY_PAGEDOWN ≠ c.KEY_RIGHT ∧
      c.KEY_PAGEDOWN ≠ c.KEY_RETURN ∧ c.KEY_PAGEDOWN ≠ c.KEY_UP ∧ c.KEY_PAGEDOWN ≠ c.KEY_DOWN ∧
      c.KEY_PAGEDOWN ≠ c.KEY_PAGEUP) ∧
    (c.KEY_HOME ≠ c.KEY_LEFT ∧ c.KEY_HOME ≠ c.KEY_RIGHT ∧ c.KEY_HOME ≠ c.KEY_RETURN ∧
      c.KEY_HOME ≠ c.KEY_UP ∧ c.KEY_HOME ≠ c.KEY_DOWN ∧ c.KEY_HOME ≠ c.KEY_PAGEUP ∧
      c.KEY_HOME ≠ c.KEY_PAGEDOWN) ∧
    (c.KEY_END ≠ c.KEY_LEFT ∧ c.KEY_END ≠ c.KEY_RIGHT ∧ c.KEY_END ≠ c.KEY_RETURN ∧
      c.KEY_END ≠ c.KEY_UP ∧ c.KEY_END ≠ c.KEY_DOWN ∧ c.KEY_END ≠ c.KEY_PAGEUP ∧
      c.KEY_END ≠ c.KEY_PAGEDOWN ∧ c.KEY_END ≠ c.KEY_HOME) := by
  simp only [InputConstants.keysDistinct, List.nodup_cons, List.mem_cons, List.mem_singleton,
    not_or, List.not_mem_nil, not_false_eq_true, List.nodup_nil, and_true] at hc
  obtain ⟨⟨l1, l2, l3, l4, l5, l6, l7, l8⟩, ⟨r1, r2, r3, r4, r5, r6, r7⟩,
    ⟨t1, t2, t3, t4, t5, t6⟩, ⟨u1, u2, u3, u4, u5⟩, ⟨d1, d2, d3, d4⟩, ⟨p1, p2, p3⟩,
    ⟨q1, q2⟩, e1⟩ := hc
  exact ⟨Ne.symm l1, ⟨Ne.symm l2, Ne.symm r1⟩, ⟨Ne.symm l3, Ne.symm r2, Ne.symm t1⟩,
    ⟨Ne.symm l4, Ne.symm r3, Ne.symm t2, Ne.symm u1⟩,
    ⟨Ne.symm l5, Ne.symm r4, Ne.symm t3, Ne.symm u2, Ne.symm d1⟩,
    ⟨Ne.symm l6, Ne.symm r5, Ne.symm t4, Ne.symm u3, Ne.symm d2, Ne.symm p1⟩,
    ⟨Ne.symm l7, Ne.symm r6, Ne.symm t5, Ne.symm u4, Ne.symm d3, Ne.symm p2, Ne.symm q1⟩,
    ⟨Ne.symm l8, Ne.symm r7, Ne.symm t6, Ne.symm u5, Ne.symm d4, Ne.symm p3, Ne.symm q2,
      Ne.symm e1⟩⟩

theorem onKey_KEY_LEFT (c : InputConstants) (buttons qualifiers : Int)
    (lv : ListView) (h : lv.mSelection ≠ M_MAX_UNSIGNED ∧ getNumItems lv ≠ 0) :
    onKey c c.KEY_LEFT buttons qualifiers lv =
      if lv.mHierarchyMode = true then setChildItemsVisible false lv
      else some (sendEvent (Event.listViewKey c.KEY_LEFT buttons qualifiers) lv) := by
  simp only [onKey, if_pos h, if_true]

theorem onKey_KEY_RIGHT (c : InputConstants) (hc : c.keysDistinct) (buttons qualifiers : Int)
    (lv : ListView) (h : lv.mSelection ≠ M_MAX_UNSIGNED ∧ getNumItems lv ≠ 0) :
    onKey c c.KEY_RIGHT buttons qualifiers lv =
      if lv.mHierarchyMode = true then setChildItemsVisible true lv
      else some (sendEvent (Event.listViewKey c.KEY_RIGHT buttons qualifiers) lv) := by
  obtain ⟨h1, -⟩ := keysDistinct_later_ne c hc
  simp only [onKey, if_pos h, h1, if_false, if_true]

theorem onKey_KEY_RETURN (c : InputConstants) (hc : c.keysDistinct) (buttons qualifiers : Int)
    (lv : ListView) (h : lv.mSelection ≠ M_MAX_UNSIGNED ∧ getNumItems lv ≠ 0) :
    onKey c c.KEY_RETURN buttons qualifiers lv =
      if lv.mHierarchyMode = true then toggleChildItemsVisible lv
      else some (sendEvent (Event.listViewKey c.KEY_RETURN buttons qualifiers) lv) := by
  obtain ⟨-, ⟨h1, h2⟩, -⟩ := keysDistinct_later_ne c hc
  simp only [onKey, if_pos h, h1, h2, if_false, if_true]

theorem onKey_KEY_UP (c : InputConstants) (hc : c.keysDistinct) (buttons qualifiers : Int)
    (lv : ListView) (h : lv.mSelection ≠ M_MAX_UNSIGNED ∧ getNumItems lv ≠ 0) :
    onKey c c.KEY_UP buttons qualifiers lv =
      if Int.land qualifiers c.QUAL_CTRL ≠ 0 then
        changeSelection (-(unsignedToInt (getNumItems lv))) lv
      else changeSelection (-1) lv := by
  obtain ⟨-, -, ⟨h1, h2, h3⟩, -⟩ := keysDistinct_later_ne c hc
  simp only [onKey, if_pos h, h1, h2, h3, if_false, if_true]

theorem onKey_KEY_DOWN (c : InputConstants) (hc : c.keysDistinct) (buttons qualifiers : Int)
    (lv : ListView) (h : lv.mSelection ≠ M_MAX_UNSIGNED ∧ getNumItems lv ≠ 0) :
    onKey c c.KEY_DOWN buttons qualifiers lv =
      if Int.land qualifiers c.QUAL_CTRL ≠ 0 then
        changeSelection (unsignedToInt (getNumItems lv)) lv
      else changeSelection 1 lv := by
  obtain ⟨-, -, -, ⟨h1, h2, h3, h4⟩, -⟩ := keysDistinct_later_ne c hc
  simp only [onKey, if_pos h, h1, h2, h3, h4, if_false, if_true]

theorem onKey_KEY_PAGEUP (c : InputConstants) (hc : c.keysDistinct) (buttons qualifiers : Int)
    (lv : ListView) (h : lv.mSelection ≠ M_MAX_UNSIGNED ∧ getNumItems lv ≠ 0) :
    onKey c c.KEY_PAGEUP buttons qualifiers lv =
      (pageStepPixels lv).bind (fun stepPixels =>
        (pageUpLoop (getNumItems lv) lv (getNumItems lv + 1) stepPixels lv.mSelection
          lv.mSelection).bind (fun okSelection => setSelection okSelection lv)) := by
  obtain ⟨-, -, -, -, ⟨h1, h2, h3, h4, h5⟩, -⟩ := keysDistinct_later_ne c hc
  simp only [onKey, if_pos h, h1, h2, h3, h4, h5, if_false, if_true]
  rfl

theorem onKey_KEY_PAGEDOWN (c : InputConstants) (hc : c.keysDistinct) (buttons qualifiers : Int)
    (lv : ListView) (h : lv.mSelection ≠ M_MAX_UNSIGNED ∧ getNumItems lv ≠ 0) :
    onKey c c.KEY_PAGEDOWN buttons qualifiers lv =
      (pageStepPixels lv).bind (fun stepPixels =>
        (pageDownLoop (getNumItems lv) lv (getNumItems lv + 1) stepPixels lv.mSelection
          lv.mSelection).bind (fun okSelection => setSelection okSelection lv)) := by
  obtain ⟨-, -, -, -, -, ⟨h1, h2, h3, h4, h5, h6⟩, -⟩ := keysDistinct_later_ne c hc
  simp only [onKey, if_pos h, h1, h2, h3, h4, h5, h6, if_false, if_true]
  rfl

theorem onKey_KEY_HOME (c : InputConstants) (hc : c.keysDistinct) (buttons qualifiers : Int)
    (lv : ListView) (h : lv.mSelection ≠ M_MAX_UNSIGNED ∧ getNumItems lv ≠ 0) :
    onKey c c.KEY_HOME buttons qualifiers lv =
      changeSelection (-(unsignedToInt (getNumItems lv))) lv := by
  obtain ⟨-, -, -, -, -, -, ⟨h1, h2, h3, h4, h5, h6, h7⟩, -⟩ := keysDistinct_later_ne c hc
  simp only [onKey, if_pos h, h1, h2, h3, h4, h5, h6, h7, if_false, if_true]

theorem onKey_KEY_END (c : InputConstants) (hc : c.keysDistinct) (buttons qualifiers : Int)
    (lv : ListView) (h : lv.mSelection ≠ M_MAX_UNSIGNED ∧ getNumItems lv ≠ 0) :
    onKey c c.KEY_END buttons qualifiers lv =
      changeSelection (unsignedToInt (getNumItems lv)) lv := by
  obtain ⟨-, -, -, -, -, -, -, ⟨h1, h2, h3, h4, h5, h6, h7, h8⟩⟩ := keysDistinct_later_ne c hc
  simp only [onKey, if_pos h, h1, h2, h3, h4, h5, h6, h7, h8, if_false, if_true]

theorem onKey_other (c : InputConstants) (key buttons qualifiers : Int) (lv : ListView)
    (h1 : key ≠ c.KEY_LEFT) (h2 : key ≠ c.KEY_RIGHT) (h3 : key ≠ c.KEY_RETURN)
    (h4 : key ≠ c.KEY_UP) (h5 : key ≠ c.KEY_DOWN) (h6 : key ≠ c.KEY_PAGEUP)
    (h7 : key ≠ c.KEY_PAGEDOWN) (h8 : key ≠ c.KEY_HOME) (h9 : key ≠ c.KEY_END) :
    onKey c key buttons qualifiers lv =
      some (sendEvent (Event.listViewKey key buttons qualifiers) lv) := by
  simp only [onKey, h1, h2, h3, h4, h5, h6, h7, h8, h9, if_false, ite_self]

/-! ## Home, End and the jump keys -/

theorem moveAlong_reaches_last (l : List Nat) :
    ∀ (s d : Nat), l.Pairwise (fun a b => a < b) → (∀ j ∈ l, s < j) → l.length ≤ d →
      s ≤ moveAlong s l d ∧ ∀ j ∈ l, j ≤ moveAlong s l d := by
  induction l with
  | nil => intro s d _ _ _; simp [moveAlong]
  | cons x rest ih =>
    intro s d hpair hs hd
    obtain ⟨d, rfl⟩ : ∃ d', d = d' + 1 := ⟨d - 1, by simp at hd; omega⟩
    rw [List.pairwise_cons] at hpair
    obtain ⟨h1, h2⟩ := ih x d hpair.2 hpair.1 (by simp at hd; omega)
    have hsx : s < x := hs x (List.mem_cons_self _ _)
    simp only [moveAlong]
    refine ⟨by omega, fun j hj => ?_⟩
    rcases List.mem_cons.mp hj with rfl | hj
    · exact h1
    · exact h2 j hj

theorem moveAlong_reaches_first (l : List Nat) :
    ∀ (s d : Nat), l.Pairwise (fun a b => b < a) → (∀ j ∈ l, j < s) → l.length ≤ d →
      moveAlong s l d ≤ s ∧ ∀ j ∈ l, moveAlong s l d ≤ j := by
  induction l with
  | nil => intro s d _ _ _; simp [moveAlong]
  | cons x rest ih =>
    intro s d hpair hs hd
    obtain ⟨d, rfl⟩ : ∃ d', d = d' + 1 := ⟨d - 1, by simp at hd; omega⟩
    rw [List.pairwise_cons] at hpair
    obtain ⟨h1, h2⟩ := ih x d hpair.2 hpair.1 (by simp at hd; omega)
    have hsx : x < s := hs x (List.mem_cons_self _ _)
    simp only [moveAlong]
    refine ⟨by omega, fun j hj => ?_⟩
    rcases List.mem_cons.mp hj with rfl | hj
    · exact h1
    · exact h2 j hj

theorem length_visibleAfter_le (lv : ListView) (s : Nat) :
    (visibleAfter lv s).length ≤ getNumItems lv := by
  unfold visibleAfter
  refine le_trans (List.length_filter_le _ _) ?_
  rw [List.length_range']
  omega

theorem length_visibleBefore_le (lv : ListView) (s : Nat) :
    (visibleBefore lv s).length ≤ s := by
  unfold visibleBefore
  rw [List.length_reverse]
  refine le_trans (List.length_filter_le _ _) ?_
  rw [List.length_range]

/-- A jump forward by the number of items from a visible selection ends on the
last visible item. -/
theorem changeSelection_jump_forward (lv : ListView) (hn : getNumItems lv < UNSIGNED_MOD)
    (hvis : isVisibleAt lv lv.mSelection = true) :
    ∃ lv', changeSelection ((getNumItems lv : Nat) : Int) lv = some lv' ∧
      isVisibleAt lv lv'.mSelection = true ∧
      ∀ j, isVisibleAt lv j = true → j ≤ lv'.mSelection := by
  have hlt := lt_of_isVisibleAt hvis
  have hne := selection_ne_max_of_lt hn hlt
  have hmem : ∀ j ∈ visibleAfter lv lv.mSelection, isVisibleAt lv j = true :=
    fun j hj => ((mem_visibleAfter lv _ j).mp hj).2.2
  have htarget := isVisibleAt_moveAlong lv lv.mSelection (getNumItems lv) _ hvis hmem
  obtain ⟨lv', h, hsel, _, _⟩ := setSelection_visible lv _ hn htarget
  obtain ⟨h1, h2⟩ := moveAlong_reaches_last (visibleAfter lv lv.mSelection) lv.mSelection
    (getNumItems lv) (visibleAfter_ascending lv _)
    (fun j hj => ((mem_visibleAfter lv _ j).mp hj).1) (length_visibleAfter_le lv _)
  refine ⟨lv', (changeSelection_forward lv _ hn hne (by omega)).trans h, ?_, ?_⟩
  · rw [hsel]; exact htarget
  · intro j hj
    rw [hsel]
    rcases Nat.lt_or_ge lv.mSelection j with hgt | hle
    · exact h2 j ((mem_visibleAfter lv _ j).mpr ⟨hgt, lt_of_isVisibleAt hj, hj⟩)
    · omega

/-- A jump backward by the number of items from a visible selection ends on the
first visible item. -/
theorem changeSelection_jump_backward (lv : ListView) (hn : getNumItems lv < UNSIGNED_MOD)
    (hvis : isVisibleAt lv lv.mSelection = true) :
    ∃ lv', changeSelection (-((getNumItems lv : Nat) : Int)) lv = some lv' ∧
      isVisibleAt lv lv'.mSelection = true ∧
      ∀ j, isVisibleAt lv j = true → lv'.mSelection ≤ j := by
  have hlt := lt_of_isVisibleAt hvis
  have hne := selection_ne_max_of_lt hn hlt
  have hmem : ∀ j ∈ visibleBefore lv lv.mSelection, isVisibleAt lv j = true :=
    fun j hj => ((mem_visibleBefore lv _ j).mp hj).2
  have htarget := isVisibleAt_moveAlong lv lv.mSelection (getNumItems lv) _ hvis hmem
  obtain ⟨lv', h, hsel, _, _⟩ := setSelection_visible lv _ hn htarget
  obtain ⟨h1, h2⟩ := moveAlong_reaches_first (visibleBefore lv lv.mSelection) lv.mSelection
    (getNumItems lv) (visibleBefore_descending lv _)
    (fun j hj => ((mem_visibleBefore lv _ j).mp hj).1)
    (le_trans (length_visibleBefore_le lv _) (le_of_lt hlt))
  refine ⟨lv', (changeSelection_backward lv _ hn hne (le_of_lt hlt)).trans h, ?_, ?_⟩
  · rw [hsel]; exact htarget
  · intro j hj
    rw [hsel]
    rcases Nat.lt_or_ge j lv.mSelection with hgt | hle
    · exact h2 j ((mem_visibleBefore lv _ j).mpr ⟨hgt, hj⟩)
    · omega

/-- C13. For a non-empty list of fewer than 2^31 items (so that `(int)numItems`
is the number of items) and a selection that is the index of a visible item:
after the End key, and after the Down key with the control qualifier, the
selection is the largest index of a visible item; after the Home key, and after
the Up key with the control qualifier, it is the smallest index of a visible
item. -/
theorem onKey_home_end_reach_extremes (c : InputConstants) (hc : c.keysDistinct)
    (lv : ListView) (buttons qualifiers : Int) (s : Nat) (item : UIElement)
    (hn : getNumItems lv < 2147483648) (hs : lv.mSelection = s)
    (hget : getItem lv s = some item) (hvis : item.mVisible = true) :
    (∃ lv', onKey c c.KEY_END buttons qualifiers lv = some lv' ∧
      isVisibleAt lv lv'.mSelection = true ∧ ∀ j, isVisibleAt lv j = true → j ≤ lv'.mSelection) ∧
    (Int.land qualifiers c.QUAL_CTRL ≠ 0 →
      ∃ lv', onKey c c.KEY_DOWN buttons qualifiers lv = some lv' ∧
        isVisibleAt lv lv'.mSelection = true ∧
        ∀ j, isVisibleAt lv j = true → j ≤ lv'.mSelection) ∧
    (∃ lv', onKey c c.KEY_HOME buttons qualifiers lv = some lv' ∧
      isVisibleAt lv lv'.mSelection = true ∧ ∀ j, isVisibleAt lv j = true → lv'.mSelection ≤ j) ∧
    (Int.land qualifiers c.QUAL_CTRL ≠ 0 →
      ∃ lv', onKey c c.KEY_UP buttons qualifiers lv = some lv' ∧
        isVisibleAt lv lv'.mSelection = true ∧
        ∀ j, isVisibleAt lv j = true → lv'.mSelection ≤ j) := by
  subst hs
  have hsvis : isVisibleAt lv lv.mSelection = true := (isVisibleAt_iff _ _).mpr ⟨item, hget, hvis⟩
  have hnW : getNumItems lv < UNSIGNED_MOD := by
    show getNumItems lv < 4294967296
    omega
  have hlt := lt_of_isVisibleAt hsvis
  have hh : lv.mSelection ≠ M_MAX_UNSIGNED ∧ getNumItems lv ≠ 0 :=
    ⟨selection_ne_max_of_lt hnW hlt, by omega⟩
  refine ⟨?_, fun hq => ?_, ?_, fun hq => ?_⟩
  · rw [onKey_KEY_END c hc buttons qualifiers lv hh, unsignedToInt_of_lt hn]
    exact changeSelection_jump_forward lv hnW hsvis
  · rw [onKey_KEY_DOWN c hc buttons qualifiers lv hh, if_pos hq, unsignedToInt_of_lt hn]
    exact changeSelection_jump_forward lv hnW hsvis
  · rw [onKey_KEY_HOME c hc buttons qualifiers lv hh, unsignedToInt_of_lt hn]
    exact changeSelection_jump_backward lv hnW hsvis
  · rw [onKey_KEY_UP c hc buttons qualifiers lv hh, if_pos hq, unsignedToInt_of_lt hn]
    exact changeSelection_jump_backward lv hnW hsvis

/-- Witness for C13 on the example view with item 0 selected. -/
theorem onKey_home_end_reach_extremes_witness :
    exampleConstants.keysDistinct ∧
    getNumItems exampleSelected < 2147483648 ∧
    exampleSelected.mSelection = 0 ∧
    getItem exampleSelected 0 = some (mkItem 1 true 0) ∧
    (mkItem 1 true 0).mVisible = true ∧
    (∃ lv', onKey exampleConstants exampleConstants.KEY_END 0 2 exampleSelected = some lv' ∧
      isVisibleAt exampleSelected lv'.mSelection = true ∧
      ∀ j, isVisibleAt exampleSelected j = true → j ≤ lv'.mSelection) ∧
    (Int.land 2 exampleConstants.QUAL_CTRL ≠ 0 →
      ∃ lv', onKey exampleConstants exampleConstants.KEY_DOWN 0 2 exampleSelected = some lv' ∧
        isVisibleAt exampleSelected lv'.mSelection = true ∧
        ∀ j, isVisibleAt exampleSelected j = true → j ≤ lv'.mSelection) ∧
    (∃ lv', onKey exampleConstants exampleConstants.KEY_HOME 0 2 exampleSelected = some lv' ∧
      isVisibleAt exampleSelected lv'.mSelection = true ∧
      ∀ j, isVisibleAt exampleSelected j = true → lv'.mSelection ≤ j) ∧
    (Int.land 2 exampleConstants.QUAL_CTRL ≠ 0 →
      ∃ lv', onKey exampleConstants exampleConstants.KEY_UP 0 2 exampleSelected = some lv' ∧
        isVisibleAt exampleSelected lv'.mSelection = true ∧
        ∀ j, isVisibleAt exampleSelected j = true → lv'.mSelection ≤ j) :=
  ⟨by decide, by decide, by decide, by decide, by decide,
    onKey_home_end_reach_extremes exampleConstants (by decide) exampleSelected 0 2 0
      (mkItem 1 true 0) (by decide) (by decide) (by decide) (by decide)⟩

/-- The End key and the Down key with the control qualifier on the example view
with item 0 selected: the selection moves to item 2, the last visible one. -/
theorem onKey_end_example :
    (onKey exampleConstants exampleConstants.KEY_END 0 0 exampleSelected).map
      ListView.mSelection = some 2 ∧
    (onKey exampleConstants exampleConstants.KEY_DOWN 0 2 exampleSelected).map
      ListView.mSelection = some 2 := by
  decide

/-! ## Page-Up and Page-Down -/

theorem heightRange_self (lv : ListView) (a : Nat) : heightRange lv a a = 0 := by
  simp [heightRange]

theorem heightRange_succ_left (lv : ListView) {a b : Nat} (h : a < b) :
    heightRange lv a b = visibleHeight lv a + heightRange lv (a + 1) b := by
  unfold heightRange
  have : b - a = (b - (a + 1)) + 1 := by omega
  rw [this, List.range'_succ, List.map_cons, List.sum_cons]

theorem heightRange_succ_right (lv : ListView) {a b : Nat} (h : a ≤ b) :
    heightRange lv a (b + 1) = heightRange lv a b + visibleHeight lv b := by
  unfold heightRange
  have h1 : b + 1 - a = (b - a) + 1 := by omega
  have h2 : a + (b - a) = b := by omega
  rw [h1, List.range'_concat, List.map_append, List.sum_append]
  simp [h2]

theorem visibleHeight_of_visible {lv : ListView} {k : Nat} {item : UIElement}
    (hget : getItem lv k = some item) (hvis : item.mVisible = true) :
    visibleHeight lv k = item.mHeight := by
  simp [visibleHeight, hget, hvis]

theorem visibleHeight_of_invisible {lv : ListView} {k : Nat} {item : UIElement}
    (hget : getItem lv k = some item) (hvis : item.mVisible = false) :
    visibleHeight lv k = 0 := by
  simp [visibleHeight, hget, hvis]

/-- The forward walk from `p` with budget `B` ends either on `ok` (no visible
item is reached) or on the last visible index `r` it reaches; index `m` is
reached when the heights from `p` up to each index before `m` stay within `B`. -/
theorem pageDownLoop_spec (lv : ListView) (hn : getNumItems lv < UNSIGNED_MOD) :
    ∀ (fuel p : Nat) (B : Int) (ok : Nat), p ≤ getNumItems lv → getNumItems lv - p < fuel →
      ∃ r, pageDownLoop (getNumItems lv) lv fuel B p ok = some r ∧
        ((r = ok ∧ ∀ m, p ≤ m → isVisibleAt lv m = true →
            ∃ k, p ≤ k ∧ k < m ∧ B < heightRange lv p (k + 1)) ∨
          (p ≤ r ∧ isVisibleAt lv r = true ∧
            (∀ k, p ≤ k → k < r → heightRange lv p (k + 1) ≤ B) ∧
            ∀ m, r < m → isVisibleAt lv m = true →
              ∃ k, p ≤ k ∧ k < m ∧ B < heightRange lv p (k + 1))) := by
  intro fuel
  induction fuel with
  | zero => intro p B ok _ h; omega
  | succ fuel ih =>
    intro p B ok hp hfuel
    by_cases hlt : p < getNumItems lv
    · obtain ⟨item, hget⟩ := getItem_of_lt lv hlt
      have hinc : incUnsigned p = p + 1 := incUnsigned_of_lt (by omega)
      have hone : heightRange lv p (p + 1) = visibleHeight lv p := by
        rw [heightRange_succ_right lv (le_refl p), heightRange_self, zero_add]
      -- heights from p split into the height at p and the heights from p + 1
      have hsplit : ∀ k, p + 1 ≤ k →
          heightRange lv p (k + 1) = visibleHeight lv p + heightRange lv (p + 1) (k + 1) :=
        fun k hk => heightRange_succ_left lv (by omega)
      cases hvis : item.mVisible with
      | true =>
        have hvh := visibleHeight_of_visible hget hvis
        have hvisAt : isVisibleAt lv p = true := (isVisibleAt_iff lv p).mpr ⟨item, hget, hvis⟩
        by_cases hbreak : B < item.mHeight
        · refine ⟨p, ?_, Or.inr ⟨le_refl p, hvisAt, fun k h1 h2 => by omega, ?_⟩⟩
          · simp [pageDownLoop, hlt, hget, hvis, hbreak]
          · intro m hm _
            exact ⟨p, le_refl p, hm, by rw [hone, hvh]; exact hbreak⟩
        · obtain ⟨r, hr, hcases⟩ := ih (p + 1) (B - item.mHeight) p (by omega) (by omega)
          refine ⟨r, ?_, Or.inr ?_⟩
          · simp [pageDownLoop, hlt, hget, hvis, hbreak, hinc, hr]
          · rcases hcases with ⟨hrok, hnone⟩ | ⟨hpr, hrvis, hreach, hmax⟩
            · subst hrok
              refine ⟨le_refl r, hvisAt, fun k h1 h2 => by omega, ?_⟩
              intro m hm hmvis
              obtain ⟨k, hk1, hk2, hk3⟩ := hnone m (by omega) hmvis
              exact ⟨k, by omega, hk2, by rw [hsplit k hk1, hvh]; omega⟩
            · refine ⟨by omega, hrvis, ?_, ?_⟩
              · intro k hk1 hk2
                rcases Nat.eq_or_lt_of_le hk1 with heq | hgt
                · subst heq; rw [hone, hvh]; omega
                · have := hreach k (by omega) hk2
                  rw [hsplit k (by omega), hvh]; omega
              · intro m hm hmvis
                obtain ⟨k, hk1, hk2, hk3⟩ := hmax m hm hmvis
                exact ⟨k, by omega, hk2, by rw [hsplit k hk1, hvh]; omega⟩
      | false =>
        have hvh := visibleHeight_of_invisible hget hvis
        have hnotvis : isVisibleAt lv p = false := by simp [isVisibleAt, hget, hvis]
        by_cases hbreak : B < 0
        · refine ⟨ok, ?_, Or.inl ⟨rfl, ?_⟩⟩
          · simp [pageDownLoop, hlt, hget, hvis, hbreak]
          · intro m hm hmvis
            have hne : m ≠ p := by
              rintro rfl
              rw [hnotvis] at hmvis
              cases hmvis
            exact ⟨p, le_refl p, by omega, by rw [hone, hvh]; exact hbreak⟩
        · obtain ⟨r, hr, hcases⟩ := ih (p + 1) B ok (by omega) (by omega)
          refine ⟨r, ?_, ?_⟩
          · simp [pageDownLoop, hlt, hget, hvis, hbreak, hinc, hr]
          · have hlift : ∀ m, (∃ k, p + 1 ≤ k ∧ k < m ∧ B < heightRange lv (p + 1) (k + 1)) →
                ∃ k, p ≤ k ∧ k < m ∧ B < heightRange lv p (k + 1) := by
              rintro m ⟨k, hk1, hk2, hk3⟩
              exact ⟨k, by omega, hk2, by rw [hsplit k hk1, hvh]; omega⟩
            rcases hcases with ⟨hrok, hnone⟩ | ⟨hpr, hrvis, hreach, hmax⟩
            · left
              refine ⟨hrok, fun m hm hmvis => ?_⟩
              have hne : m ≠ p := by
                rintro rfl
                rw [hnotvis] at hmvis
                cases hmvis
              exact hlift m (hnone m (by omega) hmvis)
            · right
              refine ⟨by omega, hrvis, ?_, fun m hm hmvis => hlift m (hmax m hm hmvis)⟩
              intro k hk1 hk2
              rcases Nat.eq_or_lt_of_le hk1 with heq | hgt
              · subst heq; rw [hone, hvh]; omega
              · have := hreach k (by omega) hk2
                rw [hsplit k (by omega), hvh]; omega
    · have hpn : p = getNumItems lv := by omega
      refine ⟨ok, ?_, Or.inl ⟨rfl, ?_⟩⟩
      · simp [pageDownLoop, hlt]
      · intro m hm hmvis
        have := lt_of_isVisibleAt hmvis
        omega

/-- The backward walk from `q - 1` with budget `B` ends either on `ok` (no
visible item is reached) or on the smallest visible index `r` it reaches; index
`m` is reached when the heights from each index above `m` up to `q - 1` stay
within `B`. At index 0 the decrement wraps to `M_MAX_UNSIGNED` and the loop
condition ends the walk. -/
theorem pageUpLoop_spec (lv : ListView) (hn : getNumItems lv < UNSIGNED_MOD) :
    ∀ (fuel q : Nat) (B : Int) (ok : Nat), q ≤ getNumItems lv → q < fuel →
      ∃ r, pageUpLoop (getNumItems lv) lv fuel B (decUnsigned q) ok = some r ∧
        ((r = ok ∧ ∀ m, m < q → isVisibleAt lv m = true →
            ∃ k, m < k ∧ k < q ∧ B < heightRange lv k q) ∨
          (r < q ∧ isVisibleAt lv r = true ∧
            (∀ k, r < k → k < q → heightRange lv k q ≤ B) ∧
            ∀ m, m < r → isVisibleAt lv m = true →
              ∃ k, m < k ∧ k < q ∧ B < heightRange lv k q)) := by
  intro fuel
  induction fuel with
  | zero => intro q B ok _ h; omega
  | succ fuel ih =>
    intro q B ok hq hfuel
    cases q with
    | zero =>
      have hge : ¬ M_MAX_UNSIGNED < getNumItems lv := by
        have h : getNumItems lv < 4294967296 := hn
        show ¬ 4294967295 < getNumItems lv
        omega
      refine ⟨ok, ?_, Or.inl ⟨rfl, fun m hm _ => by omega⟩⟩
      simp only [pageUpLoop, decUnsigned_zero, hge, if_false]
    | succ q =>
      have hdec : decUnsigned (q + 1) = q := decUnsigned_succ (by omega)
      have hlt : q < getNumItems lv := by omega
      obtain ⟨item, hget⟩ := getItem_of_lt lv hlt
      have hone : heightRange lv q (q + 1) = visibleHeight lv q := by
        rw [heightRange_succ_right lv (le_refl q), heightRange_self, zero_add]
      have hsplit : ∀ k, k ≤ q →
          heightRange lv k (q + 1) = heightRange lv k q + visibleHeight lv q :=
        fun k hk => heightRange_succ_right lv hk
      rw [hdec]
      cases hvis : item.mVisible with
      | true =>
        have hvh := visibleHeight_of_visible hget hvis
        have hvisAt : isVisibleAt lv q = true := (isVisibleAt_iff lv q).mpr ⟨item, hget, hvis⟩
        by_cases hbreak : B < item.mHeight
        · refine ⟨q, ?_, Or.inr ⟨by omega, hvisAt, fun k h1 h2 => by omega, ?_⟩⟩
          · simp [pageUpLoop, hlt, hget, hvis, hbreak]
          · intro m hm _
            exact ⟨q, hm, by omega, by rw [hone, hvh]; exact hbreak⟩
        · obtain ⟨r, hr, hcases⟩ := ih q (B - item.mHeight) q (by omega) (by omega)
          refine ⟨r, ?_, Or.inr ?_⟩
          · simp [pageUpLoop, hlt, hget, hvis, hbreak, hr]
          · rcases hcases with ⟨hrok, hnone⟩ | ⟨hrq, hrvis, hreach, hmax⟩
            · subst hrok
              refine ⟨by omega, hvisAt, fun k h1 h2 => by omega, ?_⟩
              intro m hm hmvis
              obtain ⟨k, hk1, hk2, hk3⟩ := hnone m hm hmvis
              exact ⟨k, hk1, by omega, by rw [hsplit k (by omega), hvh]; omega⟩
            · refine ⟨by omega, hrvis, ?_, ?_⟩
              · intro k hk1 hk2
                rcases Nat.eq_or_lt_of_le (Nat.le_of_lt_succ hk2) with heq | hgt
                · subst heq; rw [hone, hvh]; omega
                · have := hreach k hk1 hgt
                  rw [hsplit k (by omega), hvh]; omega
              · intro m hm hmvis
                obtain ⟨k, hk1, hk2, hk3⟩ := hmax m hm hmvis
                exact ⟨k, hk1, by omega, by rw [hsplit k (by omega), hvh]; omega⟩
      | false =>
        have hvh := visibleHeight_of_invisible hget hvis
        have hnotvis : isVisibleAt lv q = false := by simp [isVisibleAt, hget, hvis]
        by_cases hbreak : B < 0
        · refine ⟨ok, ?_, Or.inl ⟨rfl, ?_⟩⟩
          · simp [pageUpLoop, hlt, hget, hvis, hbreak]
          · intro m hm hmvis
            have hne : m ≠ q := by
              rintro rfl
              rw [hnotvis] at hmvis
              cases hmvis
            exact ⟨q, by omega, by omega, by rw [hone, hvh]; exact hbreak⟩
        · obtain ⟨r, hr, hcases⟩ := ih q B ok (by omega) (by omega)
          refine ⟨r, ?_, ?_⟩
          · simp [pageUpLoop, hlt, hget, hvis, hbreak, hr]
          · have hlift : ∀ m, (∃ k, m < k ∧ k < q ∧ B < heightRange lv k q) →
                ∃ k, m < k ∧ k < q + 1 ∧ B < heightRange lv k (q + 1) := by
              rintro m ⟨k, hk1, hk2, hk3⟩
              exact ⟨k, hk1, by omega, by rw [hsplit k (by omega), hvh]; omega⟩
            rcases hcases with ⟨hrok, hnone⟩ | ⟨hrq, hrvis, hreach, hmax⟩
            · left
              refine ⟨hrok, fun m hm hmvis => ?_⟩
              have hne : m ≠ q := by
                rintro rfl
                rw [hnotvis] at hmvis
                cases hmvis
              exact hlift m (hnone m (by omega) hmvis)
            · right
              refine ⟨by omega, hrvis, ?_, fun m hm hmvis => hlift m (hmax m hm hmvis)⟩
              intro k hk1 hk2
              rcases Nat.eq_or_lt_of_le (Nat.le_of_lt_succ hk2) with heq | hgt
              · subst heq; rw [hone, hvh]; omega
              · have := hreach k hk1 hgt
                rw [hsplit k (by omega), hvh]; omega

theorem pageStepPixels_of_selected {lv : ListView} {item : UIElement}
    (hget : getItem lv lv.mSelection = some item) :
    pageStepPixels lv =
      some (pageSize lv - item.mHeight) := by
  unfold getItem at hget
  simp [pageStepPixels, getSelectedItem, hget]

/-- What the Page-Down key does from a visible selection `s` with budget `B`:
the new selection is the largest visible index reached by the walk. -/
theorem onKey_pageDown_spec (c : InputConstants) (hc : c.keysDistinct) (lv : ListView)
    (buttons qualifiers : Int) (item : UIElement) (hn : getNumItems lv < UNSIGNED_MOD)
    (hget : getItem lv lv.mSelection = some item) (hvis : item.mVisible = true) :
    ∃ lv', onKey c c.KEY_PAGEDOWN buttons qualifiers lv = some lv' ∧
      lv.mSelection ≤ lv'.mSelection ∧ isVisibleAt lv lv'.mSelection = true ∧
      getNumItems lv' = getNumItems lv ∧
      lv'.items.map UIElement.mVisible = lv.items.map UIElement.mVisible ∧
      (∀ k, lv.mSelection ≤ k → k < lv'.mSelection →
        heightRange lv lv.mSelection (k + 1) ≤
          pageSize lv - item.mHeight) ∧
      (∀ m, lv'.mSelection < m → isVisibleAt lv m = true →
        ∃ k, lv.mSelection ≤ k ∧ k < m ∧
          pageSize lv - item.mHeight <
            heightRange lv lv.mSelection (k + 1)) := by
  have hlt := lt_of_getItem hget
  have hsvis : isVisibleAt lv lv.mSelection = true := (isVisibleAt_iff _ _).mpr ⟨item, hget, hvis⟩
  have hh : lv.mSelection ≠ M_MAX_UNSIGNED ∧ getNumItems lv ≠ 0 :=
    ⟨selection_ne_max_of_lt hn hlt, by omega⟩
  obtain ⟨r, hr, hcases⟩ := pageDownLoop_spec lv hn (getNumItems lv + 1) lv.mSelection
    (pageSize lv - item.mHeight) lv.mSelection
    (le_of_lt hlt) (by omega)
  rcases hcases with ⟨_, hnone⟩ | ⟨hsr, hrvis, hreach, hmax⟩
  · obtain ⟨k, hk1, hk2, _⟩ := hnone lv.mSelection (le_refl _) hsvis
    omega
  · obtain ⟨lv', hset, hsel, hnum, hmap⟩ := setSelection_visible lv r hn hrvis
    refine ⟨lv', ?_, ?_, ?_, hnum, hmap, ?_, ?_⟩
    · rw [onKey_KEY_PAGEDOWN c hc buttons qualifiers lv hh, pageStepPixels_of_selected hget,
        Option.some_bind, hr, Option.some_bind, hset]
    · rw [hsel]; exact hsr
    · rw [hsel]; exact hrvis
    · rw [hsel]; exact hreach
    · rw [hsel]; exact hmax

/-- What the Page-Up key does from a visible selection `s` with budget `B`: the
new selection is the smallest visible index reached by the walk. -/
theorem onKey_pageUp_spec (c : InputConstants) (hc : c.keysDistinct) (lv : ListView)
    (buttons qualifiers : Int) (item : UIElement) (hn : getNumItems lv < UNSIGNED_MOD)
    (hget : getItem lv lv.mSelection = some item) (hvis : item.mVisible = true) :
    ∃ lv', onKey c c.KEY_PAGEUP buttons qualifiers lv = some lv' ∧
      lv'.mSelection ≤ lv.mSelection ∧ isVisibleAt lv lv'.mSelection = true ∧
      getNumItems lv' = getNumItems lv ∧
      lv'.items.map UIElement.mVisible = lv.items.map UIElement.mVisible ∧
      (∀ k, lv'.mSelection < k → k ≤ lv.mSelection →
        heightRange lv k (lv.mSelection + 1) ≤
          pageSize lv - item.mHeight) ∧
      (∀ m, m < lv'.mSelection → isVisibleAt lv m = true →
        ∃ k, m < k ∧ k ≤ lv.mSelection ∧
          pageSize lv - item.mHeight <
            heightRange lv k (lv.mSelection + 1)) := by
  have hlt := lt_of_getItem hget
  have hsvis : isVisibleAt lv lv.mSelection = true := (isVisibleAt_iff _ _).mpr ⟨item, hget, hvis⟩
  have hh : lv.mSelection ≠ M_MAX_UNSIGNED ∧ getNumItems lv ≠ 0 :=
    ⟨selection_ne_max_of_lt hn hlt, by omega⟩
  obtain ⟨r, hr, hcases⟩ := pageUpLoop_spec lv hn (getNumItems lv + 1) (lv.mSelection + 1)
    (pageSize lv - item.mHeight) lv.mSelection
    (by omega) (by omega)
  rw [decUnsigned_succ (by omega)] at hr
  rcases hcases with ⟨_, hnone⟩ | ⟨hrs, hrvis, hreach, hmax⟩
  · obtain ⟨k, hk1, hk2, _⟩ := hnone lv.mSelection (by omega) hsvis
    omega
  · obtain ⟨lv', hset, hsel, hnum, hmap⟩ := setSelection_visible lv r hn hrvis
    refine ⟨lv', ?_, ?_, ?_, hnum, hmap, ?_, ?_⟩
    · rw [onKey_KEY_PAGEUP c hc buttons qualifiers lv hh, pageStepPixels_of_selected hget,
        Option.some_bind, hr, Option.some_bind, hset]
    · rw [hsel]; omega
    · rw [hsel]; exact hrvis
    · rw [hsel]
      intro k hk1 hk2
      exact hreach k hk1 (by omega)
    · rw [hsel]
      intro m hm hmvis
      obtain ⟨k, hk1, hk2, hk3⟩ := hmax m hm hmvis
      exact ⟨k, hk1, by omega, hk3⟩

/-- C11, as stated, fails. First view: rows of heights 20 and 100, viewport 60,
item 0 selected, so the budget is 40; the visible items with index in (0, 1] sum
to 100 > 40, yet Page-Down selects item 1. Second view: rows of heights 50, 10
and 10, budget 10; the visible items with index in (0, 1] sum to 10 ≤ 10, yet
Page-Down leaves the selection on item 0. -/
theorem pageDown_budget_counterexample :
    pageStepPixels (pageView [20, 100]) = some 40 ∧
    heightRange (pageView [20, 100]) 1 2 = 100 ∧
    (onKey exampleConstants exampleConstants.KEY_PAGEDOWN 0 0 (pageView [20, 100])).map
      ListView.mSelection = some 1 ∧
    pageStepPixels (pageView [50, 10, 10]) = some 10 ∧
    heightRange (pageView [50, 10, 10]) 1 2 = 10 ∧
    (onKey exampleConstants exampleConstants.KEY_PAGEDOWN 0 0 (pageView [50, 10, 10])).map
      ListView.mSelection = some 0 := by
  decide!

/-- C11, amended. From a selection `s` that is the index of a visible item, with
budget `B = (int)(pageStep * viewportHeight) - height(item s)` (the product being
the `float` product of the source, rounded before the cast: `pageSize`), the
Page-Down key completes and selects the largest visible index `m ≥ s` that the walk
reaches: for every index `k` with `s ≤ k < m` the heights of the visible items
with index in `[s, k]` sum to at most `B` (the selected item itself is charged
first, and the item on which the budget runs out is the one selected), and no
visible index above `m` has this property. Page-Up is the mirror image: the
smallest visible `m ≤ s` such that for every `k` with `m < k ≤ s` the visible
items with index in `[k, s]` sum to at most `B`. -/
theorem onKey_page_selects_last_reached (c : InputConstants) (hc : c.keysDistinct)
    (lv : ListView) (buttons qualifiers : Int) (s : Nat) (item : UIElement) (B : Int)
    (hn : getNumItems lv < UNSIGNED_MOD) (hs : lv.mSelection = s)
    (hget : getItem lv s = some item) (hvis : item.mVisible = true)
    (hB : B = pageSize lv - item.mHeight) :
    (∃ lv', onKey c c.KEY_PAGEDOWN buttons qualifiers lv = some lv' ∧
      s ≤ lv'.mSelection ∧ isVisibleAt lv lv'.mSelection = true ∧
      (∀ k, s ≤ k → k < lv'.mSelection → heightRange lv s (k + 1) ≤ B) ∧
      (∀ m, lv'.mSelection < m → isVisibleAt lv m = true →
        ∃ k, s ≤ k ∧ k < m ∧ B < heightRange lv s (k + 1))) ∧
    (∃ lv', onKey c c.KEY_PAGEUP buttons qualifiers lv = some lv' ∧
      lv'.mSelection ≤ s ∧ isVisibleAt lv lv'.mSelection = true ∧
      (∀ k, lv'.mSelection < k → k ≤ s → heightRange lv k (s + 1) ≤ B) ∧
      (∀ m, m < lv'.mSelection → isVisibleAt lv m = true →
        ∃ k, m < k ∧ k ≤ s ∧ B < heightRange lv k (s + 1))) := by
  subst hs hB
  obtain ⟨lvD, hD, h1, h2, _, _, h3, h4⟩ :=
    onKey_pageDown_spec c hc lv buttons qualifiers item hn hget hvis
  obtain ⟨lvU, hU, g1, g2, _, _, g3, g4⟩ :=
    onKey_pageUp_spec c hc lv buttons qualifiers item hn hget hvis
  exact ⟨⟨lvD, hD, h1, h2, h3, h4⟩, ⟨lvU, hU, g1, g2, g3, g4⟩⟩

/-- Witness for the amended C11: rows of heights 20 and 100 in a viewport of
60. -/
theorem onKey_page_selects_last_reached_witness :
    exampleConstants.keysDistinct ∧
    getNumItems (pageView [20, 100]) < UNSIGNED_MOD ∧
    (pageView [20, 100]).mSelection = 0 ∧
    getItem (pageView [20, 100]) 0 = some (mkRow 1 0 20) ∧
    (mkRow 1 0 20).mVisible = true ∧
    (40 : Int) = pageSize (pageView [20, 100]) - (mkRow 1 0 20).mHeight ∧
    (∃ lv', onKey exampleConstants exampleConstants.KEY_PAGEDOWN 0 0 (pageView [20, 100]) =
        some lv' ∧
      0 ≤ lv'.mSelection ∧ isVisibleAt (pageView [20, 100]) lv'.mSelection = true ∧
      (∀ k, 0 ≤ k → k < lv'.mSelection → heightRange (pageView [20, 100]) 0 (k + 1) ≤ 40) ∧
      (∀ m, lv'.mSelection < m → isVisibleAt (pageView [20, 100]) m = true →
        ∃ k, 0 ≤ k ∧ k < m ∧ 40 < heightRange (pageView [20, 100]) 0 (k + 1))) ∧
    (∃ lv', onKey exampleConstants exampleConstants.KEY_PAGEUP 0 0 (pageView [20, 100]) =
        some lv' ∧
      lv'.mSelection ≤ 0 ∧ isVisibleAt (pageView [20, 100]) lv'.mSelection = true ∧
      (∀ k, lv'.mSelection < k → k ≤ 0 → heightRange (pageView [20, 100]) k (0 + 1) ≤ 40) ∧
      (∀ m, m < lv'.mSelection → isVisibleAt (pageView [20, 100]) m = true →
        ∃ k, m < k ∧ k ≤ 0 ∧ 40 < heightRange (pageView [20, 100]) k (0 + 1))) :=
  ⟨by decide, by decide, by decide, by decide, by decide, by decide!,
    onKey_page_selects_last_reached exampleConstants (by decide) (pageView [20, 100]) 0 0 0
      (mkRow 1 0 20) 40 (by decide) (by decide) (by decide) (by decide) (by decide!)⟩

theorem visibleHeight_uniform (lv : ListView) (h : Int)
    (hall : ∀ it ∈ lv.items, it.mVisible = true ∧ it.mHeight = h) {k : Nat}
    (hk : k < getNumItems lv) : visibleHeight lv k = h ∧ isVisibleAt lv k = true := by
  obtain ⟨item, hget⟩ := getItem_of_lt lv hk
  have hmem : item ∈ lv.items := by
    unfold getItem at hget
    exact List.getElem?_mem hget
  obtain ⟨hv, hh⟩ := hall item hmem
  exact ⟨by rw [visibleHeight_of_visible hget hv, hh],
    (isVisibleAt_iff lv k).mpr ⟨item, hget, hv⟩⟩

theorem heightRange_uniform (lv : ListView) (h : Int)
    (hall : ∀ it ∈ lv.items, it.mVisible = true ∧ it.mHeight = h) (a : Nat) :
    ∀ (len : Nat), a + len ≤ getNumItems lv → heightRange lv a (a + len) = (len : Int) * h := by
  intro len
  induction len with
  | zero => intro _; simp [heightRange_self]
  | succ len ih =>
    intro hle
    have hstep : a + (len + 1) = (a + len) + 1 := by omega
    rw [hstep, heightRange_succ_right lv (by omega), ih (by omega),
      (visibleHeight_uniform lv h hall (show a + len < getNumItems lv by omega)).1]
    push_cast
    ring

/-- C12. In a list of visible items that all have the same height `h > 0`, with
page size `P = (int)(pageStep * viewportHeight)` (the product being the `float`
product of the source, rounded before the cast: `pageSize`), `P ≥ h`, and a valid
selection `s`, the Page-Down key completes and the new selection is
`min(s + floor((P - h) / h), n - 1)`. -/
theorem onKey_pageDown_uniform (c : InputConstants) (hc : c.keysDistinct) (lv : ListView)
    (buttons qualifiers : Int) (s : Nat) (h P : Int)
    (hn : getNumItems lv < UNSIGNED_MOD) (hs : lv.mSelection = s) (hsn : s < getNumItems lv)
    (hall : ∀ it ∈ lv.items, it.mVisible = true ∧ it.mHeight = h) (hh : 0 < h)
    (hP : P = pageSize lv) (hPh : h ≤ P) :
    ∃ lv', onKey c c.KEY_PAGEDOWN buttons qualifiers lv = some lv' ∧
      lv'.mSelection = min (s + ((P - h) / h).toNat) (getNumItems lv - 1) := by
  subst hs hP
  obtain ⟨item, hget⟩ := getItem_of_lt lv hsn
  have hmem : item ∈ lv.items := by
    unfold getItem at hget
    exact List.getElem?_mem hget
  obtain ⟨hvis, hheight⟩ := hall item hmem
  obtain ⟨lv', hkey, hle, hrvis, _, _, hreach, hmax⟩ :=
    onKey_pageDown_spec c hc lv buttons qualifiers item hn hget hvis
  rw [hheight] at hreach hmax
  refine ⟨lv', hkey, ?_⟩
  have hrn := lt_of_isVisibleAt hrvis
  obtain ⟨d, hd⟩ : ∃ d, lv'.mSelection = lv.mSelection + d := ⟨_, (Nat.add_sub_cancel' hle).symm⟩
  obtain ⟨q, hq⟩ := Int.eq_ofNat_of_zero_le
    (Int.ediv_nonneg (show 0 ≤ pageSize lv - h
      by omega) (le_of_lt hh))
  -- the walk passed `d` rows, so `d * h` is within the budget
  have h1 : (d : Int) ≤ q := by
    rw [← hq]
    apply Int.le_ediv_of_mul_le hh
    rcases Nat.eq_zero_or_pos d with hd0 | hdpos
    · subst hd0; simp; omega
    · have := hreach (lv.mSelection + d - 1) (by omega) (by omega)
      have hidx : lv.mSelection + d - 1 + 1 = lv.mSelection + d := by omega
      rw [hidx, heightRange_uniform lv h hall lv.mSelection d (by omega)] at this
      exact this
  -- when a row follows, the budget ran out on the selected row
  have h2 : lv'.mSelection + 1 < getNumItems lv → (q : Int) ≤ d := by
    intro hnext
    obtain ⟨k, hk1, hk2, hk3⟩ := hmax (lv'.mSelection + 1) (by omega)
      (visibleHeight_uniform lv h hall hnext).2
    obtain ⟨e, he⟩ : ∃ e, k = lv.mSelection + e := ⟨_, (Nat.add_sub_cancel' hk1).symm⟩
    subst he
    have hidx : lv.mSelection + e + 1 = lv.mSelection + (e + 1) := by omega
    rw [hidx, heightRange_uniform lv h hall lv.mSelection (e + 1) (by omega)] at hk3
    have hle' : ((e + 1 : Nat) : Int) * h ≤ ((d + 1 : Nat) : Int) * h := by
      apply Int.mul_le_mul_of_nonneg_right _ (le_of_lt hh)
      have : e + 1 ≤ d + 1 := by omega
      exact_mod_cast this
    have hlt : pageSize lv - h <
        ((d + 1 : Nat) : Int) * h := lt_of_lt_of_le hk3 hle'
    have := Int.ediv_lt_of_lt_mul hh hlt
    rw [hq] at this
    omega
  rw [hq, Int.toNat_ofNat]
  rcases Nat.lt_or_ge (lv'.mSelection + 1) (getNumItems lv) with hnext | hlast
  · have := h2 hnext
    rw [hd]
    have hqd : q = d := by omega
    rw [hqd, Nat.min_eq_left (by omega)]
  · rw [hd] at hlast ⊢
    rw [Nat.min_eq_right (by omega)]
    omega

/-- Witness for C12, the Page-Down scenario of the specification: five rows of
height 20, viewport height 60, page step 1, item 0 selected. -/
theorem onKey_pageDown_uniform_witness :
    exampleConstants.keysDistinct ∧
    getNumItems (pageView [20, 20, 20, 20, 20]) < UNSIGNED_MOD ∧
    (pageView [20, 20, 20, 20, 20]).mSelection = 0 ∧
    0 < getNumItems (pageView [20, 20, 20, 20, 20]) ∧
    (∀ it ∈ (pageView [20, 20, 20, 20, 20]).items, it.mVisible = true ∧ it.mHeight = 20) ∧
    (0 : Int) < 20 ∧
    (60 : Int) = pageSize (pageView [20, 20, 20, 20, 20]) ∧
    (20 : Int) ≤ 60 ∧
    ∃ lv', onKey exampleConstants exampleConstants.KEY_PAGEDOWN 0 0
        (pageView [20, 20, 20, 20, 20]) = some lv' ∧
      lv'.mSelection =
        min (0 + (((60 : Int) - 20) / 20).toNat) (getNumItems (pageView [20, 20, 20, 20, 20]) - 1) :=
  ⟨by decide, by decide, by decide, by decide, by decide, by decide, by decide!, by decide,
    onKey_pageDown_uniform exampleConstants (by decide) (pageView [20, 20, 20, 20, 20]) 0 0 0
      20 60 (by decide) (by decide) (by decide) (by decide) (by decide) (by decide!)
      (by decide)⟩

/-- The Page-Down scenario of the specification evaluated: the budget is
60 - 20 = 40 and the new selection is item 2. -/
theorem pageDown_scenario :
    pageStepPixels (pageView [20, 20, 20, 20, 20]) = some 40 ∧
    (onKey exampleConstants exampleConstants.KEY_PAGEDOWN 0 0
      (pageView [20, 20, 20, 20, 20])).map ListView.mSelection = some 2 := by
  decide!

/-- The page size is taken from the rounded `float` product: with page step
`0.7f` the product with a viewport of 10 rounds to 7 and the one with a viewport
of 100 to 70, where the exact products truncate to 6 and 69; Page-Down on ten
rows of height 1 in the viewport of 10 goes from item 0 to item 6. -/
theorem pageSize_float_product_example :
    roundToFloat (mkRat 7 10) = pointSeven ∧
    pageSize (unitRows pointSeven 10 10) = 7 ∧
    floatToInt (pointSeven * 10) = 6 ∧
    pageSize (unitRows pointSeven 100 10) = 70 ∧
    floatToInt (pointSeven * 100) = 69 ∧
    (onKey exampleConstants exampleConstants.KEY_PAGEDOWN 0 0
      (unitRows pointSeven 10 10)).map ListView.mSelection = some 6 := by
  decide!

theorem pageUpLoopCounted_fst (n : Nat) (lv : ListView) :
    ∀ (fuel : Nat) (B : Int) (p ok count : Nat),
      (pageUpLoopCounted n lv fuel B p ok count).map Prod.fst = pageUpLoop n lv fuel B p ok := by
  intro fuel
  induction fuel with
  | zero => intro B p ok count; rfl
  | succ fuel ih =>
    intro B p ok count
    by_cases hlt : p < n
    · cases hget : getItem lv p with
      | none => simp [pageUpLoopCounted, pageUpLoop, hlt, hget]
      | some item =>
        by_cases hb : B < (if item.mVisible = true then item.mHeight else 0)
        · simp [pageUpLoopCounted, pageUpLoop, hlt, hget, hb]
        · simp [pageUpLoopCounted, pageUpLoop, hlt, hget, hb, ih]
    · simp [pageUpLoopCounted, pageUpLoop, hlt]

theorem pageDownLoopCounted_fst (n : Nat) (lv : ListView) :
    ∀ (fuel : Nat) (B : Int) (p ok count : Nat),
      (pageDownLoopCounted n lv fuel B p ok count).map Prod.fst =
        pageDownLoop n lv fuel B p ok := by
  intro fuel
  induction fuel with
  | zero => intro B p ok count; rfl
  | succ fuel ih =>
    intro B p ok count
    by_cases hlt : p < n
    · cases hget : getItem lv p with
      | none => simp [pageDownLoopCounted, pageDownLoop, hlt, hget]
      | some item =>
        by_cases hb : B < (if item.mVisible = true then item.mHeight else 0)
        · simp [pageDownLoopCounted, pageDownLoop, hlt, hget, hb]
        · simp [pageDownLoopCounted, pageDownLoop, hlt, hget, hb, ih]
    · simp [pageDownLoopCounted, pageDownLoop, hlt]

/-- The body of the Page-Down loop started at index `p` runs at most once for
each index from `p` to the end of the list. -/
theorem pageDownLoopCounted_le (lv : ListView) (hn : getNumItems lv < UNSIGNED_MOD) :
    ∀ (fuel : Nat) (B : Int) (p ok count r k : Nat), p ≤ getNumItems lv →
      pageDownLoopCounted (getNumItems lv) lv fuel B p ok count = some (r, k) →
      k + p ≤ count + getNumItems lv := by
  intro fuel
  induction fuel with
  | zero => intro B p ok count r k _ h; simp [pageDownLoopCounted] at h
  | succ fuel ih =>
    intro B p ok count r k hp h
    by_cases hlt : p < getNumItems lv
    · obtain ⟨item, hget⟩ := getItem_of_lt lv hlt
      by_cases hb : B < (if item.mVisible = true then item.mHeight else 0)
      · simp only [pageDownLoopCounted, hlt, if_true, hget, hb, Option.some.injEq,
          Prod.mk.injEq] at h
        omega
      · simp only [pageDownLoopCounted, hlt, if_true, hget, hb, if_false,
          incUnsigned_of_lt (show p + 1 < UNSIGNED_MOD by omega)] at h
        have := ih _ _ _ _ _ _ (by omega) h
        omega
    · simp only [pageDownLoopCounted, hlt, if_false, Option.some.injEq, Prod.mk.injEq] at h
      omega

/-- The body of the Page-Up loop started at index `q - 1` runs at most once for
each index below `q`. -/
theorem pageUpLoopCounted_le (lv : ListView) (hn : getNumItems lv < UNSIGNED_MOD) :
    ∀ (fuel : Nat) (B : Int) (q ok count r k : Nat), q ≤ getNumItems lv →
      pageUpLoopCounted (getNumItems lv) lv fuel B (decUnsigned q) ok count = some (r, k) →
      k ≤ count + q := by
  intro fuel
  induction fuel with
  | zero => intro B q ok count r k _ h; simp [pageUpLoopCounted] at h
  | succ fuel ih =>
    intro B q ok count r k hq h
    cases q with
    | zero =>
      have hge : ¬ M_MAX_UNSIGNED < getNumItems lv := by
        have h' : getNumItems lv < 4294967296 := hn
        show ¬ 4294967295 < getNumItems lv
        omega
      simp only [pageUpLoopCounted, decUnsigned_zero, hge, if_false, Option.some.injEq,
        Prod.mk.injEq] at h
      omega
    | succ q =>
      rw [decUnsigned_succ (by omega)] at h
      have hlt : q < getNumItems lv := by omega
      obtain ⟨item, hget⟩ := getItem_of_lt lv hlt
      by_cases hb : B < (if item.mVisible = true then item.mHeight else 0)
      · simp only [pageUpLoopCounted, hlt, if_true, hget, hb, Option.some.injEq,
          Prod.mk.injEq] at h
        omega
      · simp only [pageUpLoopCounted, hlt, if_true, hget, hb, if_false] at h
        have := ih _ _ _ _ _ _ (by omega) h
        omega

/-- C18. With 32-bit unsigned indices (the decrement at 0 wraps to 2^32 - 1),
from a selection `s` that is the index of a visible item and for every page
budget `B`, negative ones included: the Page-Up and the Page-Down walk end
without reading a missing item, after at most `numItems` runs of the loop body,
on the index of a visible item that is at most `s` for Page-Up and at least `s`
for Page-Down; and the keys themselves complete and leave such a selection. -/
theorem page_walks_stop_at_boundaries (c : InputConstants) (hc : c.keysDistinct)
    (lv : ListView) (buttons qualifiers : Int) (s : Nat) (item : UIElement)
    (hn : getNumItems lv < UNSIGNED_MOD) (hs : lv.mSelection = s)
    (hget : getItem lv s = some item) (hvis : item.mVisible = true) :
    (∀ B : Int, ∃ r k,
      pageUpLoopCounted (getNumItems lv) lv (getNumItems lv + 1) B s s 0 = some (r, k) ∧
      pageUpLoop (getNumItems lv) lv (getNumItems lv + 1) B s s = some r ∧
      k ≤ getNumItems lv ∧ r ≤ s ∧ isVisibleAt lv r = true) ∧
    (∀ B : Int, ∃ r k,
      pageDownLoopCounted (getNumItems lv) lv (getNumItems lv + 1) B s s 0 = some (r, k) ∧
      pageDownLoop (getNumItems lv) lv (getNumItems lv + 1) B s s = some r ∧
      k ≤ getNumItems lv ∧ s ≤ r ∧ isVisibleAt lv r = true) ∧
    (∃ lv', onKey c c.KEY_PAGEUP buttons qualifiers lv = some lv' ∧
      lv'.mSelection ≤ s ∧ isVisibleAt lv' lv'.mSelection = true) ∧
    (∃ lv', onKey c c.KEY_PAGEDOWN buttons qualifiers lv = some lv' ∧
      s ≤ lv'.mSelection ∧ isVisibleAt lv' lv'.mSelection = true) := by
  subst hs
  have hlt := lt_of_getItem hget
  have hsvis : isVisibleAt lv lv.mSelection = true := (isVisibleAt_iff _ _).mpr ⟨item, hget, hvis⟩
  refine ⟨fun B => ?_, fun B => ?_, ?_, ?_⟩
  · obtain ⟨r, hr, hcases⟩ := pageUpLoop_spec lv hn (getNumItems lv + 1) (lv.mSelection + 1) B
      lv.mSelection (by omega) (by omega)
    have hdec : decUnsigned (lv.mSelection + 1) = lv.mSelection := decUnsigned_succ (by omega)
    rw [hdec] at hr
    have hfst := pageUpLoopCounted_fst (getNumItems lv) lv (getNumItems lv + 1) B lv.mSelection
      lv.mSelection 0
    rw [hr, Option.map_eq_some'] at hfst
    obtain ⟨⟨r', k⟩, hcount, hfst'⟩ := hfst
    simp only at hfst'
    subst hfst'
    have hbound := pageUpLoopCounted_le lv hn (getNumItems lv + 1) B (lv.mSelection + 1)
      lv.mSelection 0 r' k (by omega) (by rw [hdec]; exact hcount)
    refine ⟨r', k, hcount, hr, by omega, ?_⟩
    rcases hcases with ⟨hrok, _⟩ | ⟨hrs, hrvis, _, _⟩
    · rw [hrok]; exact ⟨le_refl _, hsvis⟩
    · exact ⟨by omega, hrvis⟩
  · obtain ⟨r, hr, hcases⟩ := pageDownLoop_spec lv hn (getNumItems lv + 1) lv.mSelection B
      lv.mSelection (le_of_lt hlt) (by omega)
    have hfst := pageDownLoopCounted_fst (getNumItems lv) lv (getNumItems lv + 1) B
      lv.mSelection lv.mSelection 0
    rw [hr, Option.map_eq_some'] at hfst
    obtain ⟨⟨r', k⟩, hcount, hfst'⟩ := hfst
    simp only at hfst'
    subst hfst'
    have hbound := pageDownLoopCounted_le lv hn (getNumItems lv + 1) B lv.mSelection
      lv.mSelection 0 r' k (le_of_lt hlt) hcount
    refine ⟨r', k, hcount, hr, by omega, ?_⟩
    rcases hcases with ⟨hrok, _⟩ | ⟨hsr, hrvis, _, _⟩
    · rw [hrok]; exact ⟨le_refl _, hsvis⟩
    · exact ⟨hsr, hrvis⟩
  · obtain ⟨lv', hkey, hle, hrvis, _, hmap, _, _⟩ :=
      onKey_pageUp_spec c hc lv buttons qualifiers item hn hget hvis
    exact ⟨lv', hkey, hle, by rw [isVisibleAt_congr hmap]; exact hrvis⟩
  · obtain ⟨lv', hkey, hle, hrvis, _, hmap, _, _⟩ :=
      onKey_pageDown_spec c hc lv buttons qualifiers item hn hget hvis
    exact ⟨lv', hkey, hle, by rw [isVisibleAt_congr hmap]; exact hrvis⟩

/-- Witness for C18 on the example view with the last item (index 2)
selected. -/
theorem page_walks_stop_at_boundaries_witness :
    exampleConstants.keysDistinct ∧
    getNumItems exampleLast < UNSIGNED_MOD ∧
    exampleLast.mSelection = 2 ∧
    getItem exampleLast 2 = some (mkItem 3 true 0) ∧
    (mkItem 3 true 0).mVisible = true ∧
    (∀ B : Int, ∃ r k,
      pageUpLoopCounted (getNumItems exampleLast) exampleLast (getNumItems exampleLast + 1) B 2 2
        0 = some (r, k) ∧
      pageUpLoop (getNumItems exampleLast) exampleLast (getNumItems exampleLast + 1) B 2 2 =
        some r ∧
      k ≤ getNumItems exampleLast ∧ r ≤ 2 ∧ isVisibleAt exampleLast r = true) ∧
    (∀ B : Int, ∃ r k,
      pageDownLoopCounted (getNumItems exampleLast) exampleLast (getNumItems exampleLast + 1) B 2
        2 0 = some (r, k) ∧
      pageDownLoop (getNumItems exampleLast) exampleLast (getNumItems exampleLast + 1) B 2 2 =
        some r ∧
      k ≤ getNumItems exampleLast ∧ 2 ≤ r ∧ isVisibleAt exampleLast r = true) ∧
    (∃ lv', onKey exampleConstants exampleConstants.KEY_PAGEUP 0 0 exampleLast = some lv' ∧
      lv'.mSelection ≤ 2 ∧ isVisibleAt lv' lv'.mSelection = true) ∧
    (∃ lv', onKey exampleConstants exampleConstants.KEY_PAGEDOWN 0 0 exampleLast = some lv' ∧
      2 ≤ lv'.mSelection ∧ isVisibleAt lv' lv'.mSelection = true) :=
  ⟨by decide, by decide, by decide, by decide, by decide,
    page_walks_stop_at_boundaries exampleConstants (by decide) exampleLast 0 0 2
      (mkItem 3 true 0) (by decide) (by decide) (by decide) (by decide)⟩

/-- The Page-Up walk with a budget that is never used up, from the last item of
the example view: the body runs three times (indices 2, 1, 0), the decrement at
index 0 wraps and ends the loop, and the walk ends on item 0. -/
theorem pageUp_wrap_example :
    pageUpLoopCounted 3 exampleLast 4 1000 2 2 0 = some (0, 3) ∧
    decUnsigned 0 = M_MAX_UNSIGNED := by
  decide

/-! ## Outcome of each handled key -/

theorem setChildItemsVisible_outcome (enable : Bool) (lv : ListView)
    (hn : getNumItems lv < UNSIGNED_MOD)
    (hsel : lv.mSelection = M_MAX_UNSIGNED ∨ lv.mSelection < getNumItems lv) :
    ∃ lv', setChildItemsVisible enable lv = some lv' ∧ lv'.events = lv.events ∧
      lv'.mSelection = lv.mSelection ∧ lv'.mDoubleClickTimer = lv.mDoubleClickTimer := by
  by_cases hm : lv.mHierarchyMode = true
  · rcases hsel with hmax | hs
    · exact ⟨lv, by simp [setChildItemsVisible, hmax], rfl, rfl, rfl⟩
    · exact ⟨_, setChildItemsVisible_eq enable lv hn hm hs, rfl, rfl, rfl⟩
  · exact ⟨lv, by simp [setChildItemsVisible, hm], rfl, rfl, rfl⟩

theorem toggleChildItemsVisible_outcome (lv : ListView)
    (hn : getNumItems lv < UNSIGNED_MOD)
    (hsel : lv.mSelection = M_MAX_UNSIGNED ∨ lv.mSelection < getNumItems lv) :
    ∃ lv', toggleChildItemsVisible lv = some lv' ∧ lv'.events = lv.events ∧
      lv'.mSelection = lv.mSelection ∧ lv'.mDoubleClickTimer = lv.mDoubleClickTimer := by
  by_cases hm : lv.mHierarchyMode = true
  · rcases hsel with hmax | hs
    · exact ⟨lv, by simp [toggleChildItemsVisible, hmax], rfl, rfl, rfl⟩
    · exact ⟨_, toggleChildItemsVisible_eq lv hn hm hs, rfl, rfl, rfl⟩
  · exact ⟨lv, by simp [toggleChildItemsVisible, hm], rfl, rfl, rfl⟩

theorem selection_lt_mod {lv : ListView} (hn : getNumItems lv < UNSIGNED_MOD)
    (hsel : lv.mSelection = M_MAX_UNSIGNED ∨ lv.mSelection < getNumItems lv) :
    lv.mSelection < UNSIGNED_MOD := by
  rcases hsel with h | h
  · rw [h]; decide
  · omega

theorem changeSelection_outcome (delta : Int) (lv : ListView)
    (hn : getNumItems lv < UNSIGNED_MOD) (hne : lv.mSelection ≠ M_MAX_UNSIGNED)
    (hsW : lv.mSelection < UNSIGNED_MOD) :
    ∃ lv' i, changeSelection delta lv = some lv' ∧
      lv'.events = lv.events ++ [Event.itemSelected i] := by
  obtain ⟨target, htarget⟩ := changeSelection_eq_setSelection lv delta hn hne hsW
  obtain ⟨lv', hset, _, _, _, _, _, hev⟩ := setSelection_post target lv hn
  exact ⟨lv', _, htarget.trans hset, hev⟩

theorem pageUp_outcome (lv : ListView) (hn : getNumItems lv < UNSIGNED_MOD)
    (hs : lv.mSelection < getNumItems lv) :
    ∃ B target lv' i, pageStepPixels lv = some B ∧
      pageUpLoop (getNumItems lv) lv (getNumItems lv + 1) B lv.mSelection lv.mSelection =
        some target ∧
      setSelection target lv = some lv' ∧ lv'.events = lv.events ++ [Event.itemSelected i] := by
  obtain ⟨item, hget⟩ := getItem_of_lt lv hs
  obtain ⟨r, hr, _⟩ := pageUpLoop_spec lv hn (getNumItems lv + 1) (lv.mSelection + 1)
    (pageSize lv - item.mHeight) lv.mSelection
    (by omega) (by omega)
  rw [decUnsigned_succ (by omega)] at hr
  obtain ⟨lv', hset, _, _, _, _, _, hev⟩ := setSelection_post r lv hn
  exact ⟨_, r, lv', _, pageStepPixels_of_selected hget, hr, hset, hev⟩

theorem pageDown_outcome (lv : ListView) (hn : getNumItems lv < UNSIGNED_MOD)
    (hs : lv.mSelection < getNumItems lv) :
    ∃ B target lv' i, pageStepPixels lv = some B ∧
      pageDownLoop (getNumItems lv) lv (getNumItems lv + 1) B lv.mSelection lv.mSelection =
        some target ∧
      setSelection target lv = some lv' ∧ lv'.events = lv.events ++ [Event.itemSelected i] := by
  obtain ⟨item, hget⟩ := getItem_of_lt lv hs
  obtain ⟨r, hr, _⟩ := pageDownLoop_spec lv hn (getNumItems lv + 1) lv.mSelection
    (pageSize lv - item.mHeight) lv.mSelection
    (le_of_lt hs) (by omega)
  obtain ⟨lv', hset, _, _, _, _, _, hev⟩ := setSelection_post r lv hn
  exact ⟨_, r, lv', _, pageStepPixels_of_selected hget, hr, hset, hev⟩

/-- Key dispatch in a well-formed state. For a list view whose selection is
`M_MAX_UNSIGNED` or a valid index,
`onKey` completes for every key code, buttons and qualifiers. If the key is not
handled (no selection, or no items, or a key that is none of Up, Down, Page-Up,
Page-Down, Home, End and, in hierarchy mode, Left, Right, Return), the result is
the state before with the one event `ListViewKey(key, buttons, qualifiers)`
appended: selection, items and timer are unchanged. If the key is handled, the
events appended are `ItemSelected` events only, and the result is the result of
the one action that belongs to the key. -/
theorem onKey_consumes_or_forwards (c : InputConstants) (hc : c.keysDistinct) (lv : ListView)
    (key buttons qualifiers : Int) (hn : getNumItems lv < UNSIGNED_MOD)
    (hsel : lv.mSelection = M_MAX_UNSIGNED ∨ lv.mSelection < getNumItems lv) :
    ∃ lv', onKey c key buttons qualifiers lv = some lv' ∧
      (¬ keyIsHandled c key lv →
        lv' = sendEvent (Event.listViewKey key buttons qualifiers) lv) ∧
      (keyIsHandled c key lv →
        (∃ extra, lv'.events = lv.events ++ extra ∧
          ∀ e ∈ extra, ∃ i, e = Event.itemSelected i) ∧
        ((key = c.KEY_LEFT ∧ setChildItemsVisible false lv = some lv') ∨
          (key = c.KEY_RIGHT ∧ setChildItemsVisible true lv = some lv') ∨
          (key = c.KEY_RETURN ∧ toggleChildItemsVisible lv = some lv') ∨
          (key = c.KEY_UP ∧
            changeSelection (if Int.land qualifiers c.QUAL_CTRL ≠ 0
              then -(unsignedToInt (getNumItems lv)) else -1) lv = some lv') ∨
          (key = c.KEY_DOWN ∧
            changeSelection (if Int.land qualifiers c.QUAL_CTRL ≠ 0
              then unsignedToInt (getNumItems lv) else 1) lv = some lv') ∨
          (key = c.KEY_PAGEUP ∧ ∃ B target, pageStepPixels lv = some B ∧
            pageUpLoop (getNumItems lv) lv (getNumItems lv + 1) B lv.mSelection lv.mSelection =
              some target ∧ setSelection target lv = some lv') ∨
          (key = c.KEY_PAGEDOWN ∧ ∃ B target, pageStepPixels lv = some B ∧
            pageDownLoop (getNumItems lv) lv (getNumItems lv + 1) B lv.mSelection
              lv.mSelection = some target ∧ setSelection target lv = some lv') ∨
          (key = c.KEY_HOME ∧
            changeSelection (-(unsignedToInt (getNumItems lv))) lv = some lv') ∨
          (key = c.KEY_END ∧
            changeSelection (unsignedToInt (getNumItems lv)) lv = some lv'))) := by
  by_cases hh : lv.mSelection ≠ M_MAX_UNSIGNED ∧ getNumItems lv ≠ 0
  swap
  · exact ⟨_, onKey_unhandled_of_no_selection c key buttons qualifiers lv hh, fun _ => rfl,
      fun hhandled => absurd ⟨hhandled.1, hhandled.2.1⟩ hh⟩
  have hs : lv.mSelection < getNumItems lv := by
    rcases hsel with h | h
    · exact absurd h hh.1
    · exact h
  have hsW : lv.mSelection < UNSIGNED_MOD := by omega
  obtain ⟨hRL, ⟨hTL, hTR⟩, ⟨hUL, hUR, hUT⟩, ⟨hDL, hDR, hDT, hDU⟩, ⟨hPL, hPR, hPT, hPU, hPD⟩,
    ⟨hQL, hQR, hQT, hQU, hQD, hQP⟩, ⟨hHL, hHR, hHT, hHU, hHD, hHP, hHQ⟩,
    ⟨hEL, hER, hET, hEU, hED, hEP, hEQ, hEH⟩⟩ := keysDistinct_later_ne c hc
  have noEvents : ∀ (lv' : ListView), lv'.events = lv.events →
      ∃ extra, lv'.events = lv.events ++ extra ∧ ∀ e ∈ extra, ∃ i, e = Event.itemSelected i :=
    fun lv' h => ⟨[], by simp [h], by simp⟩
  have oneEvent : ∀ (lv' : ListView) (i : Nat),
      lv'.events = lv.events ++ [Event.itemSelected i] →
      ∃ extra, lv'.events = lv.events ++ extra ∧ ∀ e ∈ extra, ∃ i, e = Event.itemSelected i :=
    fun lv' i h => ⟨[Event.itemSelected i], h, by simp⟩
  by_cases k1 : key = c.KEY_LEFT
  · subst k1
    rw [onKey_KEY_LEFT c buttons qualifiers lv hh]
    by_cases hm : lv.mHierarchyMode = true
    · obtain ⟨lv', hact, hev, _, _⟩ := setChildItemsVisible_outcome false lv hn hsel
      rw [if_pos hm]
      exact ⟨lv', hact,
        fun hnot => absurd ⟨hh.1, hh.2, Or.inr ⟨hm, Or.inl rfl⟩⟩ hnot,
        fun _ => ⟨noEvents lv' hev, Or.inl ⟨rfl, hact⟩⟩⟩
    · rw [if_neg hm]
      refine ⟨_, rfl, fun _ => rfl, fun hhandled => ?_⟩
      rcases hhandled.2.2 with (h | h | h | h | h | h) | ⟨hm', _⟩
      · exact (hUL h.symm).elim
      · exact (hDL h.symm).elim
      · exact (hPL h.symm).elim
      · exact (hQL h.symm).elim
      · exact (hHL h.symm).elim
      · exact (hEL h.symm).elim
      · exact (hm hm').elim
  by_cases k2 : key = c.KEY_RIGHT
  · subst k2
    rw [onKey_KEY_RIGHT c hc buttons qualifiers lv hh]
    by_cases hm : lv.mHierarchyMode = true
    · obtain ⟨lv', hact, hev, _, _⟩ := setChildItemsVisible_outcome true lv hn hsel
      rw [if_pos hm]
      exact ⟨lv', hact,
        fun hnot => absurd ⟨hh.1, hh.2, Or.inr ⟨hm, Or.inr (Or.inl rfl)⟩⟩ hnot,
        fun _ => ⟨noEvents lv' hev, Or.inr (Or.inl ⟨rfl, hact⟩)⟩⟩
    · rw [if_neg hm]
      refine ⟨_, rfl, fun _ => rfl, fun hhandled => ?_⟩
      rcases hhandled.2.2 with (h | h | h | h | h | h) | ⟨hm', _⟩
      · exact (hUR h.symm).elim
      · exact (hDR h.symm).elim
      · exact (hPR h.symm).elim
      · exact (hQR h.symm).elim
      · exact (hHR h.symm).elim
      · exact (hER h.symm).elim
      · exact (hm hm').elim
  by_cases k3 : key = c.KEY_RETURN
  · subst k3
    rw [onKey_KEY_RETURN c hc buttons qualifiers lv hh]
    by_cases hm : lv.mHierarchyMode = true
    · obtain ⟨lv', hact, hev, _, _⟩ := toggleChildItemsVisible_outcome lv hn hsel
      rw [if_pos hm]
      exact ⟨lv', hact,
        fun hnot => absurd ⟨hh.1, hh.2, Or.inr ⟨hm, Or.inr (Or.inr rfl)⟩⟩ hnot,
        fun _ => ⟨noEvents lv' hev, Or.inr (Or.inr (Or.inl ⟨rfl, hact⟩))⟩⟩
    · rw [if_neg hm]
      refine ⟨_, rfl, fun _ => rfl, fun hhandled => ?_⟩
      rcases hhandled.2.2 with (h | h | h | h | h | h) | ⟨hm', _⟩
      · exact (hUT h.symm).elim
      · exact (hDT h.symm).elim
      · exact (hPT h.symm).elim
      · exact (hQT h.symm).elim
      · exact (hHT h.symm).elim
      · exact (hET h.symm).elim
      · exact (hm hm').elim
  by_cases k4 : key = c.KEY_UP
  · subst k4
    obtain ⟨lv', i, hact, hev⟩ := changeSelection_outcome
      (if Int.land qualifiers c.QUAL_CTRL ≠ 0 then -(unsignedToInt (getNumItems lv)) else -1)
      lv hn hh.1 hsW
    refine ⟨lv', ?_, fun hnot => absurd ⟨hh.1, hh.2, Or.inl (Or.inl rfl)⟩ hnot,
      fun _ => ⟨oneEvent lv' i hev, Or.inr (Or.inr (Or.inr (Or.inl ⟨rfl, hact⟩)))⟩⟩
    rw [onKey_KEY_UP c hc buttons qualifiers lv hh, ← hact]
    split <;> rfl
  by_cases k5 : key = c.KEY_DOWN
  · subst k5
    obtain ⟨lv', i, hact, hev⟩ := changeSelection_outcome
      (if Int.land qualifiers c.QUAL_CTRL ≠ 0 then unsignedToInt (getNumItems lv) else 1)
      lv hn hh.1 hsW
    refine ⟨lv', ?_, fun hnot => absurd ⟨hh.1, hh.2, Or.inl (Or.inr (Or.inl rfl))⟩ hnot,
      fun _ => ⟨oneEvent lv' i hev, Or.inr (Or.inr (Or.inr (Or.inr (Or.inl ⟨rfl, hact⟩))))⟩⟩
    rw [onKey_KEY_DOWN c hc buttons qualifiers lv hh, ← hact]
    split <;> rfl
  by_cases k6 : key = c.KEY_PAGEUP
  · subst k6
    obtain ⟨B, target, lv', i, hB, hloop, hset, hev⟩ := pageUp_outcome lv hn hs
    refine ⟨lv', ?_,
      fun hnot => absurd ⟨hh.1, hh.2, Or.inl (Or.inr (Or.inr (Or.inl rfl)))⟩ hnot,
      fun _ => ⟨oneEvent lv' i hev,
        Or.inr (Or.inr (Or.inr (Or.inr (Or.inr (Or.inl ⟨rfl, B, target, hB, hloop, hset⟩)))))⟩⟩
    rw [onKey_KEY_PAGEUP c hc buttons qualifiers lv hh, hB, Option.some_bind, hloop,
      Option.some_bind, hset]
  by_cases k7 : key = c.KEY_PAGEDOWN
  · subst k7
    obtain ⟨B, target, lv', i, hB, hloop, hset, hev⟩ := pageDown_outcome lv hn hs
    refine ⟨lv', ?_,
      fun hnot => absurd ⟨hh.1, hh.2, Or.inl (Or.inr (Or.inr (Or.inr (Or.inl rfl))))⟩ hnot,
      fun _ => ⟨oneEvent lv' i hev,
        Or.inr (Or.inr (Or.inr (Or.inr (Or.inr (Or.inr
          (Or.inl ⟨rfl, B, target, hB, hloop, hset⟩))))))⟩⟩
    rw [onKey_KEY_PAGEDOWN c hc buttons qualifiers lv hh, hB, Option.some_bind, hloop,
      Option.some_bind, hset]
  by_cases k8 : key = c.KEY_HOME
  · subst k8
    obtain ⟨lv', i, hact, hev⟩ := changeSelection_outcome
      (-(unsignedToInt (getNumItems lv))) lv hn hh.1 hsW
    refine ⟨lv', ?_,
      fun hnot => absurd ⟨hh.1, hh.2,
        Or.inl (Or.inr (Or.inr (Or.inr (Or.inr (Or.inl rfl)))))⟩ hnot,
      fun _ => ⟨oneEvent lv' i hev,
        Or.inr (Or.inr (Or.inr (Or.inr (Or.inr (Or.inr (Or.inr (Or.inl ⟨rfl, hact⟩)))))))⟩⟩
    rw [onKey_KEY_HOME c hc buttons qualifiers lv hh, hact]
  by_cases k9 : key = c.KEY_END
  · subst k9
    obtain ⟨lv', i, hact, hev⟩ := changeSelection_outcome
      (unsignedToInt (getNumItems lv)) lv hn hh.1 hsW
    refine ⟨lv', ?_,
      fun hnot => absurd ⟨hh.1, hh.2,
        Or.inl (Or.inr (Or.inr (Or.inr (Or.inr (Or.inr rfl)))))⟩ hnot,
      fun _ => ⟨oneEvent lv' i hev,
        Or.inr (Or.inr (Or.inr (Or.inr (Or.inr (Or.inr (Or.inr (Or.inr ⟨rfl, hact⟩)))))))⟩⟩
    rw [onKey_KEY_END c hc buttons qualifiers lv hh, hact]
  · refine ⟨_, onKey_other c key buttons qualifiers lv k1 k2 k3 k4 k5 k6 k7 k8 k9,
      fun _ => rfl, fun hhandled => ?_⟩
    rcases hhandled.2.2 with (h | h | h | h | h | h) | ⟨_, h | h | h⟩
    · exact (k4 h).elim
    · exact (k5 h).elim
    · exact (k6 h).elim
    · exact (k7 h).elim
    · exact (k8 h).elim
    · exact (k9 h).elim
    · exact (k1 h).elim
    · exact (k2 h).elim
    · exact (k3 h).elim

/-- Key dispatch on the example view with item 0 selected: the Down key. -/
theorem onKey_consumes_or_forwards_witness :
    exampleConstants.keysDistinct ∧
    getNumItems exampleSelected < UNSIGNED_MOD ∧
    (exampleSelected.mSelection = M_MAX_UNSIGNED ∨
      exampleSelected.mSelection < getNumItems exampleSelected) ∧
    ∃ lv', onKey exampleConstants 40 0 0 exampleSelected = some lv' ∧
      (¬ keyIsHandled exampleConstants 40 exampleSelected →
        lv' = sendEvent (Event.listViewKey 40 0 0) exampleSelected) ∧
      (keyIsHandled exampleConstants 40 exampleSelected →
        (∃ extra, lv'.events = exampleSelected.events ++ extra ∧
          ∀ e ∈ extra, ∃ i, e = Event.itemSelected i) ∧
        ((40 = exampleConstants.KEY_LEFT ∧ setChildItemsVisible false exampleSelected = some lv') ∨
          (40 = exampleConstants.KEY_RIGHT ∧
            setChildItemsVisible true exampleSelected = some lv') ∨
          (40 = exampleConstants.KEY_RETURN ∧ toggleChildItemsVisible exampleSelected = some lv') ∨
          (40 = exampleConstants.KEY_UP ∧
            changeSelection (if Int.land 0 exampleConstants.QUAL_CTRL ≠ 0
              then -(unsignedToInt (getNumItems exampleSelected)) else -1) exampleSelected =
                some lv') ∨
          (40 = exampleConstants.KEY_DOWN ∧
            changeSelection (if Int.land 0 exampleConstants.QUAL_CTRL ≠ 0
              then unsignedToInt (getNumItems exampleSelected) else 1) exampleSelected =
                some lv') ∨
          (40 = exampleConstants.KEY_PAGEUP ∧ ∃ B target, pageStepPixels exampleSelected = some B ∧
            pageUpLoop (getNumItems exampleSelected) exampleSelected
              (getNumItems exampleSelected + 1) B exampleSelected.mSelection
              exampleSelected.mSelection = some target ∧
            setSelection target exampleSelected = some lv') ∨
          (40 = exampleConstants.KEY_PAGEDOWN ∧
            ∃ B target, pageStepPixels exampleSelected = some B ∧
            pageDownLoop (getNumItems exampleSelected) exampleSelected
              (getNumItems exampleSelected + 1) B exampleSelected.mSelection
              exampleSelected.mSelection = some target ∧
            setSelection target exampleSelected = some lv') ∨
          (40 = exampleConstants.KEY_HOME ∧
            changeSelection (-(unsignedToInt (getNumItems exampleSelected))) exampleSelected =
              some lv') ∨
          (40 = exampleConstants.KEY_END ∧
            changeSelection (unsignedToInt (getNumItems exampleSelected)) exampleSelected =
              some lv'))) :=
  ⟨by decide, by decide, by decide,
    onKey_consumes_or_forwards exampleConstants (by decide) exampleSelected 40 0 0
      (by decide) (by decide)⟩

/-- Keys on the example views: with no selection the Down key only sends
`ListViewKey`; with item 0 selected the Down key selects item 2 and sends
`ItemSelected`, and a key that is not handled (code 65) only sends
`ListViewKey`. -/
theorem onKey_examples :
    (onKey exampleConstants 40 1 2 exampleView).map (fun lv => (lv.mSelection, lv.events)) =
      some (M_MAX_UNSIGNED, [Event.listViewKey 40 1 2]) ∧
    (onKey exampleConstants 40 0 0 exampleSelected).map (fun lv => (lv.mSelection, lv.events)) =
      some (2, [Event.itemSelected 2]) ∧
    (onKey exampleConstants 65 0 0 exampleSelected).map (fun lv => (lv.mSelection, lv.events)) =
      some (0, [Event.listViewKey 65 0 0]) := by
  decide

/-- C14 fails in a state that public calls reach. On a new list view, after
`addItem` of an invisible item A and of a visible item B, `setSelection(1)` and
`removeItem(0)`, the selection is still 1 while one item is left, so that
`getSelectedItem()` is null. Page-Down and Page-Up are keys to be handled there
(the selection is not `M_MAX_UNSIGNED` and the item count is 1), but `onKey`
evaluates `getSelectedItem()->getHeight()` on the missing item: no handled action
is run and no notification is published. -/
theorem onKey_page_after_removeItem_reads_missing_item :
    (runOps exampleConstants removeInvisibleBelow ListView.create).map
        (fun lv => (lv.mSelection, getNumItems lv, getSelectedItem lv,
          decide (keyIsHandled exampleConstants exampleConstants.KEY_PAGEDOWN lv),
          decide (keyIsHandled exampleConstants exampleConstants.KEY_PAGEUP lv))) =
      some (1, 1, none, true, true) ∧
    (runOps exampleConstants removeInvisibleBelow ListView.create).bind
        (onKey exampleConstants exampleConstants.KEY_PAGEDOWN 0 0) = none ∧
    (runOps exampleConstants removeInvisibleBelow ListView.create).bind
        (onKey exampleConstants exampleConstants.KEY_PAGEUP 0 0) = none := by
  decide!

/-! ## No access to a missing item -/

theorem handleClickOnItem_isSome (lv : ListView) (i : Nat)
    (hn : getNumItems lv < UNSIGNED_MOD) :
    (handleClickOnItem i lv).isSome = true := by
  have hvalid : ∀ (lv1 lv2 : ListView), lv2.mSelection = resolveSelection lv1 i →
      getNumItems lv2 = getNumItems lv1 →
      lv2.mSelection = M_MAX_UNSIGNED ∨ lv2.mSelection < getNumItems lv2 := by
    intro lv1 lv2 hsel2 hn2
    rcases resolveSelection_cases lv1 i with ⟨hres, item, hget, _⟩ | ⟨hres, _⟩
    · right
      rw [hsel2, hres, hn2]
      exact lt_of_getItem hget
    · left
      rw [hsel2, hres]
  by_cases hdc : (decide (lv.mDoubleClickTimer > 0) && (lv.mSelection == i)) = true
  · obtain ⟨lv2, h2, hsel2, hn2, _, _, _, _⟩ :=
      setSelection_post i { lv with mDoubleClickTimer := 0 } hn
    obtain ⟨lv3, h3, _⟩ := toggleChildItemsVisible_outcome lv2 (by rw [hn2]; exact hn)
      (hvalid _ lv2 hsel2 hn2)
    unfold handleClickOnItem
    simp only [hdc, if_true, h2, Option.bind_eq_bind, Option.some_bind]
    by_cases hm : lv2.mHierarchyMode = true
    · simp [hm, h3]
    · simp [hm]
  · have hdc' : (decide (lv.mDoubleClickTimer > 0) && (lv.mSelection == i)) = false := by
      simpa using hdc
    obtain ⟨lv2, h2, _⟩ :=
      setSelection_post i { lv with mDoubleClickTimer := lv.mDoubleClickInterval } hn
    unfold handleClickOnItem
    simp only [hdc', Bool.false_eq_true, if_false, h2, Option.bind_eq_bind, Option.some_bind,
      Option.isSome_some]

theorem handleUIMouseClickLoop_isSome (element : Option Nat) (lv : ListView)
    (hn : getNumItems lv < UNSIGNED_MOD) :
    ∀ (fuel start : Nat), getNumItems lv - start < fuel →
      (handleUIMouseClickLoop element (getNumItems lv) fuel start lv).isSome = true := by
  intro fuel
  induction fuel with
  | zero => intro start h; omega
  | succ fuel ih =>
    intro start hfuel
    by_cases hlt : start < getNumItems lv
    · by_cases hmatch : element = (getItem lv start).map UIElement.ptr
      · simp only [handleUIMouseClickLoop, hlt, if_true, ← hmatch]
        exact handleClickOnItem_isSome lv start hn
      · simp only [handleUIMouseClickLoop, hlt, if_true, hmatch, if_false]
        rw [incUnsigned_of_lt (by omega)]
        exact ih (start + 1) (by omega)
    · simp only [handleUIMouseClickLoop, hlt, if_false, Option.isSome_some]

theorem onKey_isSome (c : InputConstants) (lv : ListView) (key buttons qualifiers : Int)
    (hn : getNumItems lv < UNSIGNED_MOD)
    (hsel : lv.mSelection = M_MAX_UNSIGNED ∨ lv.mSelection < getNumItems lv) :
    (onKey c key buttons qualifiers lv).isSome = true := by
  have hsW := selection_lt_mod hn hsel
  have hvis : ∀ enable, (setChildItemsVisible enable lv).isSome = true := by
    intro enable
    obtain ⟨lv', h, _⟩ := setChildItemsVisible_outcome enable lv hn hsel
    rw [h]; rfl
  have htog : (toggleChildItemsVisible lv).isSome = true := by
    obtain ⟨lv', h, _⟩ := toggleChildItemsVisible_outcome lv hn hsel
    rw [h]; rfl
  by_cases hh : lv.mSelection ≠ M_MAX_UNSIGNED ∧ getNumItems lv ≠ 0
  swap
  · rw [onKey_unhandled_of_no_selection c key buttons qualifiers lv hh]; rfl
  have hs : lv.mSelection < getNumItems lv := by
    rcases hsel with h | h
    · exact absurd h hh.1
    · exact h
  have hchange : ∀ delta, (changeSelection delta lv).isSome = true := by
    intro delta
    obtain ⟨lv', i, h, _⟩ := changeSelection_outcome delta lv hn hh.1 hsW
    rw [h]; rfl
  obtain ⟨BU, tU, lvU, _, hBU, hloopU, hsetU, _⟩ := pageUp_outcome lv hn hs
  obtain ⟨BD, tD, lvD, _, hBD, hloopD, hsetD, _⟩ := pageDown_outcome lv hn hs
  have hpU : ((pageStepPixels lv).bind (fun stepPixels =>
      (pageUpLoop (getNumItems lv) lv (getNumItems lv + 1) stepPixels lv.mSelection
        lv.mSelection).bind (fun okSelection => setSelection okSelection lv))).isSome = true := by
    rw [hBU, Option.some_bind, hloopU, Option.some_bind, hsetU]; rfl
  have hpD : ((pageStepPixels lv).bind (fun stepPixels =>
      (pageDownLoop (getNumItems lv) lv (getNumItems lv + 1) stepPixels lv.mSelection
        lv.mSelection).bind (fun okSelection => setSelection okSelection lv))).isSome = true := by
    rw [hBD, Option.some_bind, hloopD, Option.some_bind, hsetD]; rfl
  by_cases k1 : key = c.KEY_LEFT
  · have h : onKey c key buttons qualifiers lv =
        if lv.mHierarchyMode = true then setChildItemsVisible false lv
        else some (sendEvent (Event.listViewKey key buttons qualifiers) lv) := by
      simp only [onKey, if_pos hh, if_pos k1]
    rw [h]
    split
    · exact hvis _
    · rfl
  by_cases k2 : key = c.KEY_RIGHT
  · have h : onKey c key buttons qualifiers lv =
        if lv.mHierarchyMode = true then setChildItemsVisible true lv
        else some (sendEvent (Event.listViewKey key buttons qualifiers) lv) := by
      simp only [onKey, if_pos hh, if_neg k1, if_pos k2]
    rw [h]
    split
    · exact hvis _
    · rfl
  by_cases k3 : key = c.KEY_RETURN
  · have h : onKey c key buttons qualifiers lv =
        if lv.mHierarchyMode = true then toggleChildItemsVisible lv
        else some (sendEvent (Event.listViewKey key buttons qualifiers) lv) := by
      simp only [onKey, if_pos hh, if_neg k1, if_neg k2, if_pos k3]
    rw [h]
    split
    · exact htog
    · rfl
  by_cases k4 : key = c.KEY_UP
  · have h : onKey c key buttons qualifiers lv =
        if Int.land qualifiers c.QUAL_CTRL ≠ 0 then
          changeSelection (-(unsignedToInt (getNumItems lv))) lv
        else changeSelection (-1) lv := by
      simp only [onKey, if_pos hh, if_neg k1, if_neg k2, if_neg k3, if_pos k4]
    rw [h]
    split <;> exact hchange _
  by_cases k5 : key = c.KEY_DOWN
  · have h : onKey c key buttons qualifiers lv =
        if Int.land qualifiers c.QUAL_CTRL ≠ 0 then
          changeSelection (unsignedToInt (getNumItems lv)) lv
        else changeSelection 1 lv := by
      simp only [onKey, if_pos hh, if_neg k1, if_neg k2, if_neg k3, if_neg k4, if_pos k5]
    rw [h]
    split <;> exact hchange _
  by_cases k6 : key = c.KEY_PAGEUP
  · have h : onKey c key buttons qualifiers lv =
        (pageStepPixels lv).bind (fun stepPixels =>
          (pageUpLoop (getNumItems lv) lv (getNumItems lv + 1) stepPixels lv.mSelection
            lv.mSelection).bind (fun okSelection => setSelection okSelection lv)) := by
      simp only [onKey, if_pos hh, if_neg k1, if_neg k2, if_neg k3, if_neg k4, if_neg k5,
        if_pos k6]
      rfl
    rw [h]
    exact hpU
  by_cases k7 : key = c.KEY_PAGEDOWN
  · have h : onKey c key buttons qualifiers lv =
        (pageStepPixels lv).bind (fun stepPixels =>
          (pageDownLoop (getNumItems lv) lv (getNumItems lv + 1) stepPixels lv.mSelection
            lv.mSelection).bind (fun okSelection => setSelection okSelection lv)) := by
      simp only [onKey, if_pos hh, if_neg k1, if_neg k2, if_neg k3, if_neg k4, if_neg k5,
        if_neg k6, if_pos k7]
      rfl
    rw [h]
    exact hpD
  by_cases k8 : key = c.KEY_HOME
  · have h : onKey c key buttons qualifiers lv =
        changeSelection (-(unsignedToInt (getNumItems lv))) lv := by
      simp only [onKey, if_pos hh, if_neg k1, if_neg k2, if_neg k3, if_neg k4, if_neg k5,
        if_neg k6, if_neg k7, if_pos k8]
    rw [h]
    exact hchange _
  by_cases k9 : key = c.KEY_END
  · have h : onKey c key buttons qualifiers lv =
        changeSelection (unsignedToInt (getNumItems lv)) lv := by
      simp only [onKey, if_pos hh, if_neg k1, if_neg k2, if_neg k3, if_neg k4, if_neg k5,
        if_neg k6, if_neg k7, if_neg k8, if_pos k9]
    rw [h]
    exact hchange _
  · rw [onKey_other c key buttons qualifiers lv k1 k2 k3 k4 k5 k6 k7 k8 k9]
    rfl

/-- C20. In a state whose selection is `M_MAX_UNSIGNED` or below the number of
items, `setSelection`, `changeSelection`, `setChildItemsVisible`,
`toggleChildItemsVisible`, `updateSelectionEffect`, `onKey` (Page-Up and
Page-Down with `getSelectedItem()->getHeight()` included) and
`handleUIMouseClick` complete for every argument value: no call dereferences a
missing item (and every loop ends). -/
theorem no_missing_item_access (c : InputConstants) (lv : ListView)
    (hn : getNumItems lv < UNSIGNED_MOD)
    (hsel : lv.mSelection = M_MAX_UNSIGNED ∨ lv.mSelection < getNumItems lv) :
    (∀ index, (setSelection index lv).isSome = true) ∧
    (∀ delta, (changeSelection delta lv).isSome = true) ∧
    (∀ enable, (setChildItemsVisible enable lv).isSome = true) ∧
    (toggleChildItemsVisible lv).isSome = true ∧
    (updateSelectionEffect lv).isSome = true ∧
    (∀ key buttons qualifiers, (onKey c key buttons qualifiers lv).isSome = true) ∧
    (∀ button element, (handleUIMouseClick c button element lv).isSome = true) := by
  refine ⟨fun index => ?_, fun delta => ?_, fun enable => ?_, ?_, ?_,
    fun key buttons qualifiers => onKey_isSome c lv key buttons qualifiers hn hsel,
    fun button element => ?_⟩
  · rw [setSelection_eq index lv hn]; rfl
  · by_cases hmax : lv.mSelection = M_MAX_UNSIGNED
    · simp [changeSelection, hmax]
    · obtain ⟨lv', i, h, _⟩ := changeSelection_outcome delta lv hn hmax (selection_lt_mod hn hsel)
      rw [h]; rfl
  · obtain ⟨lv', h, _⟩ := setChildItemsVisible_outcome enable lv hn hsel
    rw [h]; rfl
  · obtain ⟨lv', h, _⟩ := toggleChildItemsVisible_outcome lv hn hsel
    rw [h]; rfl
  · rw [updateSelectionEffect_eq lv hn]; rfl
  · unfold handleUIMouseClick
    by_cases hb : button ≠ c.MOUSEB_LEFT
    · simp [hb]
    · simp only [hb, if_false]
      exact handleUIMouseClickLoop_isSome element lv hn (getNumItems lv + 1) 0 (by omega)

/-- Witness for C20 on the example view with item 0 selected. -/
theorem no_missing_item_access_witness :
    getNumItems exampleSelected < UNSIGNED_MOD ∧
    (exampleSelected.mSelection = M_MAX_UNSIGNED ∨
      exampleSelected.mSelection < getNumItems exampleSelected) ∧
    (∀ index, (setSelection index exampleSelected).isSome = true) ∧
    (∀ delta, (changeSelection delta exampleSelected).isSome = true) ∧
    (∀ enable, (setChildItemsVisible enable exampleSelected).isSome = true) ∧
    (toggleChildItemsVisible exampleSelected).isSome = true ∧
    (updateSelectionEffect exampleSelected).isSome = true ∧
    (∀ key buttons qualifiers,
      (onKey exampleConstants key buttons qualifiers exampleSelected).isSome = true) ∧
    (∀ button element,
      (handleUIMouseClick exampleConstants button element exampleSelected).isSome = true) :=
  ⟨by decide, by decide,
    no_missing_item_access exampleConstants exampleSelected (by decide) (by decide)⟩

/-- Without the assumption on the selection the Page-Down key does read a
missing item: with one item and the stale selection 1,
`getSelectedItem()->getHeight()` has no item to read. -/
theorem pageDown_stale_selection_example :
    onKey exampleConstants exampleConstants.KEY_PAGEDOWN 0 0
      { ListView.create with items := [mkItem 2 true 0], mSelection := 1 } = none := by
  decide

/-! ## The double-click timer -/

/-- C17, as stated, fails. From a new list view (interval 1/2, timer 0): after an
item is added and clicked and the interval is lowered to 1/10, the timer 1/2 is
above the interval; after the click and `update(-1)` the timer is 3/2, above the
interval 1/2; after `setDoubleClickInterval(-1)` and a click the timer is -1; and
after `setDoubleClickInterval(-1)` alone, with no item at all, the timer 0 is
above the interval -1. -/
theorem timer_leaves_range :
    (runOps exampleConstants clickThenLowerInterval ListView.create).map
        (fun lv => (lv.mDoubleClickTimer, lv.mDoubleClickInterval)) =
      some (mkRat 1 2, mkRat 1 10) ∧
    (runOps exampleConstants clickThenNegativeStep ListView.create).map
        (fun lv => (lv.mDoubleClickTimer, lv.mDoubleClickInterval)) =
      some (mkRat 3 2, mkRat 1 2) ∧
    (runOps exampleConstants negativeIntervalThenClick ListView.create).map
        (fun lv => (lv.mDoubleClickTimer, lv.mDoubleClickInterval)) =
      some (-1, -1) ∧
    (runOps exampleConstants [Op.setDoubleClickInterval (-1)] ListView.create).map
        (fun lv => (lv.mDoubleClickTimer, lv.mDoubleClickInterval)) =
      some (0, -1) := by
  decide!

theorem SameTimer.refl (lv : ListView) : SameTimer lv lv := ⟨rfl, rfl⟩

theorem SameTimer.trans {a b d : ListView} (h1 : SameTimer a b) (h2 : SameTimer b d) :
    SameTimer a d :=
  ⟨h2.1.trans h1.1, h2.2.trans h1.2⟩

theorem updateSelectionEffectLoop_sameTimer (n : Nat) :
    ∀ (fuel i : Nat) (lv lv' : ListView),
      updateSelectionEffectLoop n fuel i lv = some lv' → SameTimer lv lv' := by
  intro fuel
  induction fuel with
  | zero => intro i lv lv' h; simp [updateSelectionEffectLoop] at h
  | succ fuel ih =>
    intro i lv lv' h
    by_cases hlt : i < n
    · cases hget : getItem lv i with
      | none => simp [updateSelectionEffectLoop, hlt, hget] at h
      | some item =>
        simp only [updateSelectionEffectLoop, hlt, if_true, hget] at h
        have hrec := ih _ _ _ h
        exact ⟨hrec.1, hrec.2⟩
    · simp only [updateSelectionEffectLoop, hlt, if_false, Option.some.injEq] at h
      rw [← h]
      exact SameTimer.refl lv

theorem setSelection_sameTimer_aux (idx : Nat) (lv lv' : ListView)
    (h : (updateSelectionEffect { lv with mSelection := idx }).bind (fun lv2 =>
      some (sendEvent (Event.itemSelected (ensureItemVisibility lv2).mSelection)
        (ensureItemVisibility lv2))) = some lv') : SameTimer lv lv' := by
  simp only [Option.bind_eq_some] at h
  obtain ⟨lv2, h2, h3⟩ := h
  have hs := updateSelectionEffectLoop_sameTimer _ _ _ _ _ h2
  simp only [Option.some.injEq] at h3
  rw [← h3]
  exact ⟨by simpa [sendEvent] using hs.1, by simpa [sendEvent] using hs.2⟩

theorem setSelection_sameTimer (index : Nat) (lv lv' : ListView)
    (h : setSelection index lv = some lv') : SameTimer lv lv' := by
  by_cases hge : index ≥ getNumItems lv
  · simp only [setSelection, hge, if_true, Option.bind_eq_bind, Option.some_bind] at h
    exact setSelection_sameTimer_aux _ lv lv' h
  · cases hget : getItem lv index with
    | none => simp [setSelection, hge, hget] at h
    | some item =>
      cases hvis : item.mVisible with
      | true =>
        simp only [setSelection, hge, if_false, hget, hvis, Bool.not_true, Bool.false_eq_true,
          Option.bind_eq_bind, Option.some_bind] at h
        exact setSelection_sameTimer_aux _ lv lv' h
      | false =>
        simp only [setSelection, hge, if_false, hget, hvis, Bool.not_false, if_true,
          Option.bind_eq_bind, Option.some_bind] at h
        exact setSelection_sameTimer_aux _ lv lv' h

theorem changeSelection_sameTimer (delta : Int) (lv lv' : ListView)
    (h : changeSelection delta lv = some lv') : SameTimer lv lv' := by
  unfold changeSelection at h
  by_cases hmax : lv.mSelection = M_MAX_UNSIGNED
  · simp only [hmax, if_true, Option.some.injEq] at h
    rw [← h]
    exact SameTimer.refl lv
  · simp only [hmax, if_false, Option.bind_eq_bind, Option.bind_eq_some] at h
    obtain ⟨ok, _, hset⟩ := h
    exact setSelection_sameTimer ok lv lv' hset

theorem setChildItemsVisibleLoop_sameTimer (enable : Bool) (b : Int) (n : Nat) :
    ∀ (fuel i : Nat) (lv lv' : ListView),
      setChildItemsVisibleLoop enable b n fuel i lv = some lv' → SameTimer lv lv' := by
  intro fuel
  induction fuel with
  | zero => intro i lv lv' h; simp [setChildItemsVisibleLoop] at h
  | succ fuel ih =>
    intro i lv lv' h
    by_cases hlt : i < n
    · by_cases hdeep : getItemIndent (getItem lv i) > b
      · cases hget : getItem lv i with
        | none =>
          simp [setChildItemsVisibleLoop, hlt, hget, hdeep] at h
          rw [← h.2]
          exact SameTimer.refl lv
        | some item =>
          rw [hget] at hdeep
          simp only [setChildItemsVisibleLoop, hlt, if_true, hget, hdeep] at h
          have hrec := ih _ _ _ h
          exact ⟨hrec.1, hrec.2⟩
      · simp only [setChildItemsVisibleLoop, hlt, if_true, hdeep, if_false,
          Option.some.injEq] at h
        rw [← h]
        exact SameTimer.refl lv
    · simp only [setChildItemsVisibleLoop, hlt, if_false, Option.some.injEq] at h
      rw [← h]
      exact SameTimer.refl lv

theorem toggleChildItemsVisibleLoop_sameTimer (b : Int) (n : Nat) :
    ∀ (fuel i : Nat) (lv lv' : ListView),
      toggleChildItemsVisibleLoop b n fuel i lv = some lv' → SameTimer lv lv' := by
  intro fuel
  induction fuel with
  | zero => intro i lv lv' h; simp [toggleChildItemsVisibleLoop] at h
  | succ fuel ih =>
    intro i lv lv' h
    by_cases hlt : i < n
    · by_cases hdeep : getItemIndent (getItem lv i) > b
      · cases hget : getItem lv i with
        | none =>
          simp [toggleChildItemsVisibleLoop, hlt, hget, hdeep] at h
          rw [← h.2]
          exact SameTimer.refl lv
        | some item =>
          rw [hget] at hdeep
          simp only [toggleChildItemsVisibleLoop, hlt, if_true, hget, hdeep] at h
          have hrec := ih _ _ _ h
          exact ⟨hrec.1, hrec.2⟩
      · simp only [toggleChildItemsVisibleLoop, hlt, if_true, hdeep, if_false,
          Option.some.injEq] at h
        rw [← h]
        exact SameTimer.refl lv
    · simp only [toggleChildItemsVisibleLoop, hlt, if_false, Option.some.injEq] at h
      rw [← h]
      exact SameTimer.refl lv

theorem setChildItemsVisible_sameTimer (enable : Bool) (lv lv' : ListView)
    (h : setChildItemsVisible enable lv = some lv') : SameTimer lv lv' := by
  unfold setChildItemsVisible at h
  split at h
  · simp only [Option.some.injEq] at h
    rw [← h]
    exact SameTimer.refl lv
  · exact setChildItemsVisibleLoop_sameTimer _ _ _ _ _ _ _ h

theorem toggleChildItemsVisible_sameTimer (lv lv' : ListView)
    (h : toggleChildItemsVisible lv = some lv') : SameTimer lv lv' := by
  unfold toggleChildItemsVisible at h
  split at h
  · simp only [Option.some.injEq] at h
    rw [← h]
    exact SameTimer.refl lv
  · exact toggleChildItemsVisibleLoop_sameTimer _ _ _ _ _ _ h

theorem clearSelection_sameTimer (lv lv' : ListView) (h : clearSelection lv = some lv') :
    SameTimer lv lv' :=
  setSelection_sameTimer _ lv lv' h

theorem removeItemLoop_sameTimer (item : Option Nat) (items : List UIElement) :
    ∀ (fuel i : Nat) (lv lv' : ListView),
      removeItemLoop item items fuel i lv = some lv' → SameTimer lv lv' := by
  intro fuel
  induction fuel with
  | zero => intro i lv lv' h; simp [removeItemLoop] at h
  | succ fuel ih =>
    intro i lv lv' h
    by_cases hlt : i < items.length
    · by_cases hmatch : (items[i]?).map UIElement.ptr = item
      · simp only [removeItemLoop, hlt, if_true, hmatch] at h
        by_cases h1 : lv.mSelection = i
        · rw [if_pos h1] at h
          exact clearSelection_sameTimer lv lv' h
        · rw [if_neg h1] at h
          by_cases h2 : lv.mSelection > i
          · rw [if_pos h2] at h
            exact changeSelection_sameTimer _ lv lv' h
          · rw [if_neg h2] at h
            simp only [Option.some.injEq] at h
            rw [← h]
            exact SameTimer.refl lv
      · simp only [removeItemLoop, hlt, if_true, hmatch, if_false] at h
        exact ih _ _ _ h
    · simp only [removeItemLoop, hlt, if_false, Option.some.injEq] at h
      rw [← h]
      exact SameTimer.refl lv

theorem removeItem_sameTimer (item : Option Nat) (lv lv' : ListView)
    (h : removeItem item lv = some lv') : SameTimer lv lv' := by
  unfold removeItem at h
  simp only [Option.bind_eq_bind, Option.bind_eq_some, Option.some.injEq] at h
  obtain ⟨lv1, h1, h2⟩ := h
  have hs := removeItemLoop_sameTimer _ _ _ _ _ _ h1
  rw [← h2]
  exact ⟨hs.1, hs.2⟩

theorem removeItemAt_sameTimer (index : Nat) (lv lv' : ListView)
    (h : removeItemAt index lv = some lv') : SameTimer lv lv' := by
  by_cases hge : index ≥ getNumItems lv
  · simp only [removeItemAt, hge, if_true, Option.some.injEq] at h
    rw [← h]
    exact SameTimer.refl lv
  · have hs : ∀ lv1, SameTimer lv lv1 →
        some (removeChild ((getItem lv index).map UIElement.ptr) lv1) = some lv' →
        SameTimer lv lv' := by
      intro lv1 hs h2
      simp only [Option.some.injEq] at h2
      rw [← h2]
      exact ⟨hs.1, hs.2⟩
    by_cases e1 : lv.mSelection = index
    · simp only [removeItemAt, hge, if_false, if_pos e1, Option.bind_eq_bind,
        Option.bind_eq_some] at h
      obtain ⟨lv1, h1, h2⟩ := h
      exact hs lv1 (clearSelection_sameTimer lv lv1 h1) h2
    · by_cases e2 : lv.mSelection > index
      · simp only [removeItemAt, hge, if_false, if_neg e1, if_pos e2, Option.bind_eq_bind,
          Option.bind_eq_some] at h
        obtain ⟨lv1, h1, h2⟩ := h
        exact hs lv1 (changeSelection_sameTimer _ lv lv1 h1) h2
      · simp only [removeItemAt, hge, if_false, if_neg e1, if_neg e2, Option.bind_eq_bind,
          Option.some_bind] at h
        exact hs lv (SameTimer.refl lv) h

theorem removeAllItems_sameTimer (lv lv' : ListView) (h : removeAllItems lv = some lv') :
    SameTimer lv lv' := by
  have hs := clearSelection_sameTimer { lv with items := [] } lv' h
  exact ⟨hs.1, hs.2⟩

theorem addItem_sameTimer (item : Option UIElement) (lv : ListView) :
    SameTimer lv (addItem item lv) := by
  unfold addItem
  cases item with
  | none => exact SameTimer.refl lv
  | some it =>
    simp only
    split
    · exact SameTimer.refl lv
    · exact ⟨rfl, rfl⟩

theorem page_sameTimer (lv lv' : ListView) (loop : Int → Option Nat)
    (h : (pageStepPixels lv).bind (fun stepPixels =>
      (loop stepPixels).bind (fun okSelection => setSelection okSelection lv)) = some lv') :
    SameTimer lv lv' := by
  simp only [Option.bind_eq_some] at h
  obtain ⟨B, _, ok, _, hset⟩ := h
  exact setSelection_sameTimer ok lv lv' hset

theorem onKey_sameTimer (c : InputConstants) (key buttons qualifiers : Int) (lv lv' : ListView)
    (h : onKey c key buttons qualifiers lv = some lv') : SameTimer lv lv' := by
  have hunhandled : some (sendEvent (Event.listViewKey key buttons qualifiers) lv) = some lv' →
      SameTimer lv lv' := by
    intro h'
    simp only [Option.some.injEq] at h'
    rw [← h']
    exact ⟨rfl, rfl⟩
  by_cases hh : lv.mSelection ≠ M_MAX_UNSIGNED ∧ getNumItems lv ≠ 0
  swap
  · rw [onKey_unhandled_of_no_selection c key buttons qualifiers lv hh] at h
    exact hunhandled h
  by_cases k1 : key = c.KEY_LEFT
  · simp only [onKey, if_pos hh, if_pos k1] at h
    split at h
    · exact setChildItemsVisible_sameTimer _ lv lv' h
    · exact hunhandled h
  by_cases k2 : key = c.KEY_RIGHT
  · simp only [onKey, if_pos hh, if_neg k1, if_pos k2] at h
    split at h
    · exact setChildItemsVisible_sameTimer _ lv lv' h
    · exact hunhandled h
  by_cases k3 : key = c.KEY_RETURN
  · simp only [onKey, if_pos hh, if_neg k1, if_neg k2, if_pos k3] at h
    split at h
    · exact toggleChildItemsVisible_sameTimer lv lv' h
    · exact hunhandled h
  by_cases k4 : key = c.KEY_UP
  · simp only [onKey, if_pos hh, if_neg k1, if_neg k2, if_neg k3, if_pos k4] at h
    split at h <;> exact changeSelection_sameTimer _ lv lv' h
  by_cases k5 : key = c.KEY_DOWN
  · simp only [onKey, if_pos hh, if_neg k1, if_neg k2, if_neg k3, if_neg k4, if_pos k5] at h
    split at h <;> exact changeSelection_sameTimer _ lv lv' h
  by_cases k6 : key = c.KEY_PAGEUP
  · simp only [onKey, if_pos hh, if_neg k1, if_neg k2, if_neg k3, if_neg k4, if_neg k5,
      if_pos k6] at h
    exact page_sameTimer lv lv' _ h
  by_cases k7 : key = c.KEY_PAGEDOWN
  · simp only [onKey, if_pos hh, if_neg k1, if_neg k2, if_neg k3, if_neg k4, if_neg k5,
      if_neg k6, if_pos k7] at h
    exact page_sameTimer lv lv' _ h
  by_cases k8 : key = c.KEY_HOME
  · simp only [onKey, if_pos hh, if_neg k1, if_neg k2, if_neg k3, if_neg k4, if_neg k5,
      if_neg k6, if_neg k7, if_pos k8] at h
    exact changeSelection_sameTimer _ lv lv' h
  by_cases k9 : key = c.KEY_END
  · simp only [onKey, if_pos hh, if_neg k1, if_neg k2, if_neg k3, if_neg k4, if_neg k5,
      if_neg k6, if_neg k7, if_neg k8, if_pos k9] at h
    exact changeSelection_sameTimer _ lv lv' h
  · rw [onKey_other c key buttons qualifiers lv k1 k2 k3 k4 k5 k6 k7 k8 k9] at h
    exact hunhandled h

/-- After a click on an item the interval is as before and the timer is 0 or the
interval. -/
theorem handleClickOnItem_timer (i : Nat) (lv lv' : ListView)
    (h : handleClickOnItem i lv = some lv') :
    lv'.mDoubleClickInterval = lv.mDoubleClickInterval ∧
      (lv'.mDoubleClickTimer = 0 ∨ lv'.mDoubleClickTimer = lv.mDoubleClickInterval) := by
  unfold handleClickOnItem at h
  by_cases hdc : (decide (lv.mDoubleClickTimer > 0) && (lv.mSelection == i)) = true
  · simp only [hdc, if_true, Option.bind_eq_bind, Option.bind_eq_some] at h
    obtain ⟨lv2, h2, h3⟩ := h
    have hs2 := setSelection_sameTimer _ _ _ h2
    have hs3 : ∀ lv3, SameTimer lv2 lv3 →
        some (sendEvent (Event.itemDoubleClicked lv3.mSelection) lv3) = some lv' →
        lv'.mDoubleClickInterval = lv.mDoubleClickInterval ∧
          (lv'.mDoubleClickTimer = 0 ∨ lv'.mDoubleClickTimer = lv.mDoubleClickInterval) := by
      intro lv3 hs3 h4
      simp only [Option.some.injEq] at h4
      rw [← h4]
      exact ⟨hs3.2.trans hs2.2, Or.inl (hs3.1.trans hs2.1)⟩
    by_cases hm : lv2.mHierarchyMode = true
    · simp only [hm, if_true, Option.bind_eq_some] at h3
      obtain ⟨lv3, h3, h4⟩ := h3
      exact hs3 lv3 (toggleChildItemsVisible_sameTimer lv2 lv3 h3) h4
    · simp only [hm, if_false, Option.some_bind] at h3
      exact hs3 lv2 (SameTimer.refl lv2) h3
  · have hdc' : (decide (lv.mDoubleClickTimer > 0) && (lv.mSelection == i)) = false := by
      simpa using hdc
    simp only [hdc', Bool.false_eq_true, if_false, Option.bind_eq_bind, Option.bind_eq_some,
      Option.some.injEq] at h
    obtain ⟨lv2, h2, h3⟩ := h
    have hs2 := setSelection_sameTimer _ _ _ h2
    rw [← h3]
    exact ⟨hs2.2, Or.inr hs2.1⟩

theorem handleUIMouseClickLoop_timer (element : Option Nat) (n : Nat) :
    ∀ (fuel i : Nat) (lv lv' : ListView),
      handleUIMouseClickLoop element n fuel i lv = some lv' →
      lv'.mDoubleClickInterval = lv.mDoubleClickInterval ∧
        (lv'.mDoubleClickTimer = lv.mDoubleClickTimer ∨ lv'.mDoubleClickTimer = 0 ∨
          lv'.mDoubleClickTimer = lv.mDoubleClickInterval) := by
  intro fuel
  induction fuel with
  | zero => intro i lv lv' h; simp [handleUIMouseClickLoop] at h
  | succ fuel ih =>
    intro i lv lv' h
    by_cases hlt : i < n
    · by_cases hmatch : element = (getItem lv i).map UIElement.ptr
      · simp only [handleUIMouseClickLoop, hlt, if_true, ← hmatch] at h
        obtain ⟨h1, h2⟩ := handleClickOnItem_timer i lv lv' h
        exact ⟨h1, Or.inr h2⟩
      · simp only [handleUIMouseClickLoop, hlt, if_true, hmatch, if_false] at h
        exact ih _ _ _ h
    · simp only [handleUIMouseClickLoop, hlt, if_false, Option.some.injEq] at h
      rw [← h]
      exact ⟨rfl, Or.inl rfl⟩

theorem handleUIMouseClick_timer (c : InputConstants) (button : Int) (element : Option Nat)
    (lv lv' : ListView) (h : handleUIMouseClick c button element lv = some lv') :
    lv'.mDoubleClickInterval = lv.mDoubleClickInterval ∧
      (lv'.mDoubleClickTimer = lv.mDoubleClickTimer ∨ lv'.mDoubleClickTimer = 0 ∨
        lv'.mDoubleClickTimer = lv.mDoubleClickInterval) := by
  unfold handleUIMouseClick at h
  split at h
  · simp only [Option.some.injEq] at h
    rw [← h]
    exact ⟨rfl, Or.inl rfl⟩
  · exact handleUIMouseClickLoop_timer _ _ _ _ _ _ h

/-- What `update` does to the timer: a running timer `t > 0` becomes
`max (t - timeStep) 0`, a timer that is not running is left alone; the interval
is never touched. -/
theorem update_timer (timeStep : Rat) (lv : ListView) :
    (update timeStep lv).mDoubleClickInterval = lv.mDoubleClickInterval ∧
    (0 < lv.mDoubleClickTimer →
      (update timeStep lv).mDoubleClickTimer = max (lv.mDoubleClickTimer - timeStep) 0) ∧
    (¬ 0 < lv.mDoubleClickTimer → update timeStep lv = lv) := by
  unfold update
  refine ⟨?_, fun h => ?_, fun h => ?_⟩
  · split <;> rfl
  · simp [h]
  · simp [h]

/-- One admissible call keeps the timer within `[0, doubleClickInterval]`. -/
theorem Op.apply_timerInRange (c : InputConstants) (op : Op) (lv lv' : ListView)
    (hinv : timerInRange lv) (hok : op.keepsTimer lv) (h : op.apply c lv = some lv') :
    timerInRange lv' := by
  have hsame : ∀ lv1 : ListView, SameTimer lv lv1 → timerInRange lv1 := by
    rintro lv1 ⟨h1, h2⟩
    unfold timerInRange
    rw [h1, h2]
    exact hinv
  obtain ⟨h0, hle⟩ := hinv
  cases op with
  | addItem item =>
    simp only [Op.apply, Option.some.injEq] at h
    rw [← h]
    exact hsame _ (addItem_sameTimer item lv)
  | removeItem item => exact hsame _ (removeItem_sameTimer item lv lv' h)
  | removeItemAt index => exact hsame _ (removeItemAt_sameTimer index lv lv' h)
  | removeAllItems => exact hsame _ (removeAllItems_sameTimer lv lv' h)
  | setSelection index => exact hsame _ (setSelection_sameTimer index lv lv' h)
  | changeSelection delta => exact hsame _ (changeSelection_sameTimer delta lv lv' h)
  | clearSelection => exact hsame _ (clearSelection_sameTimer lv lv' h)
  | setShowSelectionAlways enable =>
    simp only [Op.apply, Option.some.injEq] at h
    rw [← h]
    exact hsame _ ⟨rfl, rfl⟩
  | setHierarchyMode enable =>
    simp only [Op.apply, Option.some.injEq] at h
    rw [← h]
    exact hsame _ ⟨rfl, rfl⟩
  | setDoubleClickInterval interval =>
    simp only [Op.apply, Option.some.injEq] at h
    rw [← h]
    exact ⟨h0, hok⟩
  | setChildItemsVisible enable => exact hsame _ (setChildItemsVisible_sameTimer enable lv lv' h)
  | toggleChildItemsVisible => exact hsame _ (toggleChildItemsVisible_sameTimer lv lv' h)
  | onKey key buttons qualifiers => exact hsame _ (onKey_sameTimer c key buttons qualifiers lv lv' h)
  | mouseClick button element =>
    obtain ⟨hI, ht | ht | ht⟩ := handleUIMouseClick_timer c button element lv lv' h
    · exact hsame _ ⟨ht, hI⟩
    · unfold timerInRange
      rw [ht, hI]
      exact ⟨le_refl 0, le_trans h0 hle⟩
    · unfold timerInRange
      rw [ht, hI]
      exact ⟨le_trans h0 hle, le_refl _⟩
  | update timeStep =>
    simp only [Op.apply, Option.some.injEq] at h
    rw [← h]
    have hstep : (0 : Rat) ≤ timeStep := hok
    obtain ⟨hI, hrun, hidle⟩ := update_timer timeStep lv
    by_cases hpos : 0 < lv.mDoubleClickTimer
    · unfold timerInRange
      rw [hrun hpos, hI]
      refine ⟨le_max_right _ _, max_le ?_ (le_trans h0 hle)⟩
      linarith
    · rw [hidle hpos]
      exact ⟨h0, hle⟩

theorem runOps_timerInRange (c : InputConstants) :
    ∀ (ops : List Op) (lv lv' : ListView), timerInRange lv → keepTimer c ops lv →
      runOps c ops lv = some lv' → timerInRange lv' := by
  intro ops
  induction ops with
  | nil =>
    intro lv lv' hinv _ h
    simp only [runOps, Option.some.injEq] at h
    rw [← h]
    exact hinv
  | cons op ops ih =>
    intro lv lv' hinv hkeep h
    simp only [runOps, Option.bind_eq_some] at h
    obtain ⟨lv1, h1, h2⟩ := h
    have hrest := hkeep.2
    rw [h1] at hrest
    exact ih lv1 lv' (Op.apply_timerInRange c op lv lv1 hinv hkeep.1 h1) hrest h2

/-- C17, amended. In every state reached from a newly created list view by public
calls in which every `update` gets a time step that is not negative and every
`setDoubleClickInterval` gets an interval that is not below the timer at the time
of the call, the timer lies in `[0, doubleClickInterval]`; and in such a state
`update(timeStep)` maps a running timer `t > 0` to `max (t - timeStep) 0`, which
is not negative, and leaves the interval alone. -/
theorem timer_in_range_of_kept_calls (c : InputConstants) (ops : List Op) (lv' : ListView)
    (hkeep : keepTimer c ops ListView.create)
    (hrun : runOps c ops ListView.create = some lv') :
    timerInRange lv' ∧
    ∀ timeStep : Rat, 0 < lv'.mDoubleClickTimer →
      (update timeStep lv').mDoubleClickTimer = max (lv'.mDoubleClickTimer - timeStep) 0 ∧
      0 ≤ (update timeStep lv').mDoubleClickTimer ∧
      (update timeStep lv').mDoubleClickInterval = lv'.mDoubleClickInterval := by
  refine ⟨runOps_timerInRange c ops ListView.create lv' ?_ hkeep hrun, ?_⟩
  · exact ⟨le_refl _, by decide!⟩
  · intro timeStep hpos
    obtain ⟨hI, hrunning, _⟩ := update_timer timeStep lv'
    refine ⟨hrunning hpos, ?_, hI⟩
    rw [hrunning hpos]
    exact le_max_right _ _

/-- Witness for C17 (amended): an item is added and clicked, a quarter of a second
passes and the interval is raised to 1; the timer is then 1/4. -/
theorem timer_in_range_of_kept_calls_witness :
    keepTimer exampleConstants clickThenWait ListView.create ∧
    ∃ lv', runOps exampleConstants clickThenWait ListView.create = some lv' ∧
      lv'.mDoubleClickTimer = mkRat 1 4 ∧ lv'.mDoubleClickInterval = 1 ∧
      timerInRange lv' := by
  have hsome : (runOps exampleConstants clickThenWait ListView.create).isSome = true := by
    decide!
  obtain ⟨lv', h⟩ := Option.isSome_iff_exists.mp hsome
  have ht : (runOps exampleConstants clickThenWait ListView.create).map
      (fun lv => (lv.mDoubleClickTimer, lv.mDoubleClickInterval)) = some (mkRat 1 4, 1) := by
    decide!
  rw [h] at ht
  simp only [Option.map_some', Option.some.injEq, Prod.mk.injEq] at ht
  exact ⟨by decide!, lv', h, ht.1, ht.2,
    (timer_in_range_of_kept_calls exampleConstants clickThenWait lv' (by decide!) h).1⟩

end Urho3D
